import Mathlib

/-!
Verification of the ANGLE `RewritePixelLocalStorage` lowering pass
(`compiler/translator/tree_ops/RewritePixelLocalStorage.cpp`).

The development shallowly embeds the pass: the integer semantics of the
GLSL code generated by the image strategy's pack/unpack/clamp paths, the
AST node kinds the pass consumes and produces, the two rewrite traversals
(image strategy and framebuffer-fetch strategy), the setup/finalize
injections, and the orchestrating entry point.
-/

namespace PLSRewrite

/-! ### Integer semantics of the generated GLSL (image strategy, R32 packing)

Models the value semantics of the expressions emitted by
`RewritePLSToImagesTraverser::clampAndPackPLSDataIfNecessary` (clamp / min /
`&= 0xff` / `r | (g << 8) | (b << 16) | (a << 24)`) and
`unpackImageDataIfNecessary` (`data.rrrr << uvec4(24,16,8,0) >> 24u`).
Signed `highp int` values are exactly 32-bit two's complement; a stored word
is represented by its bit pattern, a `Nat` below `2 ^ 32`. -/

/-- Two's-complement reading of a 32-bit word as a signed integer. -/
def toSInt32 (w : Nat) : Int := if w < 2 ^ 31 then (w : Int) else (w : Int) - 2 ^ 32

/-- GLSL `clamp(x, -128, 127)` on a signed integer component
(`clampAndPackPLSDataIfNecessary`, `EiifRGBA8I` case). -/
def clampI8 (x : Int) : Int := min (max x (-128)) 127

/-- GLSL `min(x, 255u)` on an unsigned integer component
(`clampAndPackPLSDataIfNecessary`, `EiifRGBA8UI` case). -/
def minU8 (x : Nat) : Nat := min x 255

/-- GLSL `x &= 0xff` on a signed int32 component: keeps the low byte of the
two's-complement bit pattern ("mask off extra sign bits beyond 8"). -/
def maskByte (x : Int) : Int := x % 256

/-- Bit pattern of the packed word `r | (g << 8) | (b << 16) | (a << 24)`
built by `clampAndPackPLSDataIfNecessary` for the 4x8 integer formats. -/
def packBytes (b0 b1 b2 b3 : Nat) : Nat :=
  b0 ||| (b1 <<< 8) ||| (b2 <<< 16) ||| (b3 <<< 24)

/-- One channel of the signed unpack `data.rrrr << uvec4(24,16,8,0) >> 24u`:
left-shift the 32-bit word (wrapping), then arithmetic-right-shift by 24.
`Int` right shift in Lean is arithmetic, matching `highp int` semantics. -/
def unpackSignedChannel (w sh : Nat) : Int := toSInt32 ((w <<< sh) % 2 ^ 32) >>> (24 : Nat)

/-- One channel of the unsigned unpack: for `uint` the right shift is logical. -/
def unpackUnsignedChannel (w sh : Nat) : Nat := ((w <<< sh) % 2 ^ 32) >>> 24

/-- Four signed int32 components (an `ivec4` value). -/
structure IVec4 where
  x : Int
  y : Int
  z : Int
  w : Int
deriving DecidableEq, Repr

/-- Four unsigned int32 components (a `uvec4` value). -/
structure UVec4 where
  x : Nat
  y : Nat
  z : Nat
  w : Nat
deriving DecidableEq, Repr

/-- Componentwise `clamp(plsVar, -128, 127)`. -/
def clamp4I (v : IVec4) : IVec4 := ⟨clampI8 v.x, clampI8 v.y, clampI8 v.z, clampI8 v.w⟩

/-- Componentwise `plsVar &= 0xff`. -/
def mask4 (v : IVec4) : IVec4 := ⟨maskByte v.x, maskByte v.y, maskByte v.z, maskByte v.w⟩

/-- Componentwise `min(plsVar, 255u)`. -/
def min4U (v : UVec4) : UVec4 := ⟨minU8 v.x, minU8 v.y, minU8 v.z, minU8 v.w⟩

/-- Store-hook packing for `EiifRGBA8I` (sans clamp): mask each channel to its
low byte, then OR-combine the channels shifted by `{0,8,16,24}`. -/
def packRGBA8I (v : IVec4) : Nat :=
  let m := mask4 v
  packBytes m.x.toNat m.y.toNat m.z.toNat m.w.toNat

/-- Store-hook packing for `EiifRGBA8UI` (sans min): OR-combine the channels
shifted by `{0,8,16,24}`. -/
def packRGBA8UI (v : UVec4) : Nat := packBytes v.x v.y v.z v.w

/-- Load-hook unpacking for `EiifRGBA8I`: broadcast the word to four copies,
shift left by `{24,16,8,0}`, arithmetic-shift right by 24. -/
def unpackRGBA8I (w : Nat) : IVec4 :=
  ⟨unpackSignedChannel w 24, unpackSignedChannel w 16,
   unpackSignedChannel w 8, unpackSignedChannel w 0⟩

/-- Load-hook unpacking for `EiifRGBA8UI`: broadcast, shift left by
`{24,16,8,0}`, logical-shift right by 24. -/
def unpackRGBA8UI (w : Nat) : UVec4 :=
  ⟨unpackUnsignedChannel w 24, unpackUnsignedChannel w 16,
   unpackUnsignedChannel w 8, unpackUnsignedChannel w 0⟩

/-- Full store-then-load word for the signed format: clamp, mask, pack
(the sequence `visitPLSStore` emits before the `imageStore`). -/
def storeWordRGBA8I (v : IVec4) : Nat := packRGBA8I (clamp4I v)

/-- Full store-then-load word for the unsigned format: min, pack. -/
def storeWordRGBA8UI (v : UVec4) : Nat := packRGBA8UI (min4U v)

/-! ### Configuration and AST model

A shallow embedding of the node kinds `RewritePixelLocalStorage.cpp` consumes
and produces. Variables are identified by their role: the replacement image,
the global pixel coordinate, temporaries from `CreateTempVariable` (by a
counter id), framebuffer-fetch access/fragment variables (by binding) and user
fragment outputs (by a numeric id plus their declared location qualifier,
`none` meaning the location layout qualifier is unspecified, i.e.
`location < 0` in the source). -/

/-- `TLayoutImageInternalFormat` values this pass distinguishes. -/
inductive InternalFormat where
  | RGBA8 | RGBA8I | RGBA8UI | R32F | R32UI | R32I
deriving DecidableEq, Repr

/-- `ShPixelLocalStorageType` values `RewritePixelLocalStorage` dispatches on. -/
inductive ShPixelLocalStorageType where
  | ImageStoreR32PackedFormats | ImageStoreNativeFormats | FramebufferFetch
deriving DecidableEq, Repr

/-- `ShFragmentSynchronizationType` values the pass distinguishes. -/
inductive ShFragmentSynchronizationType where
  | NotSupported | RasterizerOrderViews_D3D | FragmentShaderInterlock_NV_GL
  | FragmentShaderOrdering_INTEL_GL | FragmentShaderInterlock_ARB_GL
deriving DecidableEq, Repr

/-- The `pls` member of `ShCompileOptions`. -/
structure PLSOptions where
  type : ShPixelLocalStorageType
  fragmentSynchronizationType : ShFragmentSynchronizationType
deriving DecidableEq, Repr

/-- The compile options consulted by the pass. -/
structure ShCompileOptions where
  pls : PLSOptions
  passHighpToPackUnormSnormBuiltins : Bool
deriving DecidableEq, Repr

/-- The compiler resource limits consulted by the pass. -/
structure ShBuiltInResources where
  MaxCombinedDrawBuffersAndPixelLocalStoragePlanes : Int
deriving DecidableEq, Repr

/-- Built-in functions called via `CreateBuiltInFunctionCallNode`. -/
inductive Builtin where
  | imageLoad | imageStore | memoryBarrierImage
  | unpackUnorm4x8 | packUnorm4x8 | clamp | min | floor
  | beginInvocationInterlockNV | beginFragmentShaderOrderingINTEL
  | beginInvocationInterlockARB | endInvocationInterlockNV | endInvocationInterlockARB
deriving DecidableEq, Repr

/-- Types of constructor nodes (`TIntermAggregate::CreateConstructor`). -/
inductive ConstructorType where
  | vec4 | ivec4 | uvec4 | ivec2
deriving DecidableEq, Repr

/-- Base numeric kinds (`DataTypeOfPLSType` / `DataTypeOfImageType`). -/
inductive BasicKind where
  | float | int | uint
deriving DecidableEq, Repr

/-- Binary operator node kinds (`TIntermBinary`) the pass creates. -/
inductive BinOp where
  | bitShiftLeft | bitShiftRight | bitwiseOr
deriving DecidableEq, Repr

/-- Expression nodes: the PLS load operation the pass consumes, the node kinds
it emits, and generic combining nodes for surrounding user code.
`plsLoad b fmt` is `pixelLocalLoadANGLE(plsSymbol)` for a PLS symbol with
binding `b` and internal format `fmt`. -/
inductive Expr where
  | intConst (n : Int)
  | uintConst (n : Nat)
  | floatConst (n : Int)
  | uvecConst (ns : List Nat)
  | imageSym (b : Nat)
  | coordSym
  | tempSym (t : Nat)
  | accessSym (b : Nat)
  | fragSym (b : Nat)
  | outSym (v : Nat) (loc : Option Int)
  | fragCoordSym
  | plsLoad (b : Nat) (fmt : InternalFormat)
  | call0 (f : Builtin)
  | call1 (f : Builtin) (a : Expr)
  | call2 (f : Builtin) (a b : Expr)
  | call3 (f : Builtin) (a b c : Expr)
  | binop (op : BinOp) (a b : Expr)
  | swizzle (e : Expr) (offsets : List Nat)
  | construct1 (t : ConstructorType) (a : Expr)
  | construct4 (t : ConstructorType) (a b c d : Expr)
deriving DecidableEq, Repr

/-- Statement-position nodes. `plsDecl` is a declaration of a PLS-typed
uniform; `plsStore b fmt value` is `pixelLocalStoreANGLE(plsSymbol, value)`. -/
inductive Stmt where
  | plsDecl (b : Nat) (fmt : InternalFormat)
  | imageDecl (b : Nat) (fmt : InternalFormat) (rasterOrdered : Bool)
  | fragVarDecl (b : Nat) (loc : Int) (noncoherent : Bool)
  | accessVarDecl (b : Nat) (size : Nat)
  | outDecl (v : Nat) (loc : Option Int)
  | coordDecl
  | tempDecl (t : Nat) (init : Expr)
  | assign (lhs rhs : Expr)
  | andAssign (t : Nat) (mask : Int)
  | exprStmt (e : Expr)
  | plsStore (b : Nat) (fmt : InternalFormat) (value : Expr)
  | block (ss : List Stmt)

/-- A program: the global (top-level) declarations followed by the body of
`main()`. The traverser walks the whole tree in this order. -/
structure Program where
  topLevel : List Stmt
  mainBody : List Stmt

/-! ### Backing-store registry (`PLSBackingStoreMap`)

Modelled as an association list kept sorted by binding, mirroring `std::map`
iteration order. `insertNew` fails (assertion) if the binding is present;
`findBS` fails if it is absent. -/

/-- `PLSBackingStoreMap::insertNew`. -/
def insertNew {α : Type} (b : Nat) (v : α) : List (Nat × α) → Option (List (Nat × α))
  | [] => some [(b, v)]
  | (k, w) :: rest =>
    if b < k then some ((b, v) :: (k, w) :: rest)
    else if b = k then none
    else (insertNew b v rest).map fun m => (k, w) :: m

/-- `PLSBackingStoreMap::find`. -/
def findBS {α : Type} (b : Nat) : List (Nat × α) → Option α
  | [] => none
  | (k, w) :: rest => if b = k then some w else findBS b rest

/-! ### Image strategy (`RewritePLSToImagesTraverser`) -/

/-- Traverser state: the registry of replacement images (binding to image
internal format), whether `mGlobalPixelCoord` has been allocated, and the
counter backing `CreateTempVariable`. -/
structure ImagesState where
  images : List (Nat × InternalFormat)
  globalPixelCoord : Bool
  nextTemp : Nat
deriving DecidableEq, Repr

/-- `RewritePLSToImagesTraverser::needsR32Packing`. -/
def needsR32Packing (opts : ShCompileOptions) : Bool :=
  opts.pls.type = ShPixelLocalStorageType.ImageStoreR32PackedFormats

/-- Internal format of the replacement image built by
`createPLSImageReplacement` (the `switch` on `imageInternalFormat`);
an unexpected format is `UNREACHABLE`. -/
def plsImageFormat (needsPacking : Bool) : InternalFormat → Option InternalFormat
  | .RGBA8 => some (if needsPacking then .R32UI else .RGBA8)
  | .RGBA8I => some (if needsPacking then .R32I else .RGBA8I)
  | .RGBA8UI => some (if needsPacking then .R32UI else .RGBA8UI)
  | .R32F => some .R32F
  | .R32UI => some .R32UI
  | .R32I => none

/-- `DataTypeOfImageType` of the replacement image's basic type, as fixed by
`createPLSImageReplacement` for each internal format. -/
def imageBasic : InternalFormat → BasicKind
  | .RGBA8 => .float
  | .RGBA8I => .int
  | .RGBA8UI => .uint
  | .R32F => .float
  | .R32UI => .uint
  | .R32I => .int

/-- Constructor type for a 4-component vector of a basic kind
(`TType imageStoreType(DataTypeOfImageType(...), 4)`). -/
def vec4Of : BasicKind → ConstructorType
  | .float => .vec4
  | .int => .ivec4
  | .uint => .uvec4

/-- `RewritePLSToImagesTraverser::unpackImageDataIfNecessary`. -/
def unpackImageDataIfNecessary (needsPacking : Bool) (data : Expr)
    (plsFormat imageFormat : InternalFormat) : Option Expr :=
  if plsFormat = imageFormat then some data
  else if ¬needsPacking then none
  else
    match plsFormat with
    | .RGBA8 => some (.call1 .unpackUnorm4x8 (.swizzle data [0]))
    | .RGBA8I | .RGBA8UI =>
      some (.binop .bitShiftRight
        (.binop .bitShiftLeft (.swizzle data [0, 0, 0, 0]) (.uvecConst [24, 16, 8, 0]))
        (.uintConst 24))
    | _ => none

/-- The shifted channel `plsVar[i] << (i*8)` of the integer pack
(`shiftComponent` in `clampAndPackPLSDataIfNecessary`). -/
def shiftComponent (t : Nat) (componentIdx : Nat) : Expr :=
  .binop .bitShiftLeft (.swizzle (.tempSym t) [componentIdx]) (.uintConst (componentIdx * 8))

/-- The packed expression `r | (g << 8) | (b << 16) | (a << 24)` built over the
hoisted temporary `t`. -/
def packIntChannels (t : Nat) : Expr :=
  .binop .bitwiseOr
    (.binop .bitwiseOr
      (.binop .bitwiseOr (.swizzle (.tempSym t) [0]) (shiftComponent t 1))
      (shiftComponent t 2))
    (shiftComponent t 3)

/-- The clamp statement inserted by `clampAndPackPLSDataIfNecessary` before
the store for the two integer formats (`plsVar = clamp(plsVar, -128, 127)`
resp. `plsVar = min(plsVar, 255)`). -/
def clampPLSStmts (t : Nat) : InternalFormat → List Stmt
  | .RGBA8I =>
    [.assign (.tempSym t)
      (.call3 .clamp (.tempSym t) (.intConst (-128)) (.intConst 127))]
  | .RGBA8UI =>
    [.assign (.tempSym t) (.call2 .min (.tempSym t) (.uintConst 255))]
  | _ => []

/-- `RewritePLSToImagesTraverser::clampAndPackPLSDataIfNecessary` applied to
the hoisted temporary `t`: returns the statements inserted before the store,
the packed data expression, and the updated temp counter. -/
def clampAndPackPLSDataIfNecessary (opts : ShCompileOptions) (t : Nat)
    (plsFormat imageFormat : InternalFormat) (nextTemp : Nat) :
    Option (List Stmt × Expr × Nat) :=
  let clampStmts : List Stmt := clampPLSStmts t plsFormat
  if plsFormat = imageFormat then some (clampStmts, .tempSym t, nextTemp)
  else if ¬needsR32Packing opts then none
  else
    match plsFormat with
    | .RGBA8 =>
      if opts.passHighpToPackUnormSnormBuiltins then
        some (clampStmts ++ [.tempDecl nextTemp (.tempSym t)],
          .construct1 (vec4Of (imageBasic imageFormat))
            (.call1 .packUnorm4x8 (.tempSym nextTemp)),
          nextTemp + 1)
      else
        some (clampStmts,
          .construct1 (vec4Of (imageBasic imageFormat))
            (.call1 .packUnorm4x8 (.tempSym t)),
          nextTemp)
    | .RGBA8I =>
      some (clampStmts ++ [.andAssign t 255],
        .construct1 (vec4Of (imageBasic imageFormat)) (packIntChannels t), nextTemp)
    | .RGBA8UI =>
      some (clampStmts,
        .construct1 (vec4Of (imageBasic imageFormat)) (packIntChannels t), nextTemp)
    | _ => none

/-- Expression rewriting under the image strategy: every `pixelLocalLoadANGLE`
becomes `imageLoad(image, coord)` wrapped by `unpackImageDataIfNecessary`
(`visitPLSLoad`), with the traversal recursing into all other nodes. -/
def rwExprImages (opts : ShCompileOptions) (s : ImagesState) : Expr → Option Expr
  | .plsLoad b fmt => do
    let imageFormat ← findBS b s.images
    if ¬s.globalPixelCoord then none
    else
      let data := Expr.call2 .imageLoad (.imageSym b) .coordSym
      unpackImageDataIfNecessary (needsR32Packing opts) data fmt imageFormat
  | .call1 f a => do some (.call1 f (← rwExprImages opts s a))
  | .call2 f a c => do some (.call2 f (← rwExprImages opts s a) (← rwExprImages opts s c))
  | .call3 f a c d => do
    some (.call3 f (← rwExprImages opts s a) (← rwExprImages opts s c)
      (← rwExprImages opts s d))
  | .binop op a c => do some (.binop op (← rwExprImages opts s a) (← rwExprImages opts s c))
  | .swizzle a offs => do some (.swizzle (← rwExprImages opts s a) offs)
  | .construct1 ty a => do some (.construct1 ty (← rwExprImages opts s a))
  | .construct4 ty a c d e => do
    some (.construct4 ty (← rwExprImages opts s a) (← rwExprImages opts s c)
      (← rwExprImages opts s d) (← rwExprImages opts s e))
  | e => some e

/-- `RewritePLSToImagesTraverser::visitPLSDeclaration`: ensure the global
pixel coordinate exists (inserted before the declaration on first use), build
the replacement image, register it, and replace the declaration. -/
def visitPLSDeclarationImages (opts : ShCompileOptions) (s : ImagesState)
    (b : Nat) (fmt : InternalFormat) : Option (ImagesState × List Stmt) := do
  let (pre, s₁) :=
    if s.globalPixelCoord then ([], s)
    else ([Stmt.coordDecl], { s with globalPixelCoord := true })
  let imageFormat ← plsImageFormat (needsR32Packing opts) fmt
  let images' ← insertNew b imageFormat s₁.images
  some ({ s₁ with images := images' },
    pre ++ [.imageDecl b imageFormat
      (opts.pls.fragmentSynchronizationType =
        ShFragmentSynchronizationType.RasterizerOrderViews_D3D)])

/-- `RewritePLSToImagesTraverser::visitPLSStore` applied to the hoisted
temporary `t`: clamp-and-pack insertions, the `memoryBarrierImage` pair
around the store, and the replacement `imageStore`. Returns the statements
inserted before, the replacement, and the statements inserted after. -/
def visitPLSStoreImages (opts : ShCompileOptions) (s : ImagesState) (b : Nat)
    (fmt : InternalFormat) (t : Nat) :
    Option (ImagesState × List Stmt × Stmt × List Stmt) := do
  let imageFormat ← findBS b s.images
  let (pre, packedData, nt) ←
    clampAndPackPLSDataIfNecessary opts t fmt imageFormat s.nextTemp
  if ¬s.globalPixelCoord then none
  else
    some ({ s with nextTemp := nt },
      pre ++ [.exprStmt (.call0 .memoryBarrierImage)],
      .exprStmt (.call3 .imageStore (.imageSym b) .coordSym packedData),
      [.exprStmt (.call0 .memoryBarrierImage)])

mutual

/-- Statement rewriting under the image strategy. A statement maps to the
list consisting of the statements inserted before it in its parent block, its
replacement (or itself), and the statements inserted after it. -/
def rwStmtImages (opts : ShCompileOptions) (s : ImagesState) :
    Stmt → Option (ImagesState × List Stmt)
  | .plsDecl b fmt => visitPLSDeclarationImages opts s b fmt
  | .plsStore b fmt value => do
    let t := s.nextTemp
    let s₁ := { s with nextTemp := t + 1 }
    let value' ← rwExprImages opts s₁ value
    let (s₂, pre, repl, post) ← visitPLSStoreImages opts s₁ b fmt t
    some (s₂, Stmt.tempDecl t value' :: pre ++ [repl] ++ post)
  | .block ss => do
    let (s', ss') ← rwStmtsImages opts s ss
    some (s', [.block ss'])
  | .tempDecl t e => do some (s, [.tempDecl t (← rwExprImages opts s e)])
  | .assign l r => do
    some (s, [.assign (← rwExprImages opts s l) (← rwExprImages opts s r)])
  | .exprStmt e => do some (s, [.exprStmt (← rwExprImages opts s e)])
  | st => some (s, [st])

/-- Rewriting of a statement sequence under the image strategy. -/
def rwStmtsImages (opts : ShCompileOptions) (s : ImagesState) :
    List Stmt → Option (ImagesState × List Stmt)
  | [] => some (s, [])
  | st :: rest => do
    let (s₁, out₁) ← rwStmtImages opts s st
    let (s₂, out₂) ← rwStmtsImages opts s₁ rest
    some (s₂, out₁ ++ out₂)

end

/-- `RewritePLSToImagesTraverser::injectSetupCode`: the begin-critical-section
intrinsic inserted at the given position of `main` (position 0), selected by
the synchronization mechanism; rasterizer-ordered views and "not supported"
insert nothing. -/
def injectSetupCodeImages : ShFragmentSynchronizationType → List Stmt
  | .RasterizerOrderViews_D3D => []
  | .NotSupported => []
  | .FragmentShaderInterlock_NV_GL => [.exprStmt (.call0 .beginInvocationInterlockNV)]
  | .FragmentShaderOrdering_INTEL_GL =>
    [.exprStmt (.call0 .beginFragmentShaderOrderingINTEL)]
  | .FragmentShaderInterlock_ARB_GL => [.exprStmt (.call0 .beginInvocationInterlockARB)]

/-- `RewritePLSToImagesTraverser::injectFinalizeCode`: the matching end
intrinsic; the INTEL ordering extension has no end call. -/
def injectFinalizeCodeImages : ShFragmentSynchronizationType → List Stmt
  | .RasterizerOrderViews_D3D => []
  | .FragmentShaderOrdering_INTEL_GL => []
  | .NotSupported => []
  | .FragmentShaderInterlock_NV_GL => [.exprStmt (.call0 .endInvocationInterlockNV)]
  | .FragmentShaderInterlock_ARB_GL => [.exprStmt (.call0 .endInvocationInterlockARB)]

/-! ### Framebuffer-fetch strategy (`RewritePLSToFramebufferFetchTraverser`) -/

/-- The data of a `PLSAttachment`: the component count and basic kind of the
scratch `accessVar`, the explicit output location of the `inout` fragment
variable, and whether it carries the `noncoherent` qualifier. -/
structure PLSAttachment where
  size : Nat
  basic : BasicKind
  loc : Int
  noncoherent : Bool
deriving DecidableEq, Repr

/-- The `PLSAttachment` constructor: scratch type from the internal format
(an unexpected format is `UNREACHABLE`), attachment location counted down
from `MaxCombinedDrawBuffersAndPixelLocalStoragePlanes`, `noncoherent` iff no
synchronization mechanism is available. -/
def mkPLSAttachment (resources : ShBuiltInResources) (opts : ShCompileOptions)
    (b : Nat) (fmt : InternalFormat) : Option PLSAttachment := do
  let (size, basic) ←
    match fmt with
    | .RGBA8 => some ((4 : Nat), BasicKind.float)
    | .RGBA8I => some ((4 : Nat), BasicKind.int)
    | .RGBA8UI => some ((4 : Nat), BasicKind.uint)
    | .R32F => some ((1 : Nat), BasicKind.float)
    | .R32UI => some ((1 : Nat), BasicKind.uint)
    | .R32I => none
  some
    { size := size, basic := basic,
      loc := resources.MaxCombinedDrawBuffersAndPixelLocalStoragePlanes - (b : Int) - 1,
      noncoherent :=
        opts.pls.fragmentSynchronizationType =
          ShFragmentSynchronizationType.NotSupported }

/-- `PLSAttachment::swizzle` applied to a 4-component variable reference:
swizzles it down to the attachment's component count when narrower. -/
def swizzled (e : Expr) (attSize : Nat) : Expr :=
  if attSize = 4 then e else .swizzle e (List.range attSize)

/-- `PLSAttachment::expandAccessVar`: a 1-component scratch is expanded to
4 components with fill values 0,0,1; the basic kind of a 1-component scratch
is never `int` (`UNREACHABLE`). -/
def expandAccessVar (b : Nat) (a : PLSAttachment) : Option Expr :=
  if a.size = 1 then
    match a.basic with
    | .float =>
      some (.construct4 .vec4 (.accessSym b) (.floatConst 0) (.floatConst 0) (.floatConst 1))
    | .uint =>
      some (.construct4 .uvec4 (.accessSym b) (.uintConst 0) (.uintConst 0) (.uintConst 1))
    | .int => none
  else some (.accessSym b)

/-- `PLSAttachment::swizzleFragmentVar`. -/
def swizzleFragmentVar (b : Nat) (a : PLSAttachment) : Expr :=
  swizzled (.fragSym b) a.size

/-- Traverser state of the framebuffer-fetch strategy: the registry of
attachments, the set of rewritten fragment outputs (`mRewrittenOutputs`), and
the temp counter. -/
structure FbState where
  atts : List (Nat × PLSAttachment)
  rewrittenOutputs : List Nat
  nextTemp : Nat
deriving DecidableEq, Repr

/-- Expression rewriting under the framebuffer-fetch strategy: every
`pixelLocalLoadANGLE` becomes a read of the scratch variable expanded to 4
components (`visitPLSLoad`), and every reference to a rewritten output
variable is redirected to the relocated variable (`visitSymbol`). -/
def rwExprFb (s : FbState) : Expr → Option Expr
  | .plsLoad b _ => do
    let a ← findBS b s.atts
    expandAccessVar b a
  | .outSym v loc =>
    if loc = none ∧ v ∈ s.rewrittenOutputs then some (.outSym v (some 0))
    else some (.outSym v loc)
  | .call1 f a => do some (.call1 f (← rwExprFb s a))
  | .call2 f a c => do some (.call2 f (← rwExprFb s a) (← rwExprFb s c))
  | .call3 f a c d => do
    some (.call3 f (← rwExprFb s a) (← rwExprFb s c) (← rwExprFb s d))
  | .binop op a c => do some (.binop op (← rwExprFb s a) (← rwExprFb s c))
  | .swizzle a offs => do some (.swizzle (← rwExprFb s a) offs)
  | .construct1 ty a => do some (.construct1 ty (← rwExprFb s a))
  | .construct4 ty a c d e => do
    some (.construct4 ty (← rwExprFb s a) (← rwExprFb s c) (← rwExprFb s d)
      (← rwExprFb s e))
  | e => some e

/-- `RewritePLSToFramebufferFetchTraverser::visitPLSDeclaration`: build the
attachment, register it, insert the `inout` fragment variable declaration
before the PLS declaration and replace the declaration by the scratch
variable's declaration. -/
def visitPLSDeclarationFb (resources : ShBuiltInResources) (opts : ShCompileOptions)
    (s : FbState) (b : Nat) (fmt : InternalFormat) : Option (FbState × List Stmt) := do
  let a ← mkPLSAttachment resources opts b fmt
  let atts' ← insertNew b a s.atts
  some ({ s with atts := atts' },
    [.fragVarDecl b a.loc a.noncoherent, .accessVarDecl b a.size])

mutual

/-- Statement rewriting under the framebuffer-fetch strategy, including the
override of `visitDeclaration` that rewrites a fragment output with an
unspecified location to an otherwise-identical declaration with explicit
`location = 0`, recording it in `mRewrittenOutputs`. -/
def rwStmtFb (resources : ShBuiltInResources) (opts : ShCompileOptions)
    (s : FbState) : Stmt → Option (FbState × List Stmt)
  | .plsDecl b fmt => visitPLSDeclarationFb resources opts s b fmt
  | .outDecl v loc =>
    match loc with
    | none =>
      some ({ s with rewrittenOutputs := v :: s.rewrittenOutputs },
        [.outDecl v (some 0)])
    | some l => some (s, [.outDecl v (some l)])
  | .plsStore b fmt value => do
    let t := s.nextTemp
    let s₁ := { s with nextTemp := t + 1 }
    let value' ← rwExprFb s₁ value
    let a ← findBS b s₁.atts
    some (s₁, [Stmt.tempDecl t value',
      .assign (.accessSym b) (swizzled (.tempSym t) a.size)])
  | .block ss => do
    let (s', ss') ← rwStmtsFb resources opts s ss
    some (s', [.block ss'])
  | .tempDecl t e => do some (s, [.tempDecl t (← rwExprFb s e)])
  | .assign l r => do some (s, [.assign (← rwExprFb s l) (← rwExprFb s r)])
  | .exprStmt e => do some (s, [.exprStmt (← rwExprFb s e)])
  | st => some (s, [st])

/-- Rewriting of a statement sequence under the framebuffer-fetch strategy. -/
def rwStmtsFb (resources : ShBuiltInResources) (opts : ShCompileOptions)
    (s : FbState) : List Stmt → Option (FbState × List Stmt)
  | [] => some (s, [])
  | st :: rest => do
    let (s₁, out₁) ← rwStmtFb resources opts s st
    let (s₂, out₂) ← rwStmtsFb resources opts s₁ rest
    some (s₂, out₁ ++ out₂)

end

/-- `RewritePLSToFramebufferFetchTraverser::injectSetupCode`: for every
registered attachment, in ascending binding order, assign the scratch
variable from the (possibly swizzled) attachment value. -/
def injectSetupCodeFb (s : FbState) : List Stmt :=
  s.atts.map fun p => .assign (.accessSym p.1) (swizzleFragmentVar p.1 p.2)

/-- `RewritePLSToFramebufferFetchTraverser::injectFinalizeCode`: for every
registered attachment, in ascending binding order, assign the (possibly
swizzled) attachment from the scratch variable. -/
def injectFinalizeCodeFb (s : FbState) : List Stmt :=
  s.atts.map fun p => .assign (swizzleFragmentVar p.1 p.2) (.accessSym p.1)

/-! ### Orchestrator (`RewritePixelLocalStorage`) -/

/-- The initialization `pixelCoord = ivec2(floor(gl_FragCoord.xy))` prepended
at body position 0 when the traverser allocated the global pixel coord. -/
def coordInitStmt : Stmt :=
  .assign .coordSym
    (.construct1 .ivec2 (.call1 .floor (.swizzle .fragCoordSym [0, 1])))

/-- Result of the pass: the rewritten program and whether
`specifyEarlyFragmentTests` was called on the compiler. -/
structure RewriteResult where
  prog : Program
  earlyFragmentTests : Bool

/-- The pass entry point `RewritePixelLocalStorage` (after the
monomorphization precondition): select the strategy from the compile options,
traverse the tree and apply the queued rewrites, inject setup code at body
position 0 and finalize code at the end, then prepend the global pixel coord
initialization if one was allocated. `none` models an assertion failure. -/
def RewritePixelLocalStorage (resources : ShBuiltInResources)
    (opts : ShCompileOptions) (p : Program) : Option RewriteResult :=
  match opts.pls.type with
  | .ImageStoreR32PackedFormats | .ImageStoreNativeFormats => do
    let s0 : ImagesState := ⟨[], false, 0⟩
    let (s₁, top') ← rwStmtsImages opts s0 p.topLevel
    let (s₂, body₁) ← rwStmtsImages opts s₁ p.mainBody
    let body₂ := injectSetupCodeImages opts.pls.fragmentSynchronizationType ++ body₁ ++
      injectFinalizeCodeImages opts.pls.fragmentSynchronizationType
    let body₃ := if s₂.globalPixelCoord then coordInitStmt :: body₂ else body₂
    some ⟨⟨top', body₃⟩, true⟩
  | .FramebufferFetch => do
    let s0 : FbState := ⟨[], [], 0⟩
    let (s₁, top') ← rwStmtsFb resources opts s0 p.topLevel
    let (s₂, body₁) ← rwStmtsFb resources opts s₁ p.mainBody
    let body₂ := injectSetupCodeFb s₂ ++ body₁ ++ injectFinalizeCodeFb s₂
    some ⟨⟨top', body₂⟩, false⟩

/-! ### Node counting

A generic fold summing a per-node weight over a tree, used to state the
claims ("exactly N backing-store declarations", "zero remaining PLS
operations anywhere in the tree", ...). -/

/-- Sum of a per-node weight over an expression tree. -/
def weighE (q : Expr → Nat) : Expr → Nat
  | e@(.call1 _ a) => q e + weighE q a
  | e@(.call2 _ a b) => q e + weighE q a + weighE q b
  | e@(.call3 _ a b c) => q e + weighE q a + weighE q b + weighE q c
  | e@(.binop _ a b) => q e + weighE q a + weighE q b
  | e@(.swizzle a _) => q e + weighE q a
  | e@(.construct1 _ a) => q e + weighE q a
  | e@(.construct4 _ a b c d) =>
    q e + weighE q a + weighE q b + weighE q c + weighE q d
  | e => q e

mutual

/-- Sum of per-node weights over a statement tree (`p` weighs statement
nodes, `q` weighs expression nodes). -/
def weighS (p : Stmt → Nat) (q : Expr → Nat) : Stmt → Nat
  | st@(.tempDecl _ e) => p st + weighE q e
  | st@(.assign l r) => p st + weighE q l + weighE q r
  | st@(.exprStmt e) => p st + weighE q e
  | st@(.plsStore _ _ v) => p st + weighE q v
  | st@(.block ss) => p st + weighSs p q ss
  | st => p st

/-- Sum of per-node weights over a statement sequence. -/
def weighSs (p : Stmt → Nat) (q : Expr → Nat) : List Stmt → Nat
  | [] => 0
  | st :: rest => weighS p q st + weighSs p q rest

end

/-- Sum of per-node weights over a whole program. -/
def weighP (p : Stmt → Nat) (q : Expr → Nat) (prog : Program) : Nat :=
  weighSs p q prog.topLevel + weighSs p q prog.mainBody

/-- Weight of a `pixelLocalLoadANGLE` node. -/
def loadW : Expr → Nat
  | .plsLoad _ _ => 1
  | _ => 0

/-- Weight of a `pixelLocalStoreANGLE` node. -/
def storeW : Stmt → Nat
  | .plsStore _ _ _ => 1
  | _ => 0

/-- Weight of a PLS-typed declaration. -/
def plsDeclW : Stmt → Nat
  | .plsDecl _ _ => 1
  | _ => 0

/-- Weight of a replacement image declaration. -/
def imageDeclW : Stmt → Nat
  | .imageDecl _ _ _ => 1
  | _ => 0

/-- Weight of an `inout` attachment variable declaration. -/
def fragVarDeclW : Stmt → Nat
  | .fragVarDecl _ _ _ => 1
  | _ => 0

/-- Weight of a scratch (access) variable declaration. -/
def accessVarDeclW : Stmt → Nat
  | .accessVarDecl _ _ => 1
  | _ => 0

/-- Weight of the global pixel coordinate declaration. -/
def coordDeclW : Stmt → Nat
  | .coordDecl => 1
  | _ => 0

/-- Weight of a call to a given built-in (as a bare `call0` node). -/
def callW (f : Builtin) : Expr → Nat
  | .call0 g => if g = f then 1 else 0
  | _ => 0

/-- Weight of a reference to an attachment fragment variable. -/
def fragSymW : Expr → Nat
  | .fragSym _ => 1
  | _ => 0

/-- Weight of a reference to a given user output variable with unspecified
location. -/
def outSymNoneW (v : Nat) : Expr → Nat
  | .outSym u loc => if u = v ∧ loc = none then 1 else 0
  | _ => 0

/-- Weight of a declaration of a user output variable with unspecified
location. -/
def outDeclNoneW : Stmt → Nat
  | .outDecl _ loc => if loc = none then 1 else 0
  | _ => 0

/-- Zero weight. -/
def zeroW {α : Type} : α → Nat := fun _ => 0

/-- Count of PLS operation nodes (loads and stores) in a program. -/
def countPLSOps (prog : Program) : Nat := weighP storeW loadW prog

/-- Count of PLS-typed declarations in a program. -/
def countPLSDecls (prog : Program) : Nat := weighP plsDeclW zeroW prog

mutual

/-- The bindings of the PLS declarations of a statement, in tree order. -/
def plsBindingsS : Stmt → List Nat
  | .plsDecl b _ => [b]
  | .block ss => plsBindingsSs ss
  | _ => []

/-- The bindings of the PLS declarations of a statement sequence. -/
def plsBindingsSs : List Stmt → List Nat
  | [] => []
  | st :: rest => plsBindingsS st ++ plsBindingsSs rest

end

/-- The bindings of the PLS declarations of a whole program, in tree order. -/
def plsBindingsP (prog : Program) : List Nat :=
  plsBindingsSs prog.topLevel ++ plsBindingsSs prog.mainBody

/-- The conjunction of tree-level facts established about the output of the
image-strategy rewriting: no remaining PLS operations or declarations, one
image declaration per PLS declaration, preservation of bare built-in calls
other than the inserted `memoryBarrierImage` pair, monotonicity of the
global-pixel-coord flag, and one coordinate declaration emitted exactly when
the flag flips. -/
def ImgFacts (s s' : ImagesState) (out : List Stmt) (nImg nPls nCoord : Nat)
    (nCall : Builtin → Nat) : Prop :=
  weighSs storeW loadW out = 0 ∧
  weighSs plsDeclW zeroW out = 0 ∧
  weighSs imageDeclW zeroW out = nImg + nPls ∧
  (∀ f, f ≠ Builtin.memoryBarrierImage → weighSs zeroW (callW f) out = nCall f) ∧
  (s.globalPixelCoord = true → s'.globalPixelCoord = true) ∧
  weighSs coordDeclW zeroW out = nCoord +
    (if s'.globalPixelCoord = true ∧ s.globalPixelCoord = false then 1 else 0)

/-- The conjunction of tree-level facts established about the output of the
framebuffer-fetch rewriting: no remaining PLS operations or declarations, one
attachment/scratch declaration pair per PLS declaration, no remaining
unlocated output declaration, no coordinate declarations, preservation of
attachment-variable references, growth of the rewritten-output set,
elimination of references to registered unlocated outputs, and evolution of
the attachment registry (its keys gain exactly the declared bindings, and
sortedness is preserved). -/
def FbFacts (s s' : FbState) (out : List Stmt)
    (nFragV nAccessV nPls nCoord nFragSym : Nat) (bnds : List Nat) : Prop :=
  weighSs storeW loadW out = 0 ∧
  weighSs plsDeclW zeroW out = 0 ∧
  weighSs fragVarDeclW zeroW out = nFragV + nPls ∧
  weighSs accessVarDeclW zeroW out = nAccessV + nPls ∧
  weighSs outDeclNoneW zeroW out = 0 ∧
  weighSs coordDeclW zeroW out = nCoord ∧
  weighSs zeroW fragSymW out = nFragSym ∧
  (∀ v, v ∈ s.rewrittenOutputs → v ∈ s'.rewrittenOutputs) ∧
  (∀ v, v ∈ s.rewrittenOutputs → weighSs zeroW (outSymNoneW v) out = 0) ∧
  List.Perm (s'.atts.map Prod.fst) (s.atts.map Prod.fst ++ bnds) ∧
  (List.Pairwise (· < ·) (s.atts.map Prod.fst) →
    List.Pairwise (· < ·) (s'.atts.map Prod.fst))

/-! #### Packing arithmetic -/

theorem packBytes_eq_sum {b0 b1 b2 b3 : Nat} (h0 : b0 < 256) (h1 : b1 < 256)
    (h2 : b2 < 256) (h3 : b3 < 256) :
    packBytes b0 b1 b2 b3 = b0 + b1 * 2 ^ 8 + b2 * 2 ^ 16 + b3 * 2 ^ 24 := by
  unfold packBytes
  rw [Nat.shiftLeft_eq, Nat.shiftLeft_eq, Nat.shiftLeft_eq]
  have s1 : b0 ||| b1 * 2 ^ 8 = 2 ^ 8 * b1 + b0 := by
    rw [Nat.mul_comm b1, Nat.lor_comm, ← Nat.mul_add_lt_is_or h0]
  have hlt1 : 2 ^ 8 * b1 + b0 < 2 ^ 16 := by omega
  have s2 : (2 ^ 8 * b1 + b0) ||| b2 * 2 ^ 16 = 2 ^ 16 * b2 + (2 ^ 8 * b1 + b0) := by
    rw [Nat.mul_comm b2, Nat.lor_comm, ← Nat.mul_add_lt_is_or hlt1]
  have hlt2 : 2 ^ 16 * b2 + (2 ^ 8 * b1 + b0) < 2 ^ 24 := by omega
  have s3 : (2 ^ 16 * b2 + (2 ^ 8 * b1 + b0)) ||| b3 * 2 ^ 24 =
      2 ^ 24 * b3 + (2 ^ 16 * b2 + (2 ^ 8 * b1 + b0)) := by
    rw [Nat.mul_comm b3, Nat.lor_comm, ← Nat.mul_add_lt_is_or hlt2]
  rw [s1, s2, s3]
  ring

theorem unpackSignedChannel_byte {b0 b1 b2 b3 : Nat} (h0 : b0 < 256) (h1 : b1 < 256)
    (h2 : b2 < 256) (h3 : b3 < 256) :
    unpackSignedChannel (b0 + b1 * 2 ^ 8 + b2 * 2 ^ 16 + b3 * 2 ^ 24) 24 =
      (if b0 < 128 then (b0 : Int) else (b0 : Int) - 256) ∧
    unpackSignedChannel (b0 + b1 * 2 ^ 8 + b2 * 2 ^ 16 + b3 * 2 ^ 24) 16 =
      (if b1 < 128 then (b1 : Int) else (b1 : Int) - 256) ∧
    unpackSignedChannel (b0 + b1 * 2 ^ 8 + b2 * 2 ^ 16 + b3 * 2 ^ 24) 8 =
      (if b2 < 128 then (b2 : Int) else (b2 : Int) - 256) ∧
    unpackSignedChannel (b0 + b1 * 2 ^ 8 + b2 * 2 ^ 16 + b3 * 2 ^ 24) 0 =
      (if b3 < 128 then (b3 : Int) else (b3 : Int) - 256) := by
  unfold unpackSignedChannel toSInt32
  rw [Nat.shiftLeft_eq, Nat.shiftLeft_eq, Nat.shiftLeft_eq, Nat.shiftLeft_eq]
  have e24 : (b0 + b1 * 2 ^ 8 + b2 * 2 ^ 16 + b3 * 2 ^ 24) * 2 ^ 24 % 2 ^ 32 =
      b0 * 2 ^ 24 := by omega
  have e16 : (b0 + b1 * 2 ^ 8 + b2 * 2 ^ 16 + b3 * 2 ^ 24) * 2 ^ 16 % 2 ^ 32 =
      b0 * 2 ^ 16 + b1 * 2 ^ 24 := by omega
  have e8 : (b0 + b1 * 2 ^ 8 + b2 * 2 ^ 16 + b3 * 2 ^ 24) * 2 ^ 8 % 2 ^ 32 =
      b0 * 2 ^ 8 + b1 * 2 ^ 16 + b2 * 2 ^ 24 := by omega
  have e0 : (b0 + b1 * 2 ^ 8 + b2 * 2 ^ 16 + b3 * 2 ^ 24) * 2 ^ 0 % 2 ^ 32 =
      b0 + b1 * 2 ^ 8 + b2 * 2 ^ 16 + b3 * 2 ^ 24 := by omega
  rw [e24, e16, e8, e0]
  rw [Int.shiftRight_eq_div_pow, Int.shiftRight_eq_div_pow, Int.shiftRight_eq_div_pow,
    Int.shiftRight_eq_div_pow]
  refine ⟨?_, ?_, ?_, ?_⟩ <;> (split <;> split <;> push_cast <;> omega)

theorem unpackUnsignedChannel_byte {b0 b1 b2 b3 : Nat} (h0 : b0 < 256) (h1 : b1 < 256)
    (h2 : b2 < 256) (h3 : b3 < 256) :
    unpackUnsignedChannel (b0 + b1 * 2 ^ 8 + b2 * 2 ^ 16 + b3 * 2 ^ 24) 24 = b0 ∧
    unpackUnsignedChannel (b0 + b1 * 2 ^ 8 + b2 * 2 ^ 16 + b3 * 2 ^ 24) 16 = b1 ∧
    unpackUnsignedChannel (b0 + b1 * 2 ^ 8 + b2 * 2 ^ 16 + b3 * 2 ^ 24) 8 = b2 ∧
    unpackUnsignedChannel (b0 + b1 * 2 ^ 8 + b2 * 2 ^ 16 + b3 * 2 ^ 24) 0 = b3 := by
  unfold unpackUnsignedChannel
  rw [Nat.shiftLeft_eq, Nat.shiftLeft_eq, Nat.shiftLeft_eq, Nat.shiftLeft_eq,
    Nat.shiftRight_eq_div_pow, Nat.shiftRight_eq_div_pow, Nat.shiftRight_eq_div_pow,
    Nat.shiftRight_eq_div_pow]
  refine ⟨?_, ?_, ?_, ?_⟩ <;> omega

theorem unpack_packRGBA8I {v : IVec4} (hx : -128 ≤ v.x ∧ v.x ≤ 127)
    (hy : -128 ≤ v.y ∧ v.y ≤ 127) (hz : -128 ≤ v.z ∧ v.z ≤ 127)
    (hw : -128 ≤ v.w ∧ v.w ≤ 127) :
    unpackRGBA8I (packRGBA8I v) = v := by
  obtain ⟨x, y, z, w⟩ := v
  simp only [packRGBA8I, mask4, maskByte, unpackRGBA8I] at *
  have hx' : ((x % 256).toNat : Int) = x % 256 := by omega
  have hy' : ((y % 256).toNat : Int) = y % 256 := by omega
  have hz' : ((z % 256).toNat : Int) = z % 256 := by omega
  have hw' : ((w % 256).toNat : Int) = w % 256 := by omega
  have bx : (x % 256).toNat < 256 := by omega
  have by' : (y % 256).toNat < 256 := by omega
  have bz : (z % 256).toNat < 256 := by omega
  have bw : (w % 256).toNat < 256 := by omega
  rw [packBytes_eq_sum bx by' bz bw]
  obtain ⟨u24, u16, u8, u0⟩ := unpackSignedChannel_byte bx by' bz bw
  rw [u24, u16, u8, u0]
  simp only [IVec4.mk.injEq]
  refine ⟨?_, ?_, ?_, ?_⟩ <;> (split <;> omega)

theorem unpack_packRGBA8UI {v : UVec4} (hx : v.x < 256) (hy : v.y < 256)
    (hz : v.z < 256) (hw : v.w < 256) :
    unpackRGBA8UI (packRGBA8UI v) = v := by
  obtain ⟨x, y, z, w⟩ := v
  simp only [packRGBA8UI, unpackRGBA8UI] at *
  rw [packBytes_eq_sum hx hy hz hw]
  obtain ⟨u24, u16, u8, u0⟩ := unpackUnsignedChannel_byte hx hy hz hw
  rw [u24, u16, u8, u0]

theorem clamp4I_range (v : IVec4) :
    (-128 ≤ (clamp4I v).x ∧ (clamp4I v).x ≤ 127) ∧
    (-128 ≤ (clamp4I v).y ∧ (clamp4I v).y ≤ 127) ∧
    (-128 ≤ (clamp4I v).z ∧ (clamp4I v).z ≤ 127) ∧
    (-128 ≤ (clamp4I v).w ∧ (clamp4I v).w ≤ 127) := by
  simp only [clamp4I, clampI8]
  omega

theorem storeLoadRGBA8I_eq_clamp (v : IVec4) :
    unpackRGBA8I (storeWordRGBA8I v) = clamp4I v := by
  obtain ⟨h1, h2, h3, h4⟩ := clamp4I_range v
  exact unpack_packRGBA8I h1 h2 h3 h4

theorem storeLoadRGBA8UI_eq_min (v : UVec4) :
    unpackRGBA8UI (storeWordRGBA8UI v) = min4U v := by
  have hx : (min4U v).x < 256 := by simp only [min4U, minU8]; omega
  have hy : (min4U v).y < 256 := by simp only [min4U, minU8]; omega
  have hz : (min4U v).z < 256 := by simp only [min4U, minU8]; omega
  have hw : (min4U v).w < 256 := by simp only [min4U, minU8]; omega
  exact unpack_packRGBA8UI hx hy hz hw


/-! ### Helper lemmas about the traversals -/

theorem weighSs_append (p : Stmt → Nat) (q : Expr → Nat) (a b : List Stmt) :
    weighSs p q (a ++ b) = weighSs p q a + weighSs p q b := by
  induction a with
  | nil => simp [weighSs]
  | cons st rest ih =>
    rw [List.cons_append]
    show weighSs p q (st :: (rest ++ b)) = _
    rw [weighSs, weighSs, ih]
    omega

/-! Equation lemmas decomposing the traversal functions on each node kind
(the `do` blocks are unfolded to `Option.bind` by `rfl`). -/

theorem rwExprImages_call1_eq {opts : ShCompileOptions} {s : ImagesState}
    {f : Builtin} {a e' : Expr} :
    rwExprImages opts s (.call1 f a) = some e' ↔
      ∃ a', rwExprImages opts s a = some a' ∧ e' = .call1 f a' := by
  rw [show rwExprImages opts s (.call1 f a) =
      (rwExprImages opts s a).bind fun a' => some (.call1 f a') from rfl,
    Option.bind_eq_some]
  simp [eq_comm]

theorem rwExprImages_call2_eq {opts : ShCompileOptions} {s : ImagesState}
    {f : Builtin} {a c e' : Expr} :
    rwExprImages opts s (.call2 f a c) = some e' ↔
      ∃ a' c', rwExprImages opts s a = some a' ∧ rwExprImages opts s c = some c' ∧
        e' = .call2 f a' c' := by
  rw [show rwExprImages opts s (.call2 f a c) =
      (rwExprImages opts s a).bind (fun a' =>
        (rwExprImages opts s c).bind fun c' => some (.call2 f a' c')) from rfl,
    Option.bind_eq_some]
  simp only [Option.bind_eq_some, Option.some.injEq]
  constructor
  · rintro ⟨a', ha, c', hc, rfl⟩; exact ⟨a', c', ha, hc, rfl⟩
  · rintro ⟨a', c', ha, hc, rfl⟩; exact ⟨a', ha, c', hc, rfl⟩

theorem rwExprImages_call3_eq {opts : ShCompileOptions} {s : ImagesState}
    {f : Builtin} {a c d e' : Expr} :
    rwExprImages opts s (.call3 f a c d) = some e' ↔
      ∃ a' c' d', rwExprImages opts s a = some a' ∧ rwExprImages opts s c = some c' ∧
        rwExprImages opts s d = some d' ∧ e' = .call3 f a' c' d' := by
  rw [show rwExprImages opts s (.call3 f a c d) =
      (rwExprImages opts s a).bind (fun a' =>
        (rwExprImages opts s c).bind (fun c' =>
          (rwExprImages opts s d).bind fun d' => some (.call3 f a' c' d'))) from rfl,
    Option.bind_eq_some]
  simp only [Option.bind_eq_some, Option.some.injEq]
  constructor
  · rintro ⟨a', ha, c', hc, d', hd, rfl⟩; exact ⟨a', c', d', ha, hc, hd, rfl⟩
  · rintro ⟨a', c', d', ha, hc, hd, rfl⟩; exact ⟨a', ha, c', hc, d', hd, rfl⟩

theorem rwExprImages_binop_eq {opts : ShCompileOptions} {s : ImagesState}
    {op : BinOp} {a c e' : Expr} :
    rwExprImages opts s (.binop op a c) = some e' ↔
      ∃ a' c', rwExprImages opts s a = some a' ∧ rwExprImages opts s c = some c' ∧
        e' = .binop op a' c' := by
  rw [show rwExprImages opts s (.binop op a c) =
      (rwExprImages opts s a).bind (fun a' =>
        (rwExprImages opts s c).bind fun c' => some (.binop op a' c')) from rfl,
    Option.bind_eq_some]
  simp only [Option.bind_eq_some, Option.some.injEq]
  constructor
  · rintro ⟨a', ha, c', hc, rfl⟩; exact ⟨a', c', ha, hc, rfl⟩
  · rintro ⟨a', c', ha, hc, rfl⟩; exact ⟨a', ha, c', hc, rfl⟩

theorem rwExprImages_swizzle_eq {opts : ShCompileOptions} {s : ImagesState}
    {a e' : Expr} {offs : List Nat} :
    rwExprImages opts s (.swizzle a offs) = some e' ↔
      ∃ a', rwExprImages opts s a = some a' ∧ e' = .swizzle a' offs := by
  rw [show rwExprImages opts s (.swizzle a offs) =
      (rwExprImages opts s a).bind fun a' => some (.swizzle a' offs) from rfl,
    Option.bind_eq_some]
  simp [eq_comm]

theorem rwExprImages_construct1_eq {opts : ShCompileOptions} {s : ImagesState}
    {ty : ConstructorType} {a e' : Expr} :
    rwExprImages opts s (.construct1 ty a) = some e' ↔
      ∃ a', rwExprImages opts s a = some a' ∧ e' = .construct1 ty a' := by
  rw [show rwExprImages opts s (.construct1 ty a) =
      (rwExprImages opts s a).bind fun a' => some (.construct1 ty a') from rfl,
    Option.bind_eq_some]
  simp [eq_comm]

theorem rwExprImages_construct4_eq {opts : ShCompileOptions} {s : ImagesState}
    {ty : ConstructorType} {a c d e e' : Expr} :
    rwExprImages opts s (.construct4 ty a c d e) = some e' ↔
      ∃ a' c' d' e₄, rwExprImages opts s a = some a' ∧ rwExprImages opts s c = some c' ∧
        rwExprImages opts s d = some d' ∧ rwExprImages opts s e = some e₄ ∧
        e' = .construct4 ty a' c' d' e₄ := by
  rw [show rwExprImages opts s (.construct4 ty a c d e) =
      (rwExprImages opts s a).bind (fun a' =>
        (rwExprImages opts s c).bind (fun c' =>
          (rwExprImages opts s d).bind (fun d' =>
            (rwExprImages opts s e).bind fun e₄ =>
              some (.construct4 ty a' c' d' e₄)))) from rfl,
    Option.bind_eq_some]
  simp only [Option.bind_eq_some, Option.some.injEq]
  constructor
  · rintro ⟨a', ha, c', hc, d', hd, e₄, he, rfl⟩; exact ⟨a', c', d', e₄, ha, hc, hd, he, rfl⟩
  · rintro ⟨a', c', d', e₄, ha, hc, hd, he, rfl⟩; exact ⟨a', ha, c', hc, d', hd, e₄, he, rfl⟩

theorem rwExprImages_plsLoad_eq {opts : ShCompileOptions} {s : ImagesState}
    {b : Nat} {fmt : InternalFormat} {e' : Expr} :
    rwExprImages opts s (.plsLoad b fmt) = some e' ↔
      ∃ imgFmt, findBS b s.images = some imgFmt ∧ s.globalPixelCoord = true ∧
        unpackImageDataIfNecessary (needsR32Packing opts)
          (.call2 .imageLoad (.imageSym b) .coordSym) fmt imgFmt = some e' := by
  rw [show rwExprImages opts s (.plsLoad b fmt) =
      (findBS b s.images).bind fun imgFmt =>
        if ¬s.globalPixelCoord then none
        else unpackImageDataIfNecessary (needsR32Packing opts)
          (.call2 .imageLoad (.imageSym b) .coordSym) fmt imgFmt from rfl,
    Option.bind_eq_some]
  constructor
  · rintro ⟨imgFmt, hf, h⟩
    split at h
    · exact absurd h (by simp)
    · rename_i hg
      exact ⟨imgFmt, hf, by simpa using hg, h⟩
  · rintro ⟨imgFmt, hf, hg, h⟩
    exact ⟨imgFmt, hf, by simp [hg, h]⟩

/-- The weight facts about `unpackImageDataIfNecessary` outputs: they contain
no `pixelLocalLoadANGLE` node and no bare built-in call (`call0`) node. -/
theorem unpackImageDataIfNecessary_weights {needsPacking : Bool} {data : Expr}
    {pf imf : InternalFormat} {e' : Expr} (hd1 : weighE loadW data = 0)
    (hd2 : ∀ f, weighE (callW f) data = 0)
    (h : unpackImageDataIfNecessary needsPacking data pf imf = some e') :
    weighE loadW e' = 0 ∧ ∀ f, weighE (callW f) e' = 0 := by
  unfold unpackImageDataIfNecessary at h
  split at h
  · simp only [Option.some.injEq] at h; subst h; exact ⟨hd1, hd2⟩
  · split at h
    · exact absurd h (by simp)
    · cases pf <;> simp only [Option.some.injEq] at h <;> first
      | (subst h;
         exact ⟨by simp [weighE, loadW, hd1], fun f => by simp [weighE, callW, hd2 f]⟩)
      | exact absurd h (by simp)

/-- Everything `rwExprImages` produces is free of `pixelLocalLoadANGLE`
nodes, and its rewriting preserves the number of bare built-in call nodes of
every kind (the generated `imageLoad`/unpack expressions contain none). -/
theorem rwExprImages_weights (opts : ShCompileOptions) (s : ImagesState) :
    ∀ {e e' : Expr}, rwExprImages opts s e = some e' →
      weighE loadW e' = 0 ∧ ∀ f, weighE (callW f) e' = weighE (callW f) e := by
  intro e
  induction e with
  | plsLoad b fmt =>
    intro e' h
    rw [rwExprImages_plsLoad_eq] at h
    obtain ⟨imgFmt, hf, hg, h⟩ := h
    have := unpackImageDataIfNecessary_weights (by simp [weighE, loadW])
      (fun f => by simp [weighE, callW]) h
    exact ⟨this.1, fun f => by simp [this.2 f, weighE, callW]⟩
  | call1 f a iha =>
    intro e' h
    rw [rwExprImages_call1_eq] at h
    obtain ⟨a', ha, rfl⟩ := h
    exact ⟨by simp [weighE, loadW, (iha ha).1],
      fun g => by simp [weighE, callW, (iha ha).2 g]⟩
  | call2 f a c iha ihc =>
    intro e' h
    rw [rwExprImages_call2_eq] at h
    obtain ⟨a', c', ha, hc, rfl⟩ := h
    exact ⟨by simp [weighE, loadW, (iha ha).1, (ihc hc).1],
      fun g => by simp [weighE, callW, (iha ha).2 g, (ihc hc).2 g]⟩
  | call3 f a c d iha ihc ihd =>
    intro e' h
    rw [rwExprImages_call3_eq] at h
    obtain ⟨a', c', d', ha, hc, hd, rfl⟩ := h
    exact ⟨by simp [weighE, loadW, (iha ha).1, (ihc hc).1, (ihd hd).1],
      fun g => by simp [weighE, callW, (iha ha).2 g, (ihc hc).2 g, (ihd hd).2 g]⟩
  | binop op a c iha ihc =>
    intro e' h
    rw [rwExprImages_binop_eq] at h
    obtain ⟨a', c', ha, hc, rfl⟩ := h
    exact ⟨by simp [weighE, loadW, (iha ha).1, (ihc hc).1],
      fun g => by simp [weighE, callW, (iha ha).2 g, (ihc hc).2 g]⟩
  | swizzle a offs iha =>
    intro e' h
    rw [rwExprImages_swizzle_eq] at h
    obtain ⟨a', ha, rfl⟩ := h
    exact ⟨by simp [weighE, loadW, (iha ha).1],
      fun g => by simp [weighE, callW, (iha ha).2 g]⟩
  | construct1 ty a iha =>
    intro e' h
    rw [rwExprImages_construct1_eq] at h
    obtain ⟨a', ha, rfl⟩ := h
    exact ⟨by simp [weighE, loadW, (iha ha).1],
      fun g => by simp [weighE, callW, (iha ha).2 g]⟩
  | construct4 ty a c d e iha ihc ihd ihe =>
    intro e' h
    rw [rwExprImages_construct4_eq] at h
    obtain ⟨a', c', d', e₄, ha, hc, hd, he, rfl⟩ := h
    exact ⟨by simp [weighE, loadW, (iha ha).1, (ihc hc).1, (ihd hd).1, (ihe he).1],
      fun g => by
        simp [weighE, callW, (iha ha).2 g, (ihc hc).2 g, (ihd hd).2 g, (ihe he).2 g]⟩
  | intConst n => rintro e' ⟨rfl⟩; exact ⟨rfl, fun f => rfl⟩
  | uintConst n => rintro e' ⟨rfl⟩; exact ⟨rfl, fun f => rfl⟩
  | floatConst n => rintro e' ⟨rfl⟩; exact ⟨rfl, fun f => rfl⟩
  | uvecConst ns => rintro e' ⟨rfl⟩; exact ⟨rfl, fun f => rfl⟩
  | imageSym b => rintro e' ⟨rfl⟩; exact ⟨rfl, fun f => rfl⟩
  | coordSym => rintro e' ⟨rfl⟩; exact ⟨rfl, fun f => rfl⟩
  | tempSym t => rintro e' ⟨rfl⟩; exact ⟨rfl, fun f => rfl⟩
  | accessSym b => rintro e' ⟨rfl⟩; exact ⟨rfl, fun f => rfl⟩
  | fragSym b => rintro e' ⟨rfl⟩; exact ⟨rfl, fun f => rfl⟩
  | outSym v loc => rintro e' ⟨rfl⟩; exact ⟨rfl, fun f => rfl⟩
  | fragCoordSym => rintro e' ⟨rfl⟩; exact ⟨rfl, fun f => rfl⟩
  | call0 f => rintro e' ⟨rfl⟩; exact ⟨rfl, fun g => rfl⟩

/-- A load-free expression is left unchanged by the image-strategy expression
rewriting. -/
theorem rwExprImages_id (opts : ShCompileOptions) (s : ImagesState) :
    ∀ {e : Expr}, weighE loadW e = 0 → rwExprImages opts s e = some e := by
  intro e
  induction e with
  | plsLoad b fmt => intro h; simp [weighE, loadW] at h
  | call1 f a iha =>
    intro h
    rw [weighE] at h
    rw [rwExprImages_call1_eq]
    exact ⟨a, iha (by omega), rfl⟩
  | call2 f a c iha ihc =>
    intro h
    rw [weighE] at h
    rw [rwExprImages_call2_eq]
    exact ⟨a, c, iha (by omega), ihc (by omega), rfl⟩
  | call3 f a c d iha ihc ihd =>
    intro h
    rw [weighE] at h
    rw [rwExprImages_call3_eq]
    exact ⟨a, c, d, iha (by omega), ihc (by omega), ihd (by omega), rfl⟩
  | binop op a c iha ihc =>
    intro h
    rw [weighE] at h
    rw [rwExprImages_binop_eq]
    exact ⟨a, c, iha (by omega), ihc (by omega), rfl⟩
  | swizzle a offs iha =>
    intro h
    rw [weighE] at h
    rw [rwExprImages_swizzle_eq]
    exact ⟨a, iha (by omega), rfl⟩
  | construct1 ty a iha =>
    intro h
    rw [weighE] at h
    rw [rwExprImages_construct1_eq]
    exact ⟨a, iha (by omega), rfl⟩
  | construct4 ty a c d e iha ihc ihd ihe =>
    intro h
    rw [weighE] at h
    rw [rwExprImages_construct4_eq]
    exact ⟨a, c, d, e, iha (by omega), ihc (by omega), ihd (by omega), ihe (by omega), rfl⟩
  | intConst n => intro h; rfl
  | uintConst n => intro h; rfl
  | floatConst n => intro h; rfl
  | uvecConst ns => intro h; rfl
  | imageSym b => intro h; rfl
  | coordSym => intro h; rfl
  | tempSym t => intro h; rfl
  | accessSym b => intro h; rfl
  | fragSym b => intro h; rfl
  | outSym v loc => intro h; rfl
  | fragCoordSym => intro h; rfl
  | call0 f => intro h; rfl

/-! Statement-level equation lemmas for the image strategy. -/

theorem rwStmtImages_plsDecl_eq {opts : ShCompileOptions} {s s' : ImagesState}
    {b : Nat} {fmt : InternalFormat} {out : List Stmt} :
    rwStmtImages opts s (.plsDecl b fmt) = some (s', out) ↔
      ∃ imgFmt images',
        plsImageFormat (needsR32Packing opts) fmt = some imgFmt ∧
        insertNew b imgFmt s.images = some images' ∧
        s' = ⟨images', true, s.nextTemp⟩ ∧
        out = (if s.globalPixelCoord then [] else [Stmt.coordDecl]) ++
          [.imageDecl b imgFmt
            (opts.pls.fragmentSynchronizationType =
              ShFragmentSynchronizationType.RasterizerOrderViews_D3D)] := by
  obtain ⟨images, g, nt⟩ := s
  cases g
  · rw [show rwStmtImages opts ⟨images, false, nt⟩ (.plsDecl b fmt) =
        (plsImageFormat (needsR32Packing opts) fmt).bind (fun imgFmt =>
          (insertNew b imgFmt images).bind fun images' =>
            some (⟨images', true, nt⟩,
              [Stmt.coordDecl,
                .imageDecl b imgFmt
                  (opts.pls.fragmentSynchronizationType =
                    ShFragmentSynchronizationType.RasterizerOrderViews_D3D)])) from rfl,
      Option.bind_eq_some]
    simp only [Option.bind_eq_some, Option.some.injEq, Prod.mk.injEq,
      Bool.false_eq_true, if_false, List.singleton_append]
    constructor
    · rintro ⟨imgFmt, h1, images', h2, h3, h4⟩
      exact ⟨imgFmt, images', h1, h2, h3.symm, h4.symm⟩
    · rintro ⟨imgFmt, images', h1, h2, h3, h4⟩
      exact ⟨imgFmt, h1, images', h2, h3.symm, h4.symm⟩
  · rw [show rwStmtImages opts ⟨images, true, nt⟩ (.plsDecl b fmt) =
        (plsImageFormat (needsR32Packing opts) fmt).bind (fun imgFmt =>
          (insertNew b imgFmt images).bind fun images' =>
            some (⟨images', true, nt⟩,
              [.imageDecl b imgFmt
                  (opts.pls.fragmentSynchronizationType =
                    ShFragmentSynchronizationType.RasterizerOrderViews_D3D)])) from rfl,
      Option.bind_eq_some]
    simp only [Option.bind_eq_some, Option.some.injEq, Prod.mk.injEq, if_true,
      List.nil_append]
    constructor
    · rintro ⟨imgFmt, h1, images', h2, h3, h4⟩
      exact ⟨imgFmt, images', h1, h2, h3.symm, h4.symm⟩
    · rintro ⟨imgFmt, images', h1, h2, h3, h4⟩
      exact ⟨imgFmt, h1, images', h2, h3.symm, h4.symm⟩

theorem visitPLSStoreImages_eq {opts : ShCompileOptions} {s s₂ : ImagesState}
    {b t : Nat} {fmt : InternalFormat} {pre post : List Stmt} {repl : Stmt} :
    visitPLSStoreImages opts s b fmt t = some (s₂, pre, repl, post) ↔
      ∃ imgFmt ins packed nt,
        findBS b s.images = some imgFmt ∧
        clampAndPackPLSDataIfNecessary opts t fmt imgFmt s.nextTemp =
          some (ins, packed, nt) ∧
        s.globalPixelCoord = true ∧
        s₂ = { s with nextTemp := nt } ∧
        pre = ins ++ [.exprStmt (.call0 .memoryBarrierImage)] ∧
        repl = .exprStmt (.call3 .imageStore (.imageSym b) .coordSym packed) ∧
        post = [.exprStmt (.call0 .memoryBarrierImage)] := by
  rw [show visitPLSStoreImages opts s b fmt t =
      (findBS b s.images).bind (fun imgFmt =>
        (clampAndPackPLSDataIfNecessary opts t fmt imgFmt s.nextTemp).bind fun x =>
          if ¬s.globalPixelCoord then none
          else
            some ({ s with nextTemp := x.2.2 },
              x.1 ++ [.exprStmt (.call0 .memoryBarrierImage)],
              .exprStmt (.call3 .imageStore (.imageSym b) .coordSym x.2.1),
              [.exprStmt (.call0 .memoryBarrierImage)])) from rfl,
    Option.bind_eq_some]
  constructor
  · rintro ⟨imgFmt, h1, h⟩
    rw [Option.bind_eq_some] at h
    obtain ⟨⟨ins, packed, nt⟩, h2, h⟩ := h
    split at h
    · exact absurd h (by simp)
    · rename_i hg
      simp only [Option.some.injEq, Prod.mk.injEq] at h
      obtain ⟨h3, h4, h5, h6⟩ := h
      exact ⟨imgFmt, ins, packed, nt, h1, h2, by simpa using hg, h3.symm, h4.symm,
        h5.symm, h6.symm⟩
  · rintro ⟨imgFmt, ins, packed, nt, h1, h2, hg, h3, h4, h5, h6⟩
    refine ⟨imgFmt, h1, ?_⟩
    rw [Option.bind_eq_some]
    exact ⟨(ins, packed, nt), h2, by simp [hg, h3, h4, h5, h6]⟩

theorem rwStmtImages_plsStore_eq {opts : ShCompileOptions} {s s' : ImagesState}
    {b : Nat} {fmt : InternalFormat} {value : Expr} {out : List Stmt} :
    rwStmtImages opts s (.plsStore b fmt value) = some (s', out) ↔
      ∃ value' s₂ pre repl post,
        rwExprImages opts { s with nextTemp := s.nextTemp + 1 } value = some value' ∧
        visitPLSStoreImages opts { s with nextTemp := s.nextTemp + 1 } b fmt
          s.nextTemp = some (s₂, pre, repl, post) ∧
        s' = s₂ ∧ out = Stmt.tempDecl s.nextTemp value' :: pre ++ [repl] ++ post := by
  rw [show rwStmtImages opts s (.plsStore b fmt value) =
      (rwExprImages opts { s with nextTemp := s.nextTemp + 1 } value).bind (fun value' =>
        (visitPLSStoreImages opts { s with nextTemp := s.nextTemp + 1 } b fmt
          s.nextTemp).bind fun x =>
          some (x.1, Stmt.tempDecl s.nextTemp value' :: x.2.1 ++ [x.2.2.1] ++ x.2.2.2))
      from rfl, Option.bind_eq_some]
  constructor
  · rintro ⟨value', h1, h⟩
    rw [Option.bind_eq_some] at h
    obtain ⟨⟨s₂, pre, repl, post⟩, h2, h⟩ := h
    simp only [Option.some.injEq, Prod.mk.injEq] at h
    exact ⟨value', s₂, pre, repl, post, h1, h2, h.1.symm, h.2.symm⟩
  · rintro ⟨value', s₂, pre, repl, post, h1, h2, h3, h4⟩
    refine ⟨value', h1, ?_⟩
    rw [Option.bind_eq_some]
    exact ⟨(s₂, pre, repl, post), h2, by simp [h3, h4]⟩

theorem rwStmtImages_block_eq {opts : ShCompileOptions} {s s' : ImagesState}
    {ss out : List Stmt} :
    rwStmtImages opts s (.block ss) = some (s', out) ↔
      ∃ ss', rwStmtsImages opts s ss = some (s', ss') ∧ out = [.block ss'] := by
  rw [show rwStmtImages opts s (.block ss) =
      (rwStmtsImages opts s ss).bind fun x => some (x.1, [.block x.2]) from rfl,
    Option.bind_eq_some]
  constructor
  · rintro ⟨⟨s₁, ss'⟩, h1, h⟩
    simp only [Option.some.injEq, Prod.mk.injEq] at h
    exact ⟨ss', by rw [h.1] at h1; exact h1, h.2.symm⟩
  · rintro ⟨ss', h1, rfl⟩
    exact ⟨(s', ss'), h1, rfl⟩

theorem rwStmtImages_tempDecl_eq {opts : ShCompileOptions} {s s' : ImagesState}
    {t : Nat} {e : Expr} {out : List Stmt} :
    rwStmtImages opts s (.tempDecl t e) = some (s', out) ↔
      ∃ e', rwExprImages opts s e = some e' ∧ s' = s ∧ out = [.tempDecl t e'] := by
  rw [show rwStmtImages opts s (.tempDecl t e) =
      (rwExprImages opts s e).bind fun e' => some (s, [.tempDecl t e']) from rfl,
    Option.bind_eq_some]
  simp only [Option.some.injEq, Prod.mk.injEq]
  constructor
  · rintro ⟨e', h1, h2, h3⟩; exact ⟨e', h1, h2.symm, h3.symm⟩
  · rintro ⟨e', h1, h2, h3⟩; exact ⟨e', h1, h2.symm, h3.symm⟩

theorem rwStmtImages_assign_eq {opts : ShCompileOptions} {s s' : ImagesState}
    {l r : Expr} {out : List Stmt} :
    rwStmtImages opts s (.assign l r) = some (s', out) ↔
      ∃ l' r', rwExprImages opts s l = some l' ∧ rwExprImages opts s r = some r' ∧
        s' = s ∧ out = [.assign l' r'] := by
  rw [show rwStmtImages opts s (.assign l r) =
      (rwExprImages opts s l).bind (fun l' =>
        (rwExprImages opts s r).bind fun r' => some (s, [.assign l' r'])) from rfl,
    Option.bind_eq_some]
  simp only [Option.bind_eq_some, Option.some.injEq, Prod.mk.injEq]
  constructor
  · rintro ⟨l', h1, r', h2, h3, h4⟩; exact ⟨l', r', h1, h2, h3.symm, h4.symm⟩
  · rintro ⟨l', r', h1, h2, h3, h4⟩; exact ⟨l', h1, r', h2, h3.symm, h4.symm⟩

theorem rwStmtImages_exprStmt_eq {opts : ShCompileOptions} {s s' : ImagesState}
    {e : Expr} {out : List Stmt} :
    rwStmtImages opts s (.exprStmt e) = some (s', out) ↔
      ∃ e', rwExprImages opts s e = some e' ∧ s' = s ∧ out = [.exprStmt e'] := by
  rw [show rwStmtImages opts s (.exprStmt e) =
      (rwExprImages opts s e).bind fun e' => some (s, [.exprStmt e']) from rfl,
    Option.bind_eq_some]
  simp only [Option.some.injEq, Prod.mk.injEq]
  constructor
  · rintro ⟨e', h1, h2, h3⟩; exact ⟨e', h1, h2.symm, h3.symm⟩
  · rintro ⟨e', h1, h2, h3⟩; exact ⟨e', h1, h2.symm, h3.symm⟩

theorem rwStmtsImages_cons_eq {opts : ShCompileOptions} {s s' : ImagesState}
    {st : Stmt} {rest out : List Stmt} :
    rwStmtsImages opts s (st :: rest) = some (s', out) ↔
      ∃ s₁ out₁ out₂, rwStmtImages opts s st = some (s₁, out₁) ∧
        rwStmtsImages opts s₁ rest = some (s', out₂) ∧ out = out₁ ++ out₂ := by
  rw [show rwStmtsImages opts s (st :: rest) =
      (rwStmtImages opts s st).bind (fun x =>
        (rwStmtsImages opts x.1 rest).bind fun y => some (y.1, x.2 ++ y.2)) from rfl,
    Option.bind_eq_some]
  constructor
  · rintro ⟨⟨s₁, out₁⟩, h1, h⟩
    rw [Option.bind_eq_some] at h
    obtain ⟨⟨s₂, out₂⟩, h2, h⟩ := h
    simp only [Option.some.injEq, Prod.mk.injEq] at h
    exact ⟨s₁, out₁, out₂, h1, by rw [h.1] at h2; exact h2, h.2.symm⟩
  · rintro ⟨s₁, out₁, out₂, h1, h2, rfl⟩
    refine ⟨(s₁, out₁), h1, ?_⟩
    rw [Option.bind_eq_some]
    exact ⟨(s', out₂), h2, rfl⟩

theorem weighE_zeroW (e : Expr) : weighE zeroW e = 0 := by
  induction e <;> simp [weighE, zeroW, *]

theorem clampPLSStmts_weights (t : Nat) (fmt : InternalFormat) :
    weighSs storeW loadW (clampPLSStmts t fmt) = 0 ∧
    weighSs plsDeclW zeroW (clampPLSStmts t fmt) = 0 ∧
    weighSs imageDeclW zeroW (clampPLSStmts t fmt) = 0 ∧
    weighSs coordDeclW zeroW (clampPLSStmts t fmt) = 0 ∧
    ∀ f, weighSs zeroW (callW f) (clampPLSStmts t fmt) = 0 := by
  cases fmt <;> exact ⟨rfl, rfl, rfl, rfl, fun f => rfl⟩

theorem weighSs_cons (p : Stmt → Nat) (q : Expr → Nat) (st : Stmt) (rest : List Stmt) :
    weighSs p q (st :: rest) = weighS p q st + weighSs p q rest := by
  rw [weighSs]

theorem weighSs_nil (p : Stmt → Nat) (q : Expr → Nat) : weighSs p q [] = 0 := by
  rw [weighSs]

/-- Closes the coordinate-count conditional when the state is unchanged. -/
theorem ite_flag_self (b : Bool) : (if b = true ∧ b = false then (1 : Nat) else 0) = 0 := by
  cases b <;> simp

/-- Composition of the coordinate-declaration deltas across two sequential
rewriting steps with monotone flags. -/
theorem coord_delta_comp (x y z : Bool) (n m : Nat)
    (hxy : x = true → y = true) (hyz : y = true → z = true) :
    n + (if y = true ∧ x = false then 1 else 0) +
      (m + (if z = true ∧ y = false then 1 else 0)) =
    n + m + (if z = true ∧ x = false then 1 else 0) := by
  cases x <;> cases y <;> cases z <;> simp_all <;> omega

theorem clampAndPack_weights {opts : ShCompileOptions} {t : Nat}
    {pf imf : InternalFormat} {nt0 : Nat} {ins : List Stmt} {packed : Expr} {nt : Nat}
    (h : clampAndPackPLSDataIfNecessary opts t pf imf nt0 = some (ins, packed, nt)) :
    weighSs storeW loadW ins = 0 ∧ weighSs plsDeclW zeroW ins = 0 ∧
    weighSs imageDeclW zeroW ins = 0 ∧ weighSs coordDeclW zeroW ins = 0 ∧
    (∀ f, weighSs zeroW (callW f) ins = 0) ∧
    weighE loadW packed = 0 ∧ (∀ f, weighE (callW f) packed = 0) := by
  obtain ⟨w1, w2, w3, w4, w5⟩ := clampPLSStmts_weights t pf
  by_cases heq : pf = imf
  · have e : clampAndPackPLSDataIfNecessary opts t pf imf nt0 =
        some (clampPLSStmts t pf, .tempSym t, nt0) := by
      simp [clampAndPackPLSDataIfNecessary, if_pos heq]
    rw [e] at h
    simp only [Option.some.injEq, Prod.mk.injEq] at h
    obtain ⟨h1, h2, h3⟩ := h
    subst h1; subst h2
    exact ⟨w1, w2, w3, w4, w5, rfl, fun f => rfl⟩
  · cases pf with
    | RGBA8 =>
      cases hpk : needsR32Packing opts
      · have e : clampAndPackPLSDataIfNecessary opts t .RGBA8 imf nt0 = none := by
          simp [clampAndPackPLSDataIfNecessary, if_neg heq, hpk]
        rw [e] at h
        exact Option.noConfusion h
      · cases hhp : opts.passHighpToPackUnormSnormBuiltins
        · have e : clampAndPackPLSDataIfNecessary opts t .RGBA8 imf nt0 =
              some (clampPLSStmts t .RGBA8,
                .construct1 (vec4Of (imageBasic imf))
                  (.call1 .packUnorm4x8 (.tempSym t)), nt0) := by
            simp [clampAndPackPLSDataIfNecessary, if_neg heq, hpk, hhp]
          rw [e] at h
          simp only [Option.some.injEq, Prod.mk.injEq] at h
          obtain ⟨h1, h2, h3⟩ := h
          subst h1; subst h2
          exact ⟨w1, w2, w3, w4, w5, rfl, fun f => rfl⟩
        · have e : clampAndPackPLSDataIfNecessary opts t .RGBA8 imf nt0 =
              some (clampPLSStmts t .RGBA8 ++ [.tempDecl nt0 (.tempSym t)],
                .construct1 (vec4Of (imageBasic imf))
                  (.call1 .packUnorm4x8 (.tempSym nt0)), nt0 + 1) := by
            simp [clampAndPackPLSDataIfNecessary, if_neg heq, hpk, hhp]
          rw [e] at h
          simp only [Option.some.injEq, Prod.mk.injEq] at h
          obtain ⟨h1, h2, h3⟩ := h
          subst h1; subst h2
          refine ⟨?_, ?_, ?_, ?_, ?_, rfl, fun f => rfl⟩ <;>
            simp [weighSs_append, weighSs_cons, weighSs_nil, weighS, weighE, storeW,
              loadW, plsDeclW, imageDeclW, coordDeclW, callW, zeroW, w1, w2, w3, w4,
              w5]
    | RGBA8I =>
      cases hpk : needsR32Packing opts
      · have e : clampAndPackPLSDataIfNecessary opts t .RGBA8I imf nt0 = none := by
          simp [clampAndPackPLSDataIfNecessary, if_neg heq, hpk]
        rw [e] at h
        exact Option.noConfusion h
      · have e : clampAndPackPLSDataIfNecessary opts t .RGBA8I imf nt0 =
            some (clampPLSStmts t .RGBA8I ++ [.andAssign t 255],
              .construct1 (vec4Of (imageBasic imf)) (packIntChannels t), nt0) := by
          simp [clampAndPackPLSDataIfNecessary, if_neg heq, hpk]
        rw [e] at h
        simp only [Option.some.injEq, Prod.mk.injEq] at h
        obtain ⟨h1, h2, h3⟩ := h
        subst h1; subst h2
        refine ⟨?_, ?_, ?_, ?_, ?_, ?_, fun f => ?_⟩ <;>
          simp [weighSs_append, weighSs_cons, weighSs_nil, weighS, weighE, storeW,
            loadW, plsDeclW, imageDeclW, coordDeclW, callW, zeroW, w1, w2, w3, w4, w5,
            packIntChannels, shiftComponent]
    | RGBA8UI =>
      cases hpk : needsR32Packing opts
      · have e : clampAndPackPLSDataIfNecessary opts t .RGBA8UI imf nt0 = none := by
          simp [clampAndPackPLSDataIfNecessary, if_neg heq, hpk]
        rw [e] at h
        exact Option.noConfusion h
      · have e : clampAndPackPLSDataIfNecessary opts t .RGBA8UI imf nt0 =
            some (clampPLSStmts t .RGBA8UI,
              .construct1 (vec4Of (imageBasic imf)) (packIntChannels t), nt0) := by
          simp [clampAndPackPLSDataIfNecessary, if_neg heq, hpk]
        rw [e] at h
        simp only [Option.some.injEq, Prod.mk.injEq] at h
        obtain ⟨h1, h2, h3⟩ := h
        subst h1; subst h2
        refine ⟨w1, w2, w3, w4, w5, ?_, fun f => ?_⟩ <;>
          simp [weighE, loadW, callW, packIntChannels, shiftComponent]
    | R32F =>
      have e : clampAndPackPLSDataIfNecessary opts t .R32F imf nt0 = none := by
        simp [clampAndPackPLSDataIfNecessary, if_neg heq]
      rw [e] at h
      exact Option.noConfusion h
    | R32UI =>
      have e : clampAndPackPLSDataIfNecessary opts t .R32UI imf nt0 = none := by
        simp [clampAndPackPLSDataIfNecessary, if_neg heq]
      rw [e] at h
      exact Option.noConfusion h
    | R32I =>
      have e : clampAndPackPLSDataIfNecessary opts t .R32I imf nt0 = none := by
        simp [clampAndPackPLSDataIfNecessary, if_neg heq]
      rw [e] at h
      exact Option.noConfusion h

theorem ImgFacts_unchanged {s : ImagesState} {st : Stmt}
    (h1 : weighS storeW loadW st = 0) (h2 : weighS plsDeclW zeroW st = 0) :
    ImgFacts s s [st] (weighS imageDeclW zeroW st) (weighS plsDeclW zeroW st)
      (weighS coordDeclW zeroW st) (fun f => weighS zeroW (callW f) st) := by
  refine ⟨?_, ?_, ?_, ?_, fun hf => hf, ?_⟩
  · rw [weighSs_cons, weighSs_nil]; omega
  · rw [weighSs_cons, weighSs_nil]; omega
  · rw [weighSs_cons, weighSs_nil]; omega
  · intro f hf
    rw [weighSs_cons, weighSs_nil]
    show weighS zeroW (callW f) st + 0 = weighS zeroW (callW f) st
    omega
  · rw [weighSs_cons, weighSs_nil, ite_flag_self]

theorem rwStmtsImages_facts (opts : ShCompileOptions) :
    ∀ (s : ImagesState) (ss : List Stmt) (s' : ImagesState) (out : List Stmt),
      rwStmtsImages opts s ss = some (s', out) →
      ImgFacts s s' out (weighSs imageDeclW zeroW ss) (weighSs plsDeclW zeroW ss)
        (weighSs coordDeclW zeroW ss) (fun f => weighSs zeroW (callW f) ss) := by
  have main := rwStmtsImages.induct opts
    (fun s st => ∀ s' out, rwStmtImages opts s st = some (s', out) →
      ImgFacts s s' out (weighS imageDeclW zeroW st) (weighS plsDeclW zeroW st)
        (weighS coordDeclW zeroW st) (fun f => weighS zeroW (callW f) st))
    (fun s ss => ∀ s' out, rwStmtsImages opts s ss = some (s', out) →
      ImgFacts s s' out (weighSs imageDeclW zeroW ss) (weighSs plsDeclW zeroW ss)
        (weighSs coordDeclW zeroW ss) (fun f => weighSs zeroW (callW f) ss))
  apply main
  · -- plsDecl
    intro s b fmt s' out h
    rw [rwStmtImages_plsDecl_eq] at h
    obtain ⟨imgFmt, images', h1, h2, rfl, rfl⟩ := h
    cases hg : s.globalPixelCoord <;>
      simp [ImgFacts, hg, weighSs_append, weighSs, weighS, weighE, storeW, loadW,
        plsDeclW, imageDeclW, coordDeclW, callW, zeroW]
  · -- plsStore
    intro s b fmt value s' out h
    rw [rwStmtImages_plsStore_eq] at h
    obtain ⟨value', s₂, pre, repl, post, hval, hstore, rfl, rfl⟩ := h
    rw [visitPLSStoreImages_eq] at hstore
    obtain ⟨imgFmt, ins, packed, nt, hfind, hclamp, hg, rfl, rfl, rfl, rfl⟩ := hstore
    obtain ⟨c1, c2, c3, c4, c5, c6, c7⟩ := clampAndPack_weights hclamp
    obtain ⟨v1, v2⟩ := rwExprImages_weights opts _ hval
    have hsg : s.globalPixelCoord = true := hg
    refine ⟨?_, ?_, ?_, ?_, ?_, ?_⟩
    · simp [weighSs_append, weighSs, weighS, weighE, storeW, loadW, c1, c6, v1]
    · simp [weighSs_append, weighSs, weighS, weighE, plsDeclW, zeroW, c2, weighE_zeroW]
    · simp [weighSs_append, weighSs, weighS, weighE, imageDeclW, plsDeclW, zeroW, c3,
        weighE_zeroW]
    · intro f hf
      simp [weighSs_append, weighSs, weighS, weighE, callW, zeroW, c5 f, c7 f, v2 f,
        Ne.symm hf, weighE_zeroW]
    · intro hflag; exact hsg
    · simp [weighSs_append, weighSs, weighS, weighE, coordDeclW, zeroW, c4,
        weighE_zeroW, hsg]
  · -- block
    intro s ss ih s' out h
    rw [rwStmtImages_block_eq] at h
    obtain ⟨ss', h1, rfl⟩ := h
    obtain ⟨f1, f2, f3, f4, f5, f6⟩ := ih s' ss' h1
    refine ⟨?_, ?_, ?_, ?_, f5, ?_⟩
    · simpa [weighSs, weighS, storeW] using f1
    · simpa [weighSs, weighS, plsDeclW, zeroW] using f2
    · simpa [weighSs, weighS, imageDeclW, plsDeclW, zeroW] using f3
    · intro f hf; simpa [weighSs, weighS, zeroW] using f4 f hf
    · simpa [weighSs, weighS, coordDeclW, zeroW] using f6
  · -- tempDecl
    intro s t e s' out h
    rw [rwStmtImages_tempDecl_eq] at h
    obtain ⟨e', h1, rfl, rfl⟩ := h
    obtain ⟨v1, v2⟩ := rwExprImages_weights opts _ h1
    refine ⟨?_, ?_, ?_, ?_, fun hf => hf, ?_⟩
    · simp [weighSs, weighS, storeW, v1]
    · simp [weighSs, weighS, plsDeclW, weighE_zeroW]
    · simp [weighSs, weighS, imageDeclW, plsDeclW, weighE_zeroW]
    · intro f hf; simp [weighSs, weighS, zeroW, v2 f]
    · simp [weighSs, weighS, coordDeclW, weighE_zeroW, ite_flag_self]
  · -- assign
    intro s l r s' out h
    rw [rwStmtImages_assign_eq] at h
    obtain ⟨l', r', h1, h2, rfl, rfl⟩ := h
    obtain ⟨u1, u2⟩ := rwExprImages_weights opts _ h1
    obtain ⟨v1, v2⟩ := rwExprImages_weights opts _ h2
    refine ⟨?_, ?_, ?_, ?_, fun hf => hf, ?_⟩
    · simp [weighSs, weighS, storeW, u1, v1]
    · simp [weighSs, weighS, plsDeclW, weighE_zeroW]
    · simp [weighSs, weighS, imageDeclW, plsDeclW, weighE_zeroW]
    · intro f hf; simp [weighSs, weighS, zeroW, u2 f, v2 f]
    · simp [weighSs, weighS, coordDeclW, weighE_zeroW, ite_flag_self]
  · -- exprStmt
    intro s e s' out h
    rw [rwStmtImages_exprStmt_eq] at h
    obtain ⟨e', h1, rfl, rfl⟩ := h
    obtain ⟨v1, v2⟩ := rwExprImages_weights opts _ h1
    refine ⟨?_, ?_, ?_, ?_, fun hf => hf, ?_⟩
    · simp [weighSs, weighS, storeW, v1]
    · simp [weighSs, weighS, plsDeclW, weighE_zeroW]
    · simp [weighSs, weighS, imageDeclW, plsDeclW, weighE_zeroW]
    · intro f hf; simp [weighSs, weighS, zeroW, v2 f]
    · simp [weighSs, weighS, coordDeclW, weighE_zeroW, ite_flag_self]
  · -- other statement kinds are passed through unchanged
    intro s st hn1 hn2 hn3 hn4 hn5 hn6 s' out h
    cases st with
    | plsDecl b fmt => exact absurd rfl (hn1 b fmt)
    | plsStore b fmt v => exact absurd rfl (hn2 b fmt v)
    | block ss => exact absurd rfl (hn3 ss)
    | tempDecl t e => exact absurd rfl (hn4 t e)
    | assign l r => exact absurd rfl (hn5 l r)
    | exprStmt e => exact absurd rfl (hn6 e)
    | imageDecl b fmt ro =>
      have h' : (some (s, [Stmt.imageDecl b fmt ro]) :
          Option (ImagesState × List Stmt)) = some (s', out) := h
      simp only [Option.some.injEq, Prod.mk.injEq] at h'
      obtain ⟨rfl, rfl⟩ := h'
      exact ImgFacts_unchanged rfl rfl
    | fragVarDecl b loc nc =>
      have h' : (some (s, [Stmt.fragVarDecl b loc nc]) :
          Option (ImagesState × List Stmt)) = some (s', out) := h
      simp only [Option.some.injEq, Prod.mk.injEq] at h'
      obtain ⟨rfl, rfl⟩ := h'
      exact ImgFacts_unchanged rfl rfl
    | accessVarDecl b size =>
      have h' : (some (s, [Stmt.accessVarDecl b size]) :
          Option (ImagesState × List Stmt)) = some (s', out) := h
      simp only [Option.some.injEq, Prod.mk.injEq] at h'
      obtain ⟨rfl, rfl⟩ := h'
      exact ImgFacts_unchanged rfl rfl
    | outDecl v loc =>
      have h' : (some (s, [Stmt.outDecl v loc]) :
          Option (ImagesState × List Stmt)) = some (s', out) := h
      simp only [Option.some.injEq, Prod.mk.injEq] at h'
      obtain ⟨rfl, rfl⟩ := h'
      exact ImgFacts_unchanged rfl rfl
    | coordDecl =>
      have h' : (some (s, [Stmt.coordDecl]) :
          Option (ImagesState × List Stmt)) = some (s', out) := h
      simp only [Option.some.injEq, Prod.mk.injEq] at h'
      obtain ⟨rfl, rfl⟩ := h'
      exact ImgFacts_unchanged rfl rfl
    | andAssign t mask =>
      have h' : (some (s, [Stmt.andAssign t mask]) :
          Option (ImagesState × List Stmt)) = some (s', out) := h
      simp only [Option.some.injEq, Prod.mk.injEq] at h'
      obtain ⟨rfl, rfl⟩ := h'
      exact ImgFacts_unchanged rfl rfl
  · -- nil
    intro s s' out h
    have h' : (some (s, ([] : List Stmt)) :
        Option (ImagesState × List Stmt)) = some (s', out) := h
    simp only [Option.some.injEq, Prod.mk.injEq] at h'
    obtain ⟨rfl, rfl⟩ := h'
    refine ⟨rfl, rfl, rfl, fun f hf => rfl, fun hf => hf, ?_⟩
    rw [weighSs_nil, ite_flag_self]
  · -- cons
    intro s st rest ih1 ih2 s' out h
    rw [rwStmtsImages_cons_eq] at h
    obtain ⟨s₁, out₁, out₂, h1, h2, rfl⟩ := h
    obtain ⟨a1, a2, a3, a4, a5, a6⟩ := ih1 s₁ out₁ h1
    obtain ⟨b1, b2, b3, b4, b5, b6⟩ := ih2 s₁ s' out₂ h2
    refine ⟨?_, ?_, ?_, ?_, fun hf => b5 (a5 hf), ?_⟩
    · rw [weighSs_append]; omega
    · rw [weighSs_append]; omega
    · rw [weighSs_append, a3, b3]
      simp only [weighSs_cons]
      omega
    · intro f hf
      rw [weighSs_append, a4 f hf, b4 f hf]
      simp only [weighSs_cons]
    · rw [weighSs_append, a6, b6]
      simp only [weighSs_cons]
      exact coord_delta_comp _ _ _ _ _ a5 b5

/-- Decomposition of the pass entry point under the image strategies: the
whole tree is rewritten, setup code is inserted at body position 0, finalize
code at the end, and the coordinate initialization is prepended last; the
program is marked for early fragment tests. -/
theorem RewritePLS_images_eq {resources : ShBuiltInResources}
    {opts : ShCompileOptions} {p : Program} {r : RewriteResult}
    (himg : opts.pls.type ≠ ShPixelLocalStorageType.FramebufferFetch)
    (h : RewritePixelLocalStorage resources opts p = some r) :
    ∃ s₁ s₂ top' body₁,
      rwStmtsImages opts ⟨[], false, 0⟩ p.topLevel = some (s₁, top') ∧
      rwStmtsImages opts s₁ p.mainBody = some (s₂, body₁) ∧
      r.prog.topLevel = top' ∧
      r.prog.mainBody =
        (if s₂.globalPixelCoord then [coordInitStmt] else []) ++
          (injectSetupCodeImages opts.pls.fragmentSynchronizationType ++ body₁ ++
            injectFinalizeCodeImages opts.pls.fragmentSynchronizationType) ∧
      r.earlyFragmentTests = true := by
  obtain ⟨⟨ty, sync⟩, hp⟩ := opts
  cases ty
  case FramebufferFetch => exact absurd rfl himg
  all_goals
    replace h : (rwStmtsImages ⟨⟨_, sync⟩, hp⟩ ⟨[], false, 0⟩ p.topLevel).bind
        (fun a => (rwStmtsImages ⟨⟨_, sync⟩, hp⟩ a.1 p.mainBody).bind fun b =>
          some ⟨⟨a.2,
            if b.1.globalPixelCoord then
              coordInitStmt :: (injectSetupCodeImages sync ++ b.2 ++
                injectFinalizeCodeImages sync)
            else
              injectSetupCodeImages sync ++ b.2 ++
                injectFinalizeCodeImages sync⟩, true⟩) = some r := h
  all_goals
    rw [Option.bind_eq_some] at h
    obtain ⟨⟨s₁, top'⟩, h1, h⟩ := h
    rw [Option.bind_eq_some] at h
    obtain ⟨⟨s₂, body₁⟩, h2, h⟩ := h
    simp only [Option.some.injEq] at h
    refine ⟨s₁, s₂, top', body₁, h1, h2, ?_, ?_, ?_⟩ <;> rw [← h] <;>
      cases hg : s₂.globalPixelCoord <;> simp [hg]

/-- A statement sequence containing no PLS declarations and no PLS operations
is left unchanged (state included) by the image-strategy traversal. -/
theorem rwStmtsImages_id (opts : ShCompileOptions) :
    ∀ (s : ImagesState) (ss : List Stmt), weighSs plsDeclW zeroW ss = 0 →
      weighSs storeW loadW ss = 0 → rwStmtsImages opts s ss = some (s, ss) := by
  have main := rwStmtsImages.induct opts
    (fun s st => weighS plsDeclW zeroW st = 0 → weighS storeW loadW st = 0 →
      rwStmtImages opts s st = some (s, [st]))
    (fun s ss => weighSs plsDeclW zeroW ss = 0 → weighSs storeW loadW ss = 0 →
      rwStmtsImages opts s ss = some (s, ss))
  apply main
  · intro s b fmt h1 h2
    simp [weighS, plsDeclW] at h1
  · intro s b fmt value h1 h2
    simp [weighS, storeW] at h2
  · intro s ss ih h1 h2
    rw [rwStmtImages_block_eq]
    refine ⟨ss, ih ?_ ?_, rfl⟩
    · simpa [weighS, plsDeclW] using h1
    · simpa [weighS, storeW] using h2
  · intro s t e h1 h2
    rw [rwStmtImages_tempDecl_eq]
    exact ⟨e, rwExprImages_id opts s (by simpa [weighS, storeW] using h2), rfl, rfl⟩
  · intro s l r h1 h2
    rw [rwStmtImages_assign_eq]
    have h2' : weighE loadW l = 0 ∧ weighE loadW r = 0 := by
      rw [weighS] at h2; constructor <;> omega
    exact ⟨l, r, rwExprImages_id opts s h2'.1, rwExprImages_id opts s h2'.2, rfl, rfl⟩
  · intro s e h1 h2
    rw [rwStmtImages_exprStmt_eq]
    exact ⟨e, rwExprImages_id opts s (by simpa [weighS, storeW] using h2), rfl, rfl⟩
  · intro s st hn1 hn2 hn3 hn4 hn5 hn6 h1 h2
    cases st with
    | plsDecl b fmt => exact absurd rfl (hn1 b fmt)
    | plsStore b fmt v => exact absurd rfl (hn2 b fmt v)
    | block ss => exact absurd rfl (hn3 ss)
    | tempDecl t e => exact absurd rfl (hn4 t e)
    | assign l r => exact absurd rfl (hn5 l r)
    | exprStmt e => exact absurd rfl (hn6 e)
    | imageDecl b fmt ro => rfl
    | fragVarDecl b loc nc => rfl
    | accessVarDecl b size => rfl
    | outDecl v loc => rfl
    | coordDecl => rfl
    | andAssign t mask => rfl
  · intro s h1 h2
    rfl
  · intro s st rest ih1 ih2 h1 h2
    rw [weighSs_cons] at h1 h2
    rw [rwStmtsImages_cons_eq]
    exact ⟨s, [st], rest, ih1 (by omega) (by omega), ih2 s (by omega) (by omega), rfl⟩

/-! Framebuffer-fetch helpers. -/

theorem insertNew_keys_perm {α : Type} {b : Nat} {v : α} :
    ∀ {m m' : List (Nat × α)}, insertNew b v m = some m' →
      List.Perm (m'.map Prod.fst) (b :: m.map Prod.fst) := by
  intro m
  induction m with
  | nil =>
    intro m' h
    simp only [insertNew, Option.some.injEq] at h
    subst h
    rfl
  | cons kv rest ih =>
    intro m' h
    obtain ⟨k, w⟩ := kv
    simp only [insertNew] at h
    split at h
    · simp only [Option.some.injEq] at h
      subst h
      rfl
    · split at h
      · exact absurd h (by simp)
      · rw [Option.map_eq_some'] at h
        obtain ⟨m₂, h2, rfl⟩ := h
        simp only [List.map_cons]
        exact ((ih h2).cons k).trans (List.Perm.swap b k (rest.map Prod.fst))

theorem insertNew_sorted {α : Type} {b : Nat} {v : α} :
    ∀ {m m' : List (Nat × α)}, List.Pairwise (· < ·) (m.map Prod.fst) →
      insertNew b v m = some m' → List.Pairwise (· < ·) (m'.map Prod.fst) := by
  intro m
  induction m with
  | nil =>
    intro m' hs h
    simp only [insertNew, Option.some.injEq] at h
    subst h
    simp
  | cons kv rest ih =>
    intro m' hs h
    obtain ⟨k, w⟩ := kv
    simp only [insertNew] at h
    simp only [List.map_cons, List.pairwise_cons] at hs
    split at h
    · rename_i hbk
      simp only [Option.some.injEq] at h
      subst h
      simp only [List.map_cons, List.pairwise_cons]
      refine ⟨?_, hs.1, hs.2⟩
      intro x hx
      rcases List.mem_cons.mp hx with rfl | hxr
      · exact hbk
      · exact lt_trans hbk (hs.1 x hxr)
    · split at h
      · exact absurd h (by simp)
      · rename_i hbk hne
        rw [Option.map_eq_some'] at h
        obtain ⟨m₂, h2, rfl⟩ := h
        simp only [List.map_cons, List.pairwise_cons]
        refine ⟨?_, ih hs.2 h2⟩
        intro x hx
        have hxmem : x ∈ b :: rest.map Prod.fst :=
          (insertNew_keys_perm h2).mem_iff.mp hx
        rcases List.mem_cons.mp hxmem with rfl | hxr
        · omega
        · exact hs.1 x hxr

theorem rwExprFb_call1_eq {s : FbState} {f : Builtin} {a e' : Expr} :
    rwExprFb s (.call1 f a) = some e' ↔
      ∃ a', rwExprFb s a = some a' ∧ e' = .call1 f a' := by
  rw [show rwExprFb s (.call1 f a) =
      (rwExprFb s a).bind fun a' => some (.call1 f a') from rfl, Option.bind_eq_some]
  simp [eq_comm]

theorem rwExprFb_call2_eq {s : FbState} {f : Builtin} {a c e' : Expr} :
    rwExprFb s (.call2 f a c) = some e' ↔
      ∃ a' c', rwExprFb s a = some a' ∧ rwExprFb s c = some c' ∧
        e' = .call2 f a' c' := by
  rw [show rwExprFb s (.call2 f a c) =
      (rwExprFb s a).bind (fun a' =>
        (rwExprFb s c).bind fun c' => some (.call2 f a' c')) from rfl,
    Option.bind_eq_some]
  simp only [Option.bind_eq_some, Option.some.injEq]
  constructor
  · rintro ⟨a', ha, c', hc, rfl⟩; exact ⟨a', c', ha, hc, rfl⟩
  · rintro ⟨a', c', ha, hc, rfl⟩; exact ⟨a', ha, c', hc, rfl⟩

theorem rwExprFb_call3_eq {s : FbState} {f : Builtin} {a c d e' : Expr} :
    rwExprFb s (.call3 f a c d) = some e' ↔
      ∃ a' c' d', rwExprFb s a = some a' ∧ rwExprFb s c = some c' ∧
        rwExprFb s d = some d' ∧ e' = .call3 f a' c' d' := by
  rw [show rwExprFb s (.call3 f a c d) =
      (rwExprFb s a).bind (fun a' =>
        (rwExprFb s c).bind (fun c' =>
          (rwExprFb s d).bind fun d' => some (.call3 f a' c' d'))) from rfl,
    Option.bind_eq_some]
  simp only [Option.bind_eq_some, Option.some.injEq]
  constructor
  · rintro ⟨a', ha, c', hc, d', hd, rfl⟩; exact ⟨a', c', d', ha, hc, hd, rfl⟩
  · rintro ⟨a', c', d', ha, hc, hd, rfl⟩; exact ⟨a', ha, c', hc, d', hd, rfl⟩

theorem rwExprFb_binop_eq {s : FbState} {op : BinOp} {a c e' : Expr} :
    rwExprFb s (.binop op a c) = some e' ↔
      ∃ a' c', rwExprFb s a = some a' ∧ rwExprFb s c = some c' ∧
        e' = .binop op a' c' := by
  rw [show rwExprFb s (.binop op a c) =
      (rwExprFb s a).bind (fun a' =>
        (rwExprFb s c).bind fun c' => some (.binop op a' c')) from rfl,
    Option.bind_eq_some]
  simp only [Option.bind_eq_some, Option.some.injEq]
  constructor
  · rintro ⟨a', ha, c', hc, rfl⟩; exact ⟨a', c', ha, hc, rfl⟩
  · rintro ⟨a', c', ha, hc, rfl⟩; exact ⟨a', ha, c', hc, rfl⟩

theorem rwExprFb_swizzle_eq {s : FbState} {a e' : Expr} {offs : List Nat} :
    rwExprFb s (.swizzle a offs) = some e' ↔
      ∃ a', rwExprFb s a = some a' ∧ e' = .swizzle a' offs := by
  rw [show rwExprFb s (.swizzle a offs) =
      (rwExprFb s a).bind fun a' => some (.swizzle a' offs) from rfl,
    Option.bind_eq_some]
  simp [eq_comm]

theorem rwExprFb_construct1_eq {s : FbState} {ty : ConstructorType} {a e' : Expr} :
    rwExprFb s (.construct1 ty a) = some e' ↔
      ∃ a', rwExprFb s a = some a' ∧ e' = .construct1 ty a' := by
  rw [show rwExprFb s (.construct1 ty a) =
      (rwExprFb s a).bind fun a' => some (.construct1 ty a') from rfl,
    Option.bind_eq_some]
  simp [eq_comm]

theorem rwExprFb_construct4_eq {s : FbState} {ty : ConstructorType}
    {a c d e e' : Expr} :
    rwExprFb s (.construct4 ty a c d e) = some e' ↔
      ∃ a' c' d' e₄, rwExprFb s a = some a' ∧ rwExprFb s c = some c' ∧
        rwExprFb s d = some d' ∧ rwExprFb s e = some e₄ ∧
        e' = .construct4 ty a' c' d' e₄ := by
  rw [show rwExprFb s (.construct4 ty a c d e) =
      (rwExprFb s a).bind (fun a' =>
        (rwExprFb s c).bind (fun c' =>
          (rwExprFb s d).bind (fun d' =>
            (rwExprFb s e).bind fun e₄ =>
              some (.construct4 ty a' c' d' e₄)))) from rfl,
    Option.bind_eq_some]
  simp only [Option.bind_eq_some, Option.some.injEq]
  constructor
  · rintro ⟨a', ha, c', hc, d', hd, e₄, he, rfl⟩
    exact ⟨a', c', d', e₄, ha, hc, hd, he, rfl⟩
  · rintro ⟨a', c', d', e₄, ha, hc, hd, he, rfl⟩
    exact ⟨a', ha, c', hc, d', hd, e₄, he, rfl⟩

theorem rwExprFb_plsLoad_eq {s : FbState} {b : Nat} {fmt : InternalFormat}
    {e' : Expr} :
    rwExprFb s (.plsLoad b fmt) = some e' ↔
      ∃ a, findBS b s.atts = some a ∧ expandAccessVar b a = some e' := by
  rw [show rwExprFb s (.plsLoad b fmt) =
      (findBS b s.atts).bind fun a => expandAccessVar b a from rfl,
    Option.bind_eq_some]

theorem rwExprFb_outSym_eq {s : FbState} {v : Nat} {loc : Option Int} :
    rwExprFb s (.outSym v loc) =
      if loc = none ∧ v ∈ s.rewrittenOutputs then some (.outSym v (some 0))
      else some (.outSym v loc) := rfl

theorem expandAccessVar_weights {b : Nat} {a : PLSAttachment} {e' : Expr}
    (h : expandAccessVar b a = some e') :
    weighE loadW e' = 0 ∧ (∀ f, weighE (callW f) e' = 0) ∧
    weighE fragSymW e' = 0 ∧ (∀ v, weighE (outSymNoneW v) e' = 0) := by
  unfold expandAccessVar at h
  split at h
  · cases ha : a.basic <;> rw [ha] at h <;> simp only [Option.some.injEq] at h
    all_goals first
    | exact absurd h (by simp)
    | (subst h
       exact ⟨rfl, fun f => rfl, rfl, fun v => rfl⟩)
  · simp only [Option.some.injEq] at h
    subst h
    exact ⟨rfl, fun f => rfl, rfl, fun v => rfl⟩

theorem rwExprFb_weights (s : FbState) :
    ∀ {e e' : Expr}, rwExprFb s e = some e' →
      weighE loadW e' = 0 ∧
      (∀ f, weighE (callW f) e' = weighE (callW f) e) ∧
      weighE fragSymW e' = weighE fragSymW e ∧
      (∀ v, v ∈ s.rewrittenOutputs → weighE (outSymNoneW v) e' = 0) := by
  intro e
  induction e with
  | plsLoad b fmt =>
    intro e' h
    rw [rwExprFb_plsLoad_eq] at h
    obtain ⟨a, hf, h⟩ := h
    obtain ⟨w1, w2, w3, w4⟩ := expandAccessVar_weights h
    exact ⟨w1, fun f => by rw [w2 f]; rfl, by rw [w3]; rfl, fun v hv => w4 v⟩
  | outSym v loc =>
    intro e' h
    rw [rwExprFb_outSym_eq] at h
    split at h
    · rename_i hc
      simp only [Option.some.injEq] at h
      subst h
      refine ⟨rfl, fun f => rfl, rfl, fun u hu => ?_⟩
      show (if v = u ∧ (some 0 : Option Int) = none then 1 else 0) = 0
      simp
    · rename_i hc
      simp only [Option.some.injEq] at h
      subst h
      refine ⟨rfl, fun f => rfl, rfl, fun u hu => ?_⟩
      show (if v = u ∧ loc = none then 1 else 0) = 0
      rw [if_neg]
      rintro ⟨rfl, rfl⟩
      exact hc ⟨rfl, hu⟩
  | call1 f a iha =>
    intro e' h
    rw [rwExprFb_call1_eq] at h
    obtain ⟨a', ha, rfl⟩ := h
    obtain ⟨w1, w2, w3, w4⟩ := iha ha
    exact ⟨by simp [weighE, loadW, w1], fun g => by simp [weighE, callW, w2 g],
      by simp [weighE, fragSymW, w3], fun v hv => by simp [weighE, outSymNoneW, w4 v hv]⟩
  | call2 f a c iha ihc =>
    intro e' h
    rw [rwExprFb_call2_eq] at h
    obtain ⟨a', c', ha, hc, rfl⟩ := h
    obtain ⟨u1, u2, u3, u4⟩ := iha ha
    obtain ⟨w1, w2, w3, w4⟩ := ihc hc
    exact ⟨by simp [weighE, loadW, u1, w1],
      fun g => by simp [weighE, callW, u2 g, w2 g],
      by simp [weighE, fragSymW, u3, w3],
      fun v hv => by simp [weighE, outSymNoneW, u4 v hv, w4 v hv]⟩
  | call3 f a c d iha ihc ihd =>
    intro e' h
    rw [rwExprFb_call3_eq] at h
    obtain ⟨a', c', d', ha, hc, hd, rfl⟩ := h
    obtain ⟨u1, u2, u3, u4⟩ := iha ha
    obtain ⟨w1, w2, w3, w4⟩ := ihc hc
    obtain ⟨x1, x2, x3, x4⟩ := ihd hd
    exact ⟨by simp [weighE, loadW, u1, w1, x1],
      fun g => by simp [weighE, callW, u2 g, w2 g, x2 g],
      by simp [weighE, fragSymW, u3, w3, x3],
      fun v hv => by simp [weighE, outSymNoneW, u4 v hv, w4 v hv, x4 v hv]⟩
  | binop op a c iha ihc =>
    intro e' h
    rw [rwExprFb_binop_eq] at h
    obtain ⟨a', c', ha, hc, rfl⟩ := h
    obtain ⟨u1, u2, u3, u4⟩ := iha ha
    obtain ⟨w1, w2, w3, w4⟩ := ihc hc
    exact ⟨by simp [weighE, loadW, u1, w1],
      fun g => by simp [weighE, callW, u2 g, w2 g],
      by simp [weighE, fragSymW, u3, w3],
      fun v hv => by simp [weighE, outSymNoneW, u4 v hv, w4 v hv]⟩
  | swizzle a offs iha =>
    intro e' h
    rw [rwExprFb_swizzle_eq] at h
    obtain ⟨a', ha, rfl⟩ := h
    obtain ⟨w1, w2, w3, w4⟩ := iha ha
    exact ⟨by simp [weighE, loadW, w1], fun g => by simp [weighE, callW, w2 g],
      by simp [weighE, fragSymW, w3], fun v hv => by simp [weighE, outSymNoneW, w4 v hv]⟩
  | construct1 ty a iha =>
    intro e' h
    rw [rwExprFb_construct1_eq] at h
    obtain ⟨a', ha, rfl⟩ := h
    obtain ⟨w1, w2, w3, w4⟩ := iha ha
    exact ⟨by simp [weighE, loadW, w1], fun g => by simp [weighE, callW, w2 g],
      by simp [weighE, fragSymW, w3], fun v hv => by simp [weighE, outSymNoneW, w4 v hv]⟩
  | construct4 ty a c d e iha ihc ihd ihe =>
    intro e' h
    rw [rwExprFb_construct4_eq] at h
    obtain ⟨a', c', d', e₄, ha, hc, hd, he, rfl⟩ := h
    obtain ⟨u1, u2, u3, u4⟩ := iha ha
    obtain ⟨w1, w2, w3, w4⟩ := ihc hc
    obtain ⟨x1, x2, x3, x4⟩ := ihd hd
    obtain ⟨y1, y2, y3, y4⟩ := ihe he
    exact ⟨by simp [weighE, loadW, u1, w1, x1, y1],
      fun g => by simp [weighE, callW, u2 g, w2 g, x2 g, y2 g],
      by simp [weighE, fragSymW, u3, w3, x3, y3],
      fun v hv => by simp [weighE, outSymNoneW, u4 v hv, w4 v hv, x4 v hv, y4 v hv]⟩
  | intConst n => rintro e' ⟨rfl⟩; exact ⟨rfl, fun f => rfl, rfl, fun v hv => rfl⟩
  | uintConst n => rintro e' ⟨rfl⟩; exact ⟨rfl, fun f => rfl, rfl, fun v hv => rfl⟩
  | floatConst n => rintro e' ⟨rfl⟩; exact ⟨rfl, fun f => rfl, rfl, fun v hv => rfl⟩
  | uvecConst ns => rintro e' ⟨rfl⟩; exact ⟨rfl, fun f => rfl, rfl, fun v hv => rfl⟩
  | imageSym b => rintro e' ⟨rfl⟩; exact ⟨rfl, fun f => rfl, rfl, fun v hv => rfl⟩
  | coordSym => rintro e' ⟨rfl⟩; exact ⟨rfl, fun f => rfl, rfl, fun v hv => rfl⟩
  | tempSym t => rintro e' ⟨rfl⟩; exact ⟨rfl, fun f => rfl, rfl, fun v hv => rfl⟩
  | accessSym b => rintro e' ⟨rfl⟩; exact ⟨rfl, fun f => rfl, rfl, fun v hv => rfl⟩
  | fragSym b => rintro e' ⟨rfl⟩; exact ⟨rfl, fun f => rfl, rfl, fun v hv => rfl⟩
  | fragCoordSym => rintro e' ⟨rfl⟩; exact ⟨rfl, fun f => rfl, rfl, fun v hv => rfl⟩
  | call0 f => rintro e' ⟨rfl⟩; exact ⟨rfl, fun g => rfl, rfl, fun v hv => rfl⟩

/-! Statement-level equation lemmas for the framebuffer-fetch strategy. -/

theorem rwStmtFb_plsDecl_eq {resources : ShBuiltInResources} {opts : ShCompileOptions}
    {s s' : FbState} {b : Nat} {fmt : InternalFormat} {out : List Stmt} :
    rwStmtFb resources opts s (.plsDecl b fmt) = some (s', out) ↔
      ∃ a atts', mkPLSAttachment resources opts b fmt = some a ∧
        insertNew b a s.atts = some atts' ∧
        s' = { s with atts := atts' } ∧
        out = [.fragVarDecl b a.loc a.noncoherent, .accessVarDecl b a.size] := by
  rw [show rwStmtFb resources opts s (.plsDecl b fmt) =
      (mkPLSAttachment resources opts b fmt).bind (fun a =>
        (insertNew b a s.atts).bind fun atts' =>
          some ({ s with atts := atts' },
            [Stmt.fragVarDecl b a.loc a.noncoherent, .accessVarDecl b a.size]))
      from rfl, Option.bind_eq_some]
  constructor
  · rintro ⟨a, h1, h⟩
    rw [Option.bind_eq_some] at h
    obtain ⟨atts', h2, h⟩ := h
    simp only [Option.some.injEq, Prod.mk.injEq] at h
    exact ⟨a, atts', h1, h2, h.1.symm, h.2.symm⟩
  · rintro ⟨a, atts', h1, h2, h3, h4⟩
    refine ⟨a, h1, ?_⟩
    rw [Option.bind_eq_some]
    exact ⟨atts', h2, by simp [h3, h4]⟩

theorem rwStmtFb_outDecl_none_eq {resources : ShBuiltInResources}
    {opts : ShCompileOptions} {s : FbState} {v : Nat} :
    rwStmtFb resources opts s (.outDecl v none) =
      some ({ s with rewrittenOutputs := v :: s.rewrittenOutputs },
        [.outDecl v (some 0)]) := rfl

theorem rwStmtFb_outDecl_some_eq {resources : ShBuiltInResources}
    {opts : ShCompileOptions} {s : FbState} {v : Nat} {l : Int} :
    rwStmtFb resources opts s (.outDecl v (some l)) =
      some (s, [.outDecl v (some l)]) := rfl

theorem rwStmtFb_plsStore_eq {resources : ShBuiltInResources}
    {opts : ShCompileOptions} {s s' : FbState} {b : Nat} {fmt : InternalFormat}
    {value : Expr} {out : List Stmt} :
    rwStmtFb resources opts s (.plsStore b fmt value) = some (s', out) ↔
      ∃ value' a, rwExprFb { s with nextTemp := s.nextTemp + 1 } value = some value' ∧
        findBS b s.atts = some a ∧
        s' = { s with nextTemp := s.nextTemp + 1 } ∧
        out = [Stmt.tempDecl s.nextTemp value',
          .assign (.accessSym b) (swizzled (.tempSym s.nextTemp) a.size)] := by
  rw [show rwStmtFb resources opts s (.plsStore b fmt value) =
      (rwExprFb { s with nextTemp := s.nextTemp + 1 } value).bind (fun value' =>
        (findBS b s.atts).bind fun a =>
          some ({ s with nextTemp := s.nextTemp + 1 },
            [Stmt.tempDecl s.nextTemp value',
              .assign (.accessSym b) (swizzled (.tempSym s.nextTemp) a.size)]))
      from rfl, Option.bind_eq_some]
  constructor
  · rintro ⟨value', h1, h⟩
    rw [Option.bind_eq_some] at h
    obtain ⟨a, h2, h⟩ := h
    simp only [Option.some.injEq, Prod.mk.injEq] at h
    exact ⟨value', a, h1, h2, h.1.symm, h.2.symm⟩
  · rintro ⟨value', a, h1, h2, h3, h4⟩
    refine ⟨value', h1, ?_⟩
    rw [Option.bind_eq_some]
    exact ⟨a, h2, by simp [h3, h4]⟩

theorem rwStmtFb_block_eq {resources : ShBuiltInResources} {opts : ShCompileOptions}
    {s s' : FbState} {ss out : List Stmt} :
    rwStmtFb resources opts s (.block ss) = some (s', out) ↔
      ∃ ss', rwStmtsFb resources opts s ss = some (s', ss') ∧ out = [.block ss'] := by
  rw [show rwStmtFb resources opts s (.block ss) =
      (rwStmtsFb resources opts s ss).bind fun x => some (x.1, [.block x.2]) from rfl,
    Option.bind_eq_some]
  constructor
  · rintro ⟨⟨s₁, ss'⟩, h1, h⟩
    simp only [Option.some.injEq, Prod.mk.injEq] at h
    exact ⟨ss', by rw [h.1] at h1; exact h1, h.2.symm⟩
  · rintro ⟨ss', h1, rfl⟩
    exact ⟨(s', ss'), h1, rfl⟩

theorem rwStmtFb_tempDecl_eq {resources : ShBuiltInResources} {opts : ShCompileOptions}
    {s s' : FbState} {t : Nat} {e : Expr} {out : List Stmt} :
    rwStmtFb resources opts s (.tempDecl t e) = some (s', out) ↔
      ∃ e', rwExprFb s e = some e' ∧ s' = s ∧ out = [.tempDecl t e'] := by
  rw [show rwStmtFb resources opts s (.tempDecl t e) =
      (rwExprFb s e).bind fun e' => some (s, [.tempDecl t e']) from rfl,
    Option.bind_eq_some]
  simp only [Option.some.injEq, Prod.mk.injEq]
  constructor
  · rintro ⟨e', h1, h2, h3⟩; exact ⟨e', h1, h2.symm, h3.symm⟩
  · rintro ⟨e', h1, h2, h3⟩; exact ⟨e', h1, h2.symm, h3.symm⟩

theorem rwStmtFb_assign_eq {resources : ShBuiltInResources} {opts : ShCompileOptions}
    {s s' : FbState} {l r : Expr} {out : List Stmt} :
    rwStmtFb resources opts s (.assign l r) = some (s', out) ↔
      ∃ l' r', rwExprFb s l = some l' ∧ rwExprFb s r = some r' ∧
        s' = s ∧ out = [.assign l' r'] := by
  rw [show rwStmtFb resources opts s (.assign l r) =
      (rwExprFb s l).bind (fun l' =>
        (rwExprFb s r).bind fun r' => some (s, [.assign l' r'])) from rfl,
    Option.bind_eq_some]
  simp only [Option.bind_eq_some, Option.some.injEq, Prod.mk.injEq]
  constructor
  · rintro ⟨l', h1, r', h2, h3, h4⟩; exact ⟨l', r', h1, h2, h3.symm, h4.symm⟩
  · rintro ⟨l', r', h1, h2, h3, h4⟩; exact ⟨l', h1, r', h2, h3.symm, h4.symm⟩

theorem rwStmtFb_exprStmt_eq {resources : ShBuiltInResources} {opts : ShCompileOptions}
    {s s' : FbState} {e : Expr} {out : List Stmt} :
    rwStmtFb resources opts s (.exprStmt e) = some (s', out) ↔
      ∃ e', rwExprFb s e = some e' ∧ s' = s ∧ out = [.exprStmt e'] := by
  rw [show rwStmtFb resources opts s (.exprStmt e) =
      (rwExprFb s e).bind fun e' => some (s, [.exprStmt e']) from rfl,
    Option.bind_eq_some]
  simp only [Option.some.injEq, Prod.mk.injEq]
  constructor
  · rintro ⟨e', h1, h2, h3⟩; exact ⟨e', h1, h2.symm, h3.symm⟩
  · rintro ⟨e', h1, h2, h3⟩; exact ⟨e', h1, h2.symm, h3.symm⟩

theorem rwStmtsFb_cons_eq {resources : ShBuiltInResources} {opts : ShCompileOptions}
    {s s' : FbState} {st : Stmt} {rest out : List Stmt} :
    rwStmtsFb resources opts s (st :: rest) = some (s', out) ↔
      ∃ s₁ out₁ out₂, rwStmtFb resources opts s st = some (s₁, out₁) ∧
        rwStmtsFb resources opts s₁ rest = some (s', out₂) ∧ out = out₁ ++ out₂ := by
  rw [show rwStmtsFb resources opts s (st :: rest) =
      (rwStmtFb resources opts s st).bind (fun x =>
        (rwStmtsFb resources opts x.1 rest).bind fun y => some (y.1, x.2 ++ y.2))
      from rfl, Option.bind_eq_some]
  constructor
  · rintro ⟨⟨s₁, out₁⟩, h1, h⟩
    rw [Option.bind_eq_some] at h
    obtain ⟨⟨s₂, out₂⟩, h2, h⟩ := h
    simp only [Option.some.injEq, Prod.mk.injEq] at h
    exact ⟨s₁, out₁, out₂, h1, by rw [h.1] at h2; exact h2, h.2.symm⟩
  · rintro ⟨s₁, out₁, out₂, h1, h2, rfl⟩
    refine ⟨(s₁, out₁), h1, ?_⟩
    rw [Option.bind_eq_some]
    exact ⟨(s', out₂), h2, rfl⟩

theorem swizzled_tempSym_weights (t n : Nat) :
    weighE loadW (swizzled (.tempSym t) n) = 0 ∧
    (∀ f, weighE (callW f) (swizzled (.tempSym t) n) = 0) ∧
    weighE fragSymW (swizzled (.tempSym t) n) = 0 ∧
    (∀ v, weighE (outSymNoneW v) (swizzled (.tempSym t) n) = 0) := by
  unfold swizzled
  split <;> exact ⟨rfl, fun f => rfl, rfl, fun v => rfl⟩

theorem plsBindingsSs_cons (st : Stmt) (rest : List Stmt) :
    plsBindingsSs (st :: rest) = plsBindingsS st ++ plsBindingsSs rest := by
  rw [plsBindingsSs]

theorem plsBindingsSs_nil : plsBindingsSs [] = [] := by
  rw [plsBindingsSs]

theorem FbFacts_unchanged {s : FbState} {st : Stmt}
    (h1 : weighS storeW loadW st = 0) (h2 : weighS plsDeclW zeroW st = 0)
    (h3 : weighS outDeclNoneW zeroW st = 0)
    (h4 : ∀ v, weighS zeroW (outSymNoneW v) st = 0) :
    FbFacts s s [st] (weighS fragVarDeclW zeroW st) (weighS accessVarDeclW zeroW st)
      (weighS plsDeclW zeroW st) (weighS coordDeclW zeroW st)
      (weighS zeroW fragSymW st) [] := by
  refine ⟨?_, ?_, ?_, ?_, ?_, ?_, ?_, fun v hv => hv, fun v hv => ?_, ?_, fun hp => hp⟩
  · rw [weighSs_cons, weighSs_nil]; omega
  · rw [weighSs_cons, weighSs_nil]; omega
  · rw [weighSs_cons, weighSs_nil]; omega
  · rw [weighSs_cons, weighSs_nil]; omega
  · rw [weighSs_cons, weighSs_nil]; omega
  · rw [weighSs_cons, weighSs_nil]; omega
  · rw [weighSs_cons, weighSs_nil]; omega
  · rw [weighSs_cons, weighSs_nil]
    have := h4 v
    omega
  · simp

theorem rwStmtsFb_facts (resources : ShBuiltInResources) (opts : ShCompileOptions) :
    ∀ (s : FbState) (ss : List Stmt) (s' : FbState) (out : List Stmt),
      rwStmtsFb resources opts s ss = some (s', out) →
      FbFacts s s' out (weighSs fragVarDeclW zeroW ss) (weighSs accessVarDeclW zeroW ss)
        (weighSs plsDeclW zeroW ss) (weighSs coordDeclW zeroW ss)
        (weighSs zeroW fragSymW ss) (plsBindingsSs ss) := by
  have main := rwStmtsFb.induct resources opts
    (fun s st => ∀ s' out, rwStmtFb resources opts s st = some (s', out) →
      FbFacts s s' out (weighS fragVarDeclW zeroW st) (weighS accessVarDeclW zeroW st)
        (weighS plsDeclW zeroW st) (weighS coordDeclW zeroW st)
        (weighS zeroW fragSymW st) (plsBindingsS st))
    (fun s ss => ∀ s' out, rwStmtsFb resources opts s ss = some (s', out) →
      FbFacts s s' out (weighSs fragVarDeclW zeroW ss) (weighSs accessVarDeclW zeroW ss)
        (weighSs plsDeclW zeroW ss) (weighSs coordDeclW zeroW ss)
        (weighSs zeroW fragSymW ss) (plsBindingsSs ss))
  apply main
  · -- plsDecl
    intro s b fmt s' out h
    rw [rwStmtFb_plsDecl_eq] at h
    obtain ⟨a, atts', h1, h2, rfl, rfl⟩ := h
    refine ⟨rfl, rfl, ?_, ?_, rfl, ?_, ?_, fun v hv => hv, fun v hv => rfl, ?_, ?_⟩
    · rw [weighSs_cons, weighSs_cons, weighSs_nil]; rfl
    · rw [weighSs_cons, weighSs_cons, weighSs_nil]; rfl
    · rw [weighSs_cons, weighSs_cons, weighSs_nil]; rfl
    · rw [weighSs_cons, weighSs_cons, weighSs_nil]; rfl
    · show (atts'.map Prod.fst).Perm (s.atts.map Prod.fst ++ [b])
      exact (insertNew_keys_perm h2).trans (List.perm_append_singleton b _).symm
    · intro hp
      exact insertNew_sorted hp h2
  · -- outDecl with unspecified location
    intro s v s' out h
    rw [rwStmtFb_outDecl_none_eq] at h
    simp only [Option.some.injEq, Prod.mk.injEq] at h
    obtain ⟨rfl, rfl⟩ := h
    refine ⟨rfl, rfl, rfl, rfl, ?_, rfl, rfl, fun u hu => List.mem_cons_of_mem v hu,
      fun u hu => rfl, by simp [plsBindingsS], fun hp => hp⟩
    rw [weighSs_cons, weighSs_nil]
    rfl
  · -- outDecl with explicit location
    intro s v l s' out h
    rw [rwStmtFb_outDecl_some_eq] at h
    simp only [Option.some.injEq, Prod.mk.injEq] at h
    obtain ⟨rfl, rfl⟩ := h
    exact FbFacts_unchanged rfl rfl (by simp [weighS, outDeclNoneW]) (fun u => rfl)
  · -- plsStore
    intro s b fmt value s' out h
    rw [rwStmtFb_plsStore_eq] at h
    obtain ⟨value', a, hval, hfind, rfl, rfl⟩ := h
    obtain ⟨v1, v2, v3, v4⟩ := rwExprFb_weights _ hval
    obtain ⟨z1, z2, z3, z4⟩ := swizzled_tempSym_weights s.nextTemp a.size
    refine ⟨?_, ?_, ?_, ?_, ?_, ?_, ?_, fun u hu => hu, fun u hu => ?_,
      by simp [plsBindingsS], fun hp => hp⟩
    · rw [weighSs_cons, weighSs_cons, weighSs_nil]
      simp [weighS, storeW, v1, z1, weighE, loadW]
    · rw [weighSs_cons, weighSs_cons, weighSs_nil]
      simp [weighS, plsDeclW, weighE_zeroW]
    · rw [weighSs_cons, weighSs_cons, weighSs_nil]
      simp [weighS, fragVarDeclW, plsDeclW, weighE_zeroW]
    · rw [weighSs_cons, weighSs_cons, weighSs_nil]
      simp [weighS, accessVarDeclW, plsDeclW, weighE_zeroW]
    · rw [weighSs_cons, weighSs_cons, weighSs_nil]
      simp [weighS, outDeclNoneW, weighE_zeroW]
    · rw [weighSs_cons, weighSs_cons, weighSs_nil]
      simp [weighS, coordDeclW, weighE_zeroW]
    · rw [weighSs_cons, weighSs_cons, weighSs_nil]
      simp [weighS, zeroW, fragSymW, v3, z3, weighE]
    · rw [weighSs_cons, weighSs_cons, weighSs_nil]
      simp [weighS, zeroW, v4 u hu, z4 u, weighE, outSymNoneW]
  · -- block
    intro s ss ih s' out h
    rw [rwStmtFb_block_eq] at h
    obtain ⟨ss', h1, rfl⟩ := h
    obtain ⟨f1, f2, f3, f4, f5, f6, f7, f8, f9, f10, f11⟩ := ih s' ss' h1
    refine ⟨?_, ?_, ?_, ?_, ?_, ?_, ?_, f8, fun u hu => ?_, ?_, f11⟩
    · simpa [weighSs_cons, weighSs_nil, weighS, storeW] using f1
    · simpa [weighSs_cons, weighSs_nil, weighS, plsDeclW, zeroW] using f2
    · simpa [weighSs_cons, weighSs_nil, weighS, fragVarDeclW, plsDeclW, zeroW] using f3
    · simpa [weighSs_cons, weighSs_nil, weighS, accessVarDeclW, plsDeclW, zeroW] using f4
    · simpa [weighSs_cons, weighSs_nil, weighS, outDeclNoneW, zeroW] using f5
    · simpa [weighSs_cons, weighSs_nil, weighS, coordDeclW, zeroW] using f6
    · simpa [weighSs_cons, weighSs_nil, weighS, zeroW] using f7
    · simpa [weighSs_cons, weighSs_nil, weighS, zeroW] using f9 u hu
    · simpa [plsBindingsS] using f10
  · -- tempDecl
    intro s t e s' out h
    rw [rwStmtFb_tempDecl_eq] at h
    obtain ⟨e', h1, rfl, rfl⟩ := h
    obtain ⟨v1, v2, v3, v4⟩ := rwExprFb_weights _ h1
    refine ⟨?_, ?_, ?_, ?_, ?_, ?_, ?_, fun u hu => hu, fun u hu => ?_,
      by simp [plsBindingsS], fun hp => hp⟩ <;>
      rw [weighSs_cons, weighSs_nil]
    · simp [weighS, storeW, v1]
    · simp [weighS, plsDeclW, weighE_zeroW]
    · simp [weighS, fragVarDeclW, plsDeclW, weighE_zeroW]
    · simp [weighS, accessVarDeclW, plsDeclW, weighE_zeroW]
    · simp [weighS, outDeclNoneW, weighE_zeroW]
    · simp [weighS, coordDeclW, weighE_zeroW]
    · simp [weighS, zeroW, v3]
    · simp [weighS, zeroW, v4 u hu]
  · -- assign
    intro s l r s' out h
    rw [rwStmtFb_assign_eq] at h
    obtain ⟨l', r', h1, h2, rfl, rfl⟩ := h
    obtain ⟨u1, u2, u3, u4⟩ := rwExprFb_weights _ h1
    obtain ⟨v1, v2, v3, v4⟩ := rwExprFb_weights _ h2
    refine ⟨?_, ?_, ?_, ?_, ?_, ?_, ?_, fun u hu => hu, fun u hu => ?_,
      by simp [plsBindingsS], fun hp => hp⟩ <;>
      rw [weighSs_cons, weighSs_nil]
    · simp [weighS, storeW, u1, v1]
    · simp [weighS, plsDeclW, weighE_zeroW]
    · simp [weighS, fragVarDeclW, plsDeclW, weighE_zeroW]
    · simp [weighS, accessVarDeclW, plsDeclW, weighE_zeroW]
    · simp [weighS, outDeclNoneW, weighE_zeroW]
    · simp [weighS, coordDeclW, weighE_zeroW]
    · simp [weighS, zeroW, u3, v3]
    · simp [weighS, zeroW, u4 u hu, v4 u hu]
  · -- exprStmt
    intro s e s' out h
    rw [rwStmtFb_exprStmt_eq] at h
    obtain ⟨e', h1, rfl, rfl⟩ := h
    obtain ⟨v1, v2, v3, v4⟩ := rwExprFb_weights _ h1
    refine ⟨?_, ?_, ?_, ?_, ?_, ?_, ?_, fun u hu => hu, fun u hu => ?_,
      by simp [plsBindingsS], fun hp => hp⟩ <;>
      rw [weighSs_cons, weighSs_nil]
    · simp [weighS, storeW, v1]
    · simp [weighS, plsDeclW, weighE_zeroW]
    · simp [weighS, fragVarDeclW, plsDeclW, weighE_zeroW]
    · simp [weighS, accessVarDeclW, plsDeclW, weighE_zeroW]
    · simp [weighS, outDeclNoneW, weighE_zeroW]
    · simp [weighS, coordDeclW, weighE_zeroW]
    · simp [weighS, zeroW, v3]
    · simp [weighS, zeroW, v4 u hu]
  · -- passthrough statements
    intro s st hn1 hn2 hn3 hn4 hn5 hn6 hn7 s' out h
    cases st with
    | plsDecl b fmt => exact absurd rfl (hn1 b fmt)
    | outDecl v loc => exact absurd rfl (hn2 v loc)
    | plsStore b fmt v => exact absurd rfl (hn3 b fmt v)
    | block ss => exact absurd rfl (hn4 ss)
    | tempDecl t e => exact absurd rfl (hn5 t e)
    | assign l r => exact absurd rfl (hn6 l r)
    | exprStmt e => exact absurd rfl (hn7 e)
    | imageDecl b fmt ro =>
      have h' : (some (s, [Stmt.imageDecl b fmt ro]) :
          Option (FbState × List Stmt)) = some (s', out) := h
      simp only [Option.some.injEq, Prod.mk.injEq] at h'
      obtain ⟨rfl, rfl⟩ := h'
      exact FbFacts_unchanged rfl rfl rfl (fun u => rfl)
    | fragVarDecl b loc nc =>
      have h' : (some (s, [Stmt.fragVarDecl b loc nc]) :
          Option (FbState × List Stmt)) = some (s', out) := h
      simp only [Option.some.injEq, Prod.mk.injEq] at h'
      obtain ⟨rfl, rfl⟩ := h'
      exact FbFacts_unchanged rfl rfl rfl (fun u => rfl)
    | accessVarDecl b size =>
      have h' : (some (s, [Stmt.accessVarDecl b size]) :
          Option (FbState × List Stmt)) = some (s', out) := h
      simp only [Option.some.injEq, Prod.mk.injEq] at h'
      obtain ⟨rfl, rfl⟩ := h'
      exact FbFacts_unchanged rfl rfl rfl (fun u => rfl)
    | coordDecl =>
      have h' : (some (s, [Stmt.coordDecl]) :
          Option (FbState × List Stmt)) = some (s', out) := h
      simp only [Option.some.injEq, Prod.mk.injEq] at h'
      obtain ⟨rfl, rfl⟩ := h'
      exact FbFacts_unchanged rfl rfl rfl (fun u => rfl)
    | andAssign t mask =>
      have h' : (some (s, [Stmt.andAssign t mask]) :
          Option (FbState × List Stmt)) = some (s', out) := h
      simp only [Option.some.injEq, Prod.mk.injEq] at h'
      obtain ⟨rfl, rfl⟩ := h'
      exact FbFacts_unchanged rfl rfl rfl (fun u => rfl)
  · -- nil
    intro s s' out h
    have h' : (some (s, ([] : List Stmt)) :
        Option (FbState × List Stmt)) = some (s', out) := h
    simp only [Option.some.injEq, Prod.mk.injEq] at h'
    obtain ⟨rfl, rfl⟩ := h'
    exact ⟨rfl, rfl, rfl, rfl, rfl, rfl, rfl, fun v hv => hv, fun v hv => rfl,
      by simp [plsBindingsSs_nil], fun hp => hp⟩
  · -- cons
    intro s st rest ih1 ih2 s' out h
    rw [rwStmtsFb_cons_eq] at h
    obtain ⟨s₁, out₁, out₂, h1, h2, rfl⟩ := h
    obtain ⟨a1, a2, a3, a4, a5, a6, a7, a8, a9, a10, a11⟩ := ih1 s₁ out₁ h1
    obtain ⟨b1, b2, b3, b4, b5, b6, b7, b8, b9, b10, b11⟩ := ih2 s₁ s' out₂ h2
    refine ⟨?_, ?_, ?_, ?_, ?_, ?_, ?_, fun u hu => b8 u (a8 u hu), fun u hu => ?_,
      ?_, fun hp => b11 (a11 hp)⟩
    · rw [weighSs_append]; omega
    · rw [weighSs_append]; omega
    · rw [weighSs_append, a3, b3]; simp only [weighSs_cons]; omega
    · rw [weighSs_append, a4, b4]; simp only [weighSs_cons]; omega
    · rw [weighSs_append]; omega
    · rw [weighSs_append, a6, b6]; simp only [weighSs_cons]
    · rw [weighSs_append, a7, b7]; simp only [weighSs_cons]
    · rw [weighSs_append]
      have hb9 := b9 u (a8 u hu)
      have ha9 := a9 u hu
      omega
    · rw [plsBindingsSs_cons, ← List.append_assoc]
      exact b10.trans (a10.append_right (plsBindingsSs rest))

/-- Decomposition of the pass entry point under the framebuffer-fetch
strategy: the whole tree is rewritten, the attachment preload assignments are
inserted at body position 0 and the flush assignments at the end; the program
is not marked for early fragment tests. -/
theorem RewritePLS_fb_eq {resources : ShBuiltInResources}
    {opts : ShCompileOptions} {p : Program} {r : RewriteResult}
    (hfb : opts.pls.type = ShPixelLocalStorageType.FramebufferFetch)
    (h : RewritePixelLocalStorage resources opts p = some r) :
    ∃ s₁ s₂ top' body₁,
      rwStmtsFb resources opts ⟨[], [], 0⟩ p.topLevel = some (s₁, top') ∧
      rwStmtsFb resources opts s₁ p.mainBody = some (s₂, body₁) ∧
      r.prog.topLevel = top' ∧
      r.prog.mainBody =
        injectSetupCodeFb s₂ ++ body₁ ++ injectFinalizeCodeFb s₂ ∧
      r.earlyFragmentTests = false := by
  obtain ⟨⟨ty, sync⟩, hp⟩ := opts
  replace hfb : ty = ShPixelLocalStorageType.FramebufferFetch := hfb
  subst hfb
  replace h : (rwStmtsFb resources ⟨⟨.FramebufferFetch, sync⟩, hp⟩ ⟨[], [], 0⟩
      p.topLevel).bind (fun a =>
        (rwStmtsFb resources ⟨⟨.FramebufferFetch, sync⟩, hp⟩ a.1 p.mainBody).bind
          fun b =>
            some ⟨⟨a.2, injectSetupCodeFb b.1 ++ b.2 ++ injectFinalizeCodeFb b.1⟩,
              false⟩) = some r := h
  rw [Option.bind_eq_some] at h
  obtain ⟨⟨s₁, top'⟩, h1, h⟩ := h
  rw [Option.bind_eq_some] at h
  obtain ⟨⟨s₂, body₁⟩, h2, h⟩ := h
  simp only [Option.some.injEq] at h
  exact ⟨s₁, s₂, top', body₁, h1, h2, by rw [← h], by rw [← h], by rw [← h]⟩

/-- The image-strategy setup and finalize injections contribute nothing to any
weight that vanishes on expression statements and intrinsic calls. -/
theorem injectImages_weighSs (P : Stmt → Nat) (Q : Expr → Nat)
    (sync : ShFragmentSynchronizationType)
    (hP : ∀ e, P (.exprStmt e) = 0) (hQ : ∀ f, Q (.call0 f) = 0) :
    weighSs P Q (injectSetupCodeImages sync) = 0 ∧
    weighSs P Q (injectFinalizeCodeImages sync) = 0 := by
  cases sync <;>
    simp [injectSetupCodeImages, injectFinalizeCodeImages, weighSs_cons,
      weighSs_nil, weighS, weighE, hP, hQ]

/-- A list of assignments built by mapping over the attachment registry has
zero total weight whenever each single assignment does. -/
theorem weighSs_assign_map (P : Stmt → Nat) (Q : Expr → Nat)
    (A B : Nat → PLSAttachment → Expr) (atts : List (Nat × PLSAttachment))
    (h : ∀ b a, weighS P Q (.assign (A b a) (B b a)) = 0) :
    weighSs P Q (atts.map fun q => .assign (A q.1 q.2) (B q.1 q.2)) = 0 := by
  induction atts with
  | nil => rfl
  | cons q rest ih =>
    rw [List.map_cons, weighSs_cons, h q.1 q.2, ih]

/-- Weight of the (possibly swizzled) attachment-variable reference. -/
theorem swizzleFragmentVar_weighE (Q : Expr → Nat) (b : Nat) (a : PLSAttachment)
    (h1 : Q (.fragSym b) = 0)
    (h2 : Q (.swizzle (.fragSym b) (List.range a.size)) = 0) :
    weighE Q (swizzleFragmentVar b a) = 0 := by
  unfold swizzleFragmentVar swizzled
  split
  · exact h1
  · simp [weighE, h1, h2]

/-- An unlocated output declaration appearing in a successfully rewritten
statement sequence yields a relocated declaration with explicit location 0 in
the output, and registers the variable as rewritten. -/
theorem rwStmtsFb_outDecl_mem (resources : ShBuiltInResources)
    (opts : ShCompileOptions) (v : Nat) :
    ∀ (ss : List Stmt) (s s' : FbState) (out : List Stmt),
      rwStmtsFb resources opts s ss = some (s', out) →
      Stmt.outDecl v none ∈ ss →
      Stmt.outDecl v (some 0) ∈ out ∧ v ∈ s'.rewrittenOutputs := by
  intro ss
  induction ss with
  | nil =>
    intro s s' out h hm
    exact absurd hm (List.not_mem_nil _)
  | cons st rest ih =>
    intro s s' out h hm
    rw [rwStmtsFb_cons_eq] at h
    obtain ⟨s₁, out₁, out₂, h1, h2, rfl⟩ := h
    rcases List.mem_cons.mp hm with heq | hm'
    · subst heq
      rw [rwStmtFb_outDecl_none_eq] at h1
      simp only [Option.some.injEq, Prod.mk.injEq] at h1
      obtain ⟨rfl, rfl⟩ := h1
      refine ⟨List.mem_append_left _ (List.mem_singleton_self _), ?_⟩
      have hmono := (rwStmtsFb_facts resources opts _ _ _ _ h2).2.2.2.2.2.2.2.1
      exact hmono v (List.mem_cons_self v _)
    · obtain ⟨m2, mv⟩ := ih s₁ s' out₂ h2 hm'
      exact ⟨List.mem_append_right _ m2, mv⟩

/-- The image-strategy traversal of an appended sequence splits into the
traversal of the two halves with the state threaded through. -/
theorem rwStmtsImages_append (opts : ShCompileOptions) :
    ∀ (A B : List Stmt) (s s' : ImagesState) (out : List Stmt),
      rwStmtsImages opts s (A ++ B) = some (s', out) →
      ∃ s₁ outA outB, rwStmtsImages opts s A = some (s₁, outA) ∧
        rwStmtsImages opts s₁ B = some (s', outB) ∧ out = outA ++ outB := by
  intro A
  induction A with
  | nil =>
    intro B s s' out h
    exact ⟨s, [], out, rfl, h, rfl⟩
  | cons st rest ih =>
    intro B s s' out h
    rw [List.cons_append, rwStmtsImages_cons_eq] at h
    obtain ⟨s₁, out₁, out₂, h1, h2, rfl⟩ := h
    obtain ⟨sm, outA, outB, g1, g2, rfl⟩ := ih B s₁ s' out₂ h2
    refine ⟨sm, out₁ ++ outA, outB, ?_, g2, by rw [List.append_assoc]⟩
    rw [rwStmtsImages_cons_eq]
    exact ⟨s₁, out₁, outA, h1, g1, rfl⟩

/-- The global-pixel-coordinate flag after an image-strategy traversal: it is
set exactly when it was already set or the traversed sequence contains at
least one PLS declaration. -/
theorem rwStmtsImages_flag (opts : ShCompileOptions) :
    ∀ (s : ImagesState) (ss : List Stmt) (s' : ImagesState) (out : List Stmt),
      rwStmtsImages opts s ss = some (s', out) →
      (s'.globalPixelCoord = true ↔
        (s.globalPixelCoord = true ∨ 0 < weighSs plsDeclW zeroW ss)) := by
  have main := rwStmtsImages.induct opts
    (fun s st => ∀ s' out, rwStmtImages opts s st = some (s', out) →
      (s'.globalPixelCoord = true ↔
        (s.globalPixelCoord = true ∨ 0 < weighS plsDeclW zeroW st)))
    (fun s ss => ∀ s' out, rwStmtsImages opts s ss = some (s', out) →
      (s'.globalPixelCoord = true ↔
        (s.globalPixelCoord = true ∨ 0 < weighSs plsDeclW zeroW ss)))
  apply main
  · -- plsDecl
    intro s b fmt s' out h
    rw [rwStmtImages_plsDecl_eq] at h
    obtain ⟨imgFmt, images', h1, h2, rfl, rfl⟩ := h
    simp [weighS, plsDeclW]
  · -- plsStore
    intro s b fmt value s' out h
    rw [rwStmtImages_plsStore_eq] at h
    obtain ⟨value', s₂, pre, repl, post, hval, hstore, rfl, rfl⟩ := h
    rw [visitPLSStoreImages_eq] at hstore
    obtain ⟨imgFmt, ins, packed, nt, hfind, hclamp, hg, rfl, rfl, rfl, rfl⟩ := hstore
    have hsg : s.globalPixelCoord = true := hg
    simp [weighS, plsDeclW, weighE_zeroW, hsg]
  · -- block
    intro s ss ih s' out h
    rw [rwStmtImages_block_eq] at h
    obtain ⟨ss', h1, rfl⟩ := h
    rw [ih s' ss' h1]
    simp [weighS, plsDeclW]
  · -- tempDecl
    intro s t e s' out h
    rw [rwStmtImages_tempDecl_eq] at h
    obtain ⟨e', h1, rfl, rfl⟩ := h
    simp [weighS, plsDeclW, weighE_zeroW]
  · -- assign
    intro s l r s' out h
    rw [rwStmtImages_assign_eq] at h
    obtain ⟨l', r', h1, h2, rfl, rfl⟩ := h
    simp [weighS, plsDeclW, weighE_zeroW]
  · -- exprStmt
    intro s e s' out h
    rw [rwStmtImages_exprStmt_eq] at h
    obtain ⟨e', h1, rfl, rfl⟩ := h
    simp [weighS, plsDeclW, weighE_zeroW]
  · -- passthrough statements
    intro s st hn1 hn2 hn3 hn4 hn5 hn6 s' out h
    cases st with
    | plsDecl b fmt => exact absurd rfl (hn1 b fmt)
    | plsStore b fmt v => exact absurd rfl (hn2 b fmt v)
    | block ss => exact absurd rfl (hn3 ss)
    | tempDecl t e => exact absurd rfl (hn4 t e)
    | assign l r => exact absurd rfl (hn5 l r)
    | exprStmt e => exact absurd rfl (hn6 e)
    | imageDecl b fmt ro =>
      have h' : (some (s, [Stmt.imageDecl b fmt ro]) :
          Option (ImagesState × List Stmt)) = some (s', out) := h
      simp only [Option.some.injEq, Prod.mk.injEq] at h'
      obtain ⟨rfl, rfl⟩ := h'
      show s.globalPixelCoord = true ↔ (s.globalPixelCoord = true ∨ (0 : Nat) < 0)
      simp
    | fragVarDecl b loc nc =>
      have h' : (some (s, [Stmt.fragVarDecl b loc nc]) :
          Option (ImagesState × List Stmt)) = some (s', out) := h
      simp only [Option.some.injEq, Prod.mk.injEq] at h'
      obtain ⟨rfl, rfl⟩ := h'
      show s.globalPixelCoord = true ↔ (s.globalPixelCoord = true ∨ (0 : Nat) < 0)
      simp
    | accessVarDecl b size =>
      have h' : (some (s, [Stmt.accessVarDecl b size]) :
          Option (ImagesState × List Stmt)) = some (s', out) := h
      simp only [Option.some.injEq, Prod.mk.injEq] at h'
      obtain ⟨rfl, rfl⟩ := h'
      show s.globalPixelCoord = true ↔ (s.globalPixelCoord = true ∨ (0 : Nat) < 0)
      simp
    | outDecl v loc =>
      have h' : (some (s, [Stmt.outDecl v loc]) :
          Option (ImagesState × List Stmt)) = some (s', out) := h
      simp only [Option.some.injEq, Prod.mk.injEq] at h'
      obtain ⟨rfl, rfl⟩ := h'
      show s.globalPixelCoord = true ↔ (s.globalPixelCoord = true ∨ (0 : Nat) < 0)
      simp
    | coordDecl =>
      have h' : (some (s, [Stmt.coordDecl]) :
          Option (ImagesState × List Stmt)) = some (s', out) := h
      simp only [Option.some.injEq, Prod.mk.injEq] at h'
      obtain ⟨rfl, rfl⟩ := h'
      show s.globalPixelCoord = true ↔ (s.globalPixelCoord = true ∨ (0 : Nat) < 0)
      simp
    | andAssign t mask =>
      have h' : (some (s, [Stmt.andAssign t mask]) :
          Option (ImagesState × List Stmt)) = some (s', out) := h
      simp only [Option.some.injEq, Prod.mk.injEq] at h'
      obtain ⟨rfl, rfl⟩ := h'
      show s.globalPixelCoord = true ↔ (s.globalPixelCoord = true ∨ (0 : Nat) < 0)
      simp
  · -- nil
    intro s s' out h
    have h' : (some (s, ([] : List Stmt)) :
        Option (ImagesState × List Stmt)) = some (s', out) := h
    simp only [Option.some.injEq, Prod.mk.injEq] at h'
    obtain ⟨rfl, rfl⟩ := h'
    show s.globalPixelCoord = true ↔ (s.globalPixelCoord = true ∨ (0 : Nat) < 0)
    simp
  · -- cons
    intro s st rest ih1 ih2 s' out h
    rw [rwStmtsImages_cons_eq] at h
    obtain ⟨s₁, out₁, out₂, h1, h2, rfl⟩ := h
    rw [ih2 s₁ s' out₂ h2, ih1 s₁ out₁ h1, weighSs_cons]
    constructor
    · rintro ((hs | hx) | hy)
      · exact Or.inl hs
      · exact Or.inr (by omega)
      · exact Or.inr (by omega)
    · rintro (hs | hxy)
      · exact Or.inl (Or.inl hs)
      · rcases Nat.eq_zero_or_pos (weighS plsDeclW zeroW st) with hx | hx
        · exact Or.inr (by omega)
        · exact Or.inl (Or.inr hx)

/-- The framebuffer-fetch setup and finalize injections contribute nothing to
any weight that vanishes on assignments, scratch-variable references and
(possibly swizzled) attachment-variable references. -/
theorem injectFb_weighSs (P : Stmt → Nat) (Q : Expr → Nat) (s : FbState)
    (hP : ∀ l r, P (.assign l r) = 0)
    (hQa : ∀ b, Q (.accessSym b) = 0)
    (hQf : ∀ b, Q (.fragSym b) = 0)
    (hQs : ∀ b n, Q (.swizzle (.fragSym b) (List.range n)) = 0) :
    weighSs P Q (injectSetupCodeFb s) = 0 ∧
    weighSs P Q (injectFinalizeCodeFb s) = 0 := by
  constructor
  · show weighSs P Q
      (s.atts.map fun q => Stmt.assign (.accessSym q.1) (swizzleFragmentVar q.1 q.2)) = 0
    exact weighSs_assign_map P Q (fun b _ => .accessSym b)
      (fun b a => swizzleFragmentVar b a) s.atts (fun b a => by
        show P (.assign (.accessSym b) (swizzleFragmentVar b a)) +
          weighE Q (.accessSym b) + weighE Q (swizzleFragmentVar b a) = 0
        rw [hP, swizzleFragmentVar_weighE Q b a (hQf b) (hQs b a.size)]
        show 0 + Q (.accessSym b) + 0 = 0
        rw [hQa])
  · show weighSs P Q
      (s.atts.map fun q => Stmt.assign (swizzleFragmentVar q.1 q.2) (.accessSym q.1)) = 0
    exact weighSs_assign_map P Q (fun b a => swizzleFragmentVar b a)
      (fun b _ => .accessSym b) s.atts (fun b a => by
        show P (.assign (swizzleFragmentVar b a) (.accessSym b)) +
          weighE Q (swizzleFragmentVar b a) + weighE Q (.accessSym b) = 0
        rw [hP, swizzleFragmentVar_weighE Q b a (hQf b) (hQs b a.size)]
        show 0 + 0 + Q (.accessSym b) = 0
        rw [hQa])

/-! ### Claims -/

/-- C1: for an input program whose PLS bindings are distinct and which
contains no pre-existing replacement declarations, a successful run of the
pass leaves zero PLS-typed declarations and zero PLS load/store operation
nodes anywhere in the tree, and introduces exactly one backing-store
declaration per PLS declaration: one image declaration per binding under the
image strategies, and one attachment/scratch declaration pair per binding
under the framebuffer-fetch strategy. -/
theorem C1_backing_store_counts (resources : ShBuiltInResources)
    (opts : ShCompileOptions) (p : Program) (r : RewriteResult)
    (h : RewritePixelLocalStorage resources opts p = some r)
    (hnodup : (plsBindingsP p).Nodup)
    (himg0 : weighP imageDeclW zeroW p = 0)
    (hfv0 : weighP fragVarDeclW zeroW p = 0)
    (hav0 : weighP accessVarDeclW zeroW p = 0) :
    countPLSDecls r.prog = 0 ∧ countPLSOps r.prog = 0 ∧
    (opts.pls.type ≠ ShPixelLocalStorageType.FramebufferFetch →
      weighP imageDeclW zeroW r.prog = countPLSDecls p) ∧
    (opts.pls.type = ShPixelLocalStorageType.FramebufferFetch →
      weighP fragVarDeclW zeroW r.prog = countPLSDecls p ∧
      weighP accessVarDeclW zeroW r.prog = countPLSDecls p) := by
  rw [weighP] at himg0 hfv0 hav0
  by_cases hty : opts.pls.type = ShPixelLocalStorageType.FramebufferFetch
  · obtain ⟨s₁, s₂, top', body₁, h1, h2, ht, hb, he⟩ := RewritePLS_fb_eq hty h
    obtain ⟨a1, a2, a3, a4, a5, a6, a7, a8, a9, a10, a11⟩ :=
      rwStmtsFb_facts resources opts _ _ _ _ h1
    obtain ⟨b1, b2, b3, b4, b5, b6, b7, b8, b9, b10, b11⟩ :=
      rwStmtsFb_facts resources opts _ _ _ _ h2
    obtain ⟨ip1, ip2⟩ := injectFb_weighSs plsDeclW zeroW s₂ (fun l r => rfl)
      (fun b => rfl) (fun b => rfl) (fun b n => rfl)
    obtain ⟨is1, is2⟩ := injectFb_weighSs storeW loadW s₂ (fun l r => rfl)
      (fun b => rfl) (fun b => rfl) (fun b n => rfl)
    obtain ⟨if1, if2⟩ := injectFb_weighSs fragVarDeclW zeroW s₂ (fun l r => rfl)
      (fun b => rfl) (fun b => rfl) (fun b n => rfl)
    obtain ⟨ia1, ia2⟩ := injectFb_weighSs accessVarDeclW zeroW s₂ (fun l r => rfl)
      (fun b => rfl) (fun b => rfl) (fun b n => rfl)
    refine ⟨?_, ?_, fun hn => absurd hty hn, fun _ => ⟨?_, ?_⟩⟩
    · rw [countPLSDecls, weighP, ht, hb, weighSs_append, weighSs_append]
      omega
    · rw [countPLSOps, weighP, ht, hb, weighSs_append, weighSs_append]
      omega
    · rw [weighP, countPLSDecls, weighP, ht, hb, weighSs_append, weighSs_append]
      omega
    · rw [weighP, countPLSDecls, weighP, ht, hb, weighSs_append, weighSs_append]
      omega
  · obtain ⟨s₁, s₂, top', body₁, h1, h2, ht, hb, he⟩ := RewritePLS_images_eq hty h
    obtain ⟨a1, a2, a3, a4, a5, a6⟩ := rwStmtsImages_facts opts _ _ _ _ h1
    obtain ⟨b1, b2, b3, b4, b5, b6⟩ := rwStmtsImages_facts opts _ _ _ _ h2
    obtain ⟨ip1, ip2⟩ := injectImages_weighSs plsDeclW zeroW
      opts.pls.fragmentSynchronizationType (fun e => rfl) (fun f => rfl)
    obtain ⟨is1, is2⟩ := injectImages_weighSs storeW loadW
      opts.pls.fragmentSynchronizationType (fun e => rfl) (fun f => rfl)
    obtain ⟨ii1, ii2⟩ := injectImages_weighSs imageDeclW zeroW
      opts.pls.fragmentSynchronizationType (fun e => rfl) (fun f => rfl)
    have hc1 : weighSs plsDeclW zeroW
        (if s₂.globalPixelCoord then [coordInitStmt] else []) = 0 := by
      split <;> rfl
    have hc2 : weighSs storeW loadW
        (if s₂.globalPixelCoord then [coordInitStmt] else []) = 0 := by
      split <;> rfl
    have hc3 : weighSs imageDeclW zeroW
        (if s₂.globalPixelCoord then [coordInitStmt] else []) = 0 := by
      split <;> rfl
    refine ⟨?_, ?_, fun _ => ?_, fun hn => absurd hn hty⟩
    · rw [countPLSDecls, weighP, ht, hb, weighSs_append, weighSs_append,
        weighSs_append]
      omega
    · rw [countPLSOps, weighP, ht, hb, weighSs_append, weighSs_append,
        weighSs_append]
      omega
    · rw [weighP, countPLSDecls, weighP, ht, hb, weighSs_append, weighSs_append,
        weighSs_append]
      omega

/-- C2: under the image strategy, a store to a signed 4x8 integer PLS binding
clamps every component to `[-128,127]` before packing and a store to an
unsigned 4x8 integer binding clamps every component to `[0,255]` (as
`min(x, 255u)` on values that are non-negative by type), so storing any value
and loading it back yields exactly the clamped value: 200 loads back as 127,
-200 as -128, and 300 as 255. -/
theorem C2_clamp_before_pack :
    (∀ v : IVec4, unpackRGBA8I (storeWordRGBA8I v) = clamp4I v) ∧
    (∀ v : UVec4, unpackRGBA8UI (storeWordRGBA8UI v) = min4U v) ∧
    (∀ v : UVec4, min4U v = ⟨min v.x 255, min v.y 255, min v.z 255, min v.w 255⟩) ∧
    unpackRGBA8I (storeWordRGBA8I ⟨200, 0, 0, 0⟩) = ⟨127, 0, 0, 0⟩ ∧
    unpackRGBA8I (storeWordRGBA8I ⟨-200, 0, 0, 0⟩) = ⟨-128, 0, 0, 0⟩ ∧
    unpackRGBA8UI (storeWordRGBA8UI ⟨300, 0, 0, 0⟩) = ⟨255, 0, 0, 0⟩ := by
  refine ⟨storeLoadRGBA8I_eq_clamp, storeLoadRGBA8UI_eq_min, fun v => rfl, ?_, ?_, ?_⟩
  · rw [storeLoadRGBA8I_eq_clamp]; decide
  · rw [storeLoadRGBA8I_eq_clamp]; decide
  · rw [storeLoadRGBA8UI_eq_min]; decide

/-- C3: under R32 packing, the load-hook unpacking (broadcast, shift left by
`{24,16,8,0}`, shift right by 24 — arithmetic for the signed case) applied to
the store-hook packing (mask to 8 bits for the signed case, then OR of the
channels shifted left by `{0,8,16,24}`) recovers every 4-component vector
whose components are in 8-bit range, including the per-channel sign in the
signed case, in exact 32-bit two's-complement arithmetic. -/
theorem C3_pack_unpack_roundtrip :
    (∀ v : IVec4, -128 ≤ v.x → v.x ≤ 127 → -128 ≤ v.y → v.y ≤ 127 →
      -128 ≤ v.z → v.z ≤ 127 → -128 ≤ v.w → v.w ≤ 127 →
      unpackRGBA8I (packRGBA8I v) = v) ∧
    (∀ v : UVec4, v.x < 256 → v.y < 256 → v.z < 256 → v.w < 256 →
      unpackRGBA8UI (packRGBA8UI v) = v) := by
  constructor
  · intro v h1 h2 h3 h4 h5 h6 h7 h8
    exact unpack_packRGBA8I ⟨h1, h2⟩ ⟨h3, h4⟩ ⟨h5, h6⟩ ⟨h7, h8⟩
  · intro v h1 h2 h3 h4
    exact unpack_packRGBA8UI h1 h2 h3 h4

/-- Witness for C3 at concrete vectors. -/
theorem C3_pack_unpack_roundtrip_witness :
    unpackRGBA8I (packRGBA8I ⟨-1, 127, -128, 5⟩) = ⟨-1, 127, -128, 5⟩ ∧
    unpackRGBA8UI (packRGBA8UI ⟨0, 255, 7, 200⟩) = ⟨0, 255, 7, 200⟩ :=
  ⟨C3_pack_unpack_roundtrip.1 ⟨-1, 127, -128, 5⟩ (by decide) (by decide) (by decide)
      (by decide) (by decide) (by decide) (by decide) (by decide),
    C3_pack_unpack_roundtrip.2 ⟨0, 255, 7, 200⟩ (by decide) (by decide) (by decide)
      (by decide)⟩

/-- C6: the attachment output location assigned to binding `b` equals
`MaxCombinedDrawBuffersAndPixelLocalStoragePlanes - b - 1`; consequently the
assignment is strictly decreasing in the binding and injective, and binding 0
receives the highest location. -/
theorem C6_attachment_location_order (resources : ShBuiltInResources)
    (opts : ShCompileOptions) {b₁ b₂ : Nat} {f₁ f₂ : InternalFormat}
    {a₁ a₂ : PLSAttachment}
    (h₁ : mkPLSAttachment resources opts b₁ f₁ = some a₁)
    (h₂ : mkPLSAttachment resources opts b₂ f₂ = some a₂) :
    a₁.loc = resources.MaxCombinedDrawBuffersAndPixelLocalStoragePlanes - b₁ - 1 ∧
    (b₁ < b₂ → a₂.loc < a₁.loc) ∧
    (a₁.loc = a₂.loc → b₁ = b₂) ∧
    a₁.loc ≤ resources.MaxCombinedDrawBuffersAndPixelLocalStoragePlanes - 1 := by
  have e₁ : a₁.loc = resources.MaxCombinedDrawBuffersAndPixelLocalStoragePlanes -
      (b₁ : Int) - 1 := by
    cases f₁ <;> simp [mkPLSAttachment] at h₁ <;> (subst h₁; rfl)
  have e₂ : a₂.loc = resources.MaxCombinedDrawBuffersAndPixelLocalStoragePlanes -
      (b₂ : Int) - 1 := by
    cases f₂ <;> simp [mkPLSAttachment] at h₂ <;> (subst h₂; rfl)
  refine ⟨e₁, ?_, ?_, ?_⟩ <;> rw [e₁] <;> first
  | omega
  | (rw [e₂]; omega)

/-- C10: a program with zero PLS declarations and zero PLS operations is left
unchanged by the image-strategy traversal, yet the pass still marks the
program as requiring early fragment tests and still wraps the body in the
begin/end intrinsics selected by the configured synchronization mechanism:
setup and finalize injection depend only on configuration. -/
theorem C10_injection_without_pls (resources : ShBuiltInResources)
    (opts : ShCompileOptions) (p : Program)
    (himg : opts.pls.type = ShPixelLocalStorageType.ImageStoreR32PackedFormats ∨
      opts.pls.type = ShPixelLocalStorageType.ImageStoreNativeFormats)
    (hdecls : countPLSDecls p = 0) (hops : countPLSOps p = 0) :
    RewritePixelLocalStorage resources opts p =
      some ⟨⟨p.topLevel,
        injectSetupCodeImages opts.pls.fragmentSynchronizationType ++ p.mainBody ++
          injectFinalizeCodeImages opts.pls.fragmentSynchronizationType⟩, true⟩ := by
  rw [countPLSDecls, weighP] at hdecls
  rw [countPLSOps, weighP] at hops
  obtain ⟨⟨ty, sync⟩, hp⟩ := opts
  have e1 : rwStmtsImages ⟨⟨ty, sync⟩, hp⟩ ⟨[], false, 0⟩ p.topLevel =
      some (⟨[], false, 0⟩, p.topLevel) :=
    rwStmtsImages_id _ _ _ (by omega) (by omega)
  have e2 : rwStmtsImages ⟨⟨ty, sync⟩, hp⟩ ⟨[], false, 0⟩ p.mainBody =
      some (⟨[], false, 0⟩, p.mainBody) :=
    rwStmtsImages_id _ _ _ (by omega) (by omega)
  rcases himg with hty | hty <;> cases hty
  · show (rwStmtsImages ⟨⟨ShPixelLocalStorageType.ImageStoreR32PackedFormats, sync⟩, hp⟩
        ⟨[], false, 0⟩ p.topLevel).bind
        (fun a => (rwStmtsImages
            ⟨⟨ShPixelLocalStorageType.ImageStoreR32PackedFormats, sync⟩, hp⟩ a.1
            p.mainBody).bind fun b =>
          some (⟨⟨a.2,
            if b.1.globalPixelCoord then
              coordInitStmt :: (injectSetupCodeImages sync ++ b.2 ++
                injectFinalizeCodeImages sync)
            else
              injectSetupCodeImages sync ++ b.2 ++
                injectFinalizeCodeImages sync⟩, true⟩ : RewriteResult)) = _
    rw [e1, Option.some_bind, e2, Option.some_bind]
    rfl
  · show (rwStmtsImages ⟨⟨ShPixelLocalStorageType.ImageStoreNativeFormats, sync⟩, hp⟩
        ⟨[], false, 0⟩ p.topLevel).bind
        (fun a => (rwStmtsImages
            ⟨⟨ShPixelLocalStorageType.ImageStoreNativeFormats, sync⟩, hp⟩ a.1
            p.mainBody).bind fun b =>
          some (⟨⟨a.2,
            if b.1.globalPixelCoord then
              coordInitStmt :: (injectSetupCodeImages sync ++ b.2 ++
                injectFinalizeCodeImages sync)
            else
              injectSetupCodeImages sync ++ b.2 ++
                injectFinalizeCodeImages sync⟩, true⟩ : RewriteResult)) = _
    rw [e1, Option.some_bind, e2, Option.some_bind]
    rfl

/-- C8: under the image strategy the setup injection inserts a
begin-critical-section intrinsic at the start of `main` exactly when the
synchronization mechanism is one of the three interlock mechanisms (none for
rasterizer-ordered views or "not supported"), the finalize injection inserts
the matching end intrinsic exactly for the NV and ARB interlocks (the INTEL
ordering extension has no end call), and the program is marked as requiring
early fragment tests. -/
theorem C8_critical_section_injection (resources : ShBuiltInResources)
    (opts : ShCompileOptions) (p : Program) (r : RewriteResult)
    (himg : opts.pls.type ≠ ShPixelLocalStorageType.FramebufferFetch)
    (h : RewritePixelLocalStorage resources opts p = some r)
    (hclean : ∀ f, f ≠ Builtin.memoryBarrierImage → weighP zeroW (callW f) p = 0) :
    r.earlyFragmentTests = true ∧
    (∃ coordPre mid, (coordPre = [] ∨ coordPre = [coordInitStmt]) ∧
      r.prog.mainBody = coordPre ++
        injectSetupCodeImages opts.pls.fragmentSynchronizationType ++ mid ++
        injectFinalizeCodeImages opts.pls.fragmentSynchronizationType) ∧
    weighSs zeroW (callW .beginInvocationInterlockNV) r.prog.mainBody =
      (if opts.pls.fragmentSynchronizationType =
        ShFragmentSynchronizationType.FragmentShaderInterlock_NV_GL then 1 else 0) ∧
    weighSs zeroW (callW .beginFragmentShaderOrderingINTEL) r.prog.mainBody =
      (if opts.pls.fragmentSynchronizationType =
        ShFragmentSynchronizationType.FragmentShaderOrdering_INTEL_GL then 1 else 0) ∧
    weighSs zeroW (callW .beginInvocationInterlockARB) r.prog.mainBody =
      (if opts.pls.fragmentSynchronizationType =
        ShFragmentSynchronizationType.FragmentShaderInterlock_ARB_GL then 1 else 0) ∧
    weighSs zeroW (callW .endInvocationInterlockNV) r.prog.mainBody =
      (if opts.pls.fragmentSynchronizationType =
        ShFragmentSynchronizationType.FragmentShaderInterlock_NV_GL then 1 else 0) ∧
    weighSs zeroW (callW .endInvocationInterlockARB) r.prog.mainBody =
      (if opts.pls.fragmentSynchronizationType =
        ShFragmentSynchronizationType.FragmentShaderInterlock_ARB_GL then 1 else 0) := by
  obtain ⟨s₁, s₂, top', body₁, h1, h2, ht, hb, he⟩ := RewritePLS_images_eq himg h
  obtain ⟨_, _, _, a4, _, _⟩ := rwStmtsImages_facts opts _ _ _ _ h1
  obtain ⟨_, _, _, b4, _, _⟩ := rwStmtsImages_facts opts _ _ _ _ h2
  have hbody : ∀ f, f ≠ Builtin.memoryBarrierImage →
      weighSs zeroW (callW f) body₁ = 0 := by
    intro f hf
    have hc := hclean f hf
    rw [weighP] at hc
    have ha : weighSs zeroW (callW f) top' = weighSs zeroW (callW f) p.topLevel :=
      a4 f hf
    have hbb : weighSs zeroW (callW f) body₁ = weighSs zeroW (callW f) p.mainBody :=
      b4 f hf
    rw [hbb]
    omega
  have hcp : ∀ f, weighSs zeroW (callW f)
      (if s₂.globalPixelCoord then [coordInitStmt] else []) = 0 := by
    intro f; split <;> rfl
  refine ⟨he, ⟨(if s₂.globalPixelCoord then [coordInitStmt] else []), body₁, ?_, ?_⟩,
    ?_, ?_, ?_, ?_, ?_⟩
  · split
    · right; rfl
    · left; rfl
  · rw [hb]; simp [List.append_assoc]
  all_goals
    rw [hb, weighSs_append, weighSs_append, weighSs_append, hcp,
      hbody _ (by simp)]
  all_goals
    cases hsync : opts.pls.fragmentSynchronizationType <;>
      simp [injectSetupCodeImages, injectFinalizeCodeImages, weighSs_cons,
        weighSs_nil, weighS, weighE, callW, zeroW]

/-- Witness for C6 at concrete bindings 0 and 1 with an 8-plane limit. -/
theorem C6_attachment_location_order_witness :
    mkPLSAttachment ⟨8⟩ ⟨⟨.FramebufferFetch, .NotSupported⟩, false⟩ 0 .RGBA8 =
      some ⟨4, .float, 7, true⟩ ∧
    mkPLSAttachment ⟨8⟩ ⟨⟨.FramebufferFetch, .NotSupported⟩, false⟩ 1 .R32UI =
      some ⟨1, .uint, 6, true⟩ ∧
    ((7 : Int) = 8 - 0 - 1 ∧ (0 < 1 → (6 : Int) < 7) ∧ ((7 : Int) = 6 → 0 = 1) ∧
      (7 : Int) ≤ 8 - 1) := by
  refine ⟨by decide, by decide, ?_⟩
  have := @C6_attachment_location_order ⟨8⟩
    ⟨⟨.FramebufferFetch, .NotSupported⟩, false⟩ 0 1 .RGBA8 .R32UI
    ⟨4, .float, 7, true⟩ ⟨1, .uint, 6, true⟩ (by decide) (by decide)
  simpa using this

/-- C5: under the framebuffer-fetch strategy, the final `main` body is the
preload block, then the rewritten original body, then the flush block: one
scratch-from-attachment assignment per registered attachment before the whole
rewritten body and one attachment-from-scratch assignment per attachment
after it, both blocks iterating the same registry in strictly ascending
binding order, with the registered bindings being exactly the declared PLS
bindings (whether or not the body accesses them); the rewritten body between
the two blocks contains no attachment-variable reference of its own beyond
those of the original program (none, when the input had none). -/
theorem C5_fb_preload_flush (resources : ShBuiltInResources)
    (opts : ShCompileOptions) (p : Program) (r : RewriteResult)
    (hfb : opts.pls.type = ShPixelLocalStorageType.FramebufferFetch)
    (h : RewritePixelLocalStorage resources opts p = some r)
    (hfragfree : weighP zeroW fragSymW p = 0) :
    ∃ (atts : List (Nat × PLSAttachment)) (mid : List Stmt),
      r.prog.mainBody =
        (atts.map fun q => Stmt.assign (.accessSym q.1)
          (swizzleFragmentVar q.1 q.2)) ++ mid ++
        (atts.map fun q => Stmt.assign (swizzleFragmentVar q.1 q.2)
          (.accessSym q.1)) ∧
      List.Pairwise (· < ·) (atts.map Prod.fst) ∧
      List.Perm (atts.map Prod.fst) (plsBindingsP p) ∧
      weighSs zeroW fragSymW mid = 0 := by
  rw [weighP] at hfragfree
  obtain ⟨s₁, s₂, top', body₁, h1, h2, ht, hb, he⟩ := RewritePLS_fb_eq hfb h
  obtain ⟨a1, a2, a3, a4, a5, a6, a7, a8, a9, a10, a11⟩ :=
    rwStmtsFb_facts resources opts _ _ _ _ h1
  obtain ⟨b1, b2, b3, b4, b5, b6, b7, b8, b9, b10, b11⟩ :=
    rwStmtsFb_facts resources opts _ _ _ _ h2
  refine ⟨s₂.atts, body₁, ?_, ?_, ?_, ?_⟩
  · rw [hb]; rfl
  · exact b11 (a11 (by simp))
  · exact b10.trans (a10.append_right (plsBindingsSs p.mainBody))
  · omega

/-- C7: under the framebuffer-fetch strategy, an unlocated fragment output
declaration is replaced by a declaration of the same variable with explicit
location 0, no unlocated output declaration survives anywhere in the
rewritten program, and no reference to the original unlocated variable
survives in the rewritten `main` body: every such reference was replaced by a
reference to the relocated variable. -/
theorem C7_output_relocation (resources : ShBuiltInResources)
    (opts : ShCompileOptions) (p : Program) (r : RewriteResult) (v : Nat)
    (hfb : opts.pls.type = ShPixelLocalStorageType.FramebufferFetch)
    (h : RewritePixelLocalStorage resources opts p = some r)
    (hdecl : Stmt.outDecl v none ∈ p.topLevel) :
    weighP outDeclNoneW zeroW r.prog = 0 ∧
    Stmt.outDecl v (some 0) ∈ r.prog.topLevel ∧
    weighSs zeroW (outSymNoneW v) r.prog.mainBody = 0 := by
  obtain ⟨s₁, s₂, top', body₁, h1, h2, ht, hb, he⟩ := RewritePLS_fb_eq hfb h
  obtain ⟨a1, a2, a3, a4, a5, a6, a7, a8, a9, a10, a11⟩ :=
    rwStmtsFb_facts resources opts _ _ _ _ h1
  obtain ⟨b1, b2, b3, b4, b5, b6, b7, b8, b9, b10, b11⟩ :=
    rwStmtsFb_facts resources opts _ _ _ _ h2
  obtain ⟨hmem, hreg⟩ :=
    rwStmtsFb_outDecl_mem resources opts v p.topLevel _ _ _ h1 hdecl
  obtain ⟨io1, io2⟩ := injectFb_weighSs outDeclNoneW zeroW s₂ (fun l r => rfl)
    (fun b => rfl) (fun b => rfl) (fun b n => rfl)
  obtain ⟨iv1, iv2⟩ := injectFb_weighSs zeroW (outSymNoneW v) s₂ (fun l r => rfl)
    (fun b => rfl) (fun b => rfl) (fun b n => rfl)
  refine ⟨?_, ?_, ?_⟩
  · rw [weighP, ht, hb, weighSs_append, weighSs_append]
    omega
  · rw [ht]; exact hmem
  · rw [hb, weighSs_append, weighSs_append]
    have hb9 := b9 v hreg
    omega

/-- C9: for an input with no pre-existing coordinate declaration, under the
image strategies the global pixel coordinate is declared exactly once in the
whole rewritten program, namely immediately at the first PLS declaration
(nothing before that declaration declares it), and its initialization to
`ivec2(floor(gl_FragCoord.xy))` is the very first statement of the rewritten
`main` body, preceding every statement the setup injection introduced; under
the framebuffer-fetch strategy the coordinate is never declared. -/
theorem C9_global_pixel_coord (resources : ShBuiltInResources)
    (opts : ShCompileOptions) (p : Program) (r : RewriteResult)
    (h : RewritePixelLocalStorage resources opts p = some r)
    (hcoord0 : weighP coordDeclW zeroW p = 0) :
    (∀ (A B : List Stmt) (b : Nat) (fmt : InternalFormat),
      opts.pls.type ≠ ShPixelLocalStorageType.FramebufferFetch →
      p.topLevel = A ++ Stmt.plsDecl b fmt :: B →
      weighSs plsDeclW zeroW A = 0 →
      weighP coordDeclW zeroW r.prog = 1 ∧
      (∃ (A' B' : List Stmt) (imgFmt : InternalFormat) (ro : Bool),
        r.prog.topLevel = A' ++ Stmt.coordDecl :: Stmt.imageDecl b imgFmt ro :: B' ∧
        weighSs coordDeclW zeroW A' = 0) ∧
      (∃ mid : List Stmt, r.prog.mainBody = coordInitStmt ::
        (injectSetupCodeImages opts.pls.fragmentSynchronizationType ++ mid ++
          injectFinalizeCodeImages opts.pls.fragmentSynchronizationType))) ∧
    (opts.pls.type = ShPixelLocalStorageType.FramebufferFetch →
      weighP coordDeclW zeroW r.prog = 0) := by
  rw [weighP] at hcoord0
  constructor
  · intro A B b fmt hnfb htop hA
    obtain ⟨s₁, s₂, top', body₁, h1, h2, ht, hb, he⟩ := RewritePLS_images_eq hnfb h
    rw [htop] at h1
    obtain ⟨sA, outA, outRest, g1, g2, rfl⟩ :=
      rwStmtsImages_append opts A _ _ _ _ h1
    rw [rwStmtsImages_cons_eq] at g2
    obtain ⟨sD, outD, outB, gD, gB, rfl⟩ := g2
    have hAcoord : weighSs coordDeclW zeroW A = 0 := by
      rw [htop, weighSs_append, weighSs_cons] at hcoord0
      omega
    have hBcoord : weighSs coordDeclW zeroW B = 0 := by
      rw [htop, weighSs_append, weighSs_cons] at hcoord0
      omega
    have hbodycoord : weighSs coordDeclW zeroW p.mainBody = 0 := by
      omega
    have hAflag : sA.globalPixelCoord = false := by
      have hiff := rwStmtsImages_flag opts ⟨[], false, 0⟩ A sA outA g1
      rw [hA] at hiff
      cases hv : sA.globalPixelCoord
      · rfl
      · exact absurd (hiff.mp hv) (by simp)
    rw [rwStmtImages_plsDecl_eq] at gD
    obtain ⟨imgFmt, images', hpf, hins, rfl, rfl⟩ := gD
    obtain ⟨fA1, fA2, fA3, fA4, fA5, fA6⟩ := rwStmtsImages_facts opts _ _ _ _ g1
    obtain ⟨fB1, fB2, fB3, fB4, fB5, fB6⟩ := rwStmtsImages_facts opts _ _ _ _ gB
    obtain ⟨fb1, fb2, fb3, fb4, fb5, fb6⟩ := rwStmtsImages_facts opts _ _ _ _ h2
    have hAout : weighSs coordDeclW zeroW outA = 0 := by
      rw [hAflag] at fA6
      simp only [Bool.false_eq_true, false_and, if_false] at fA6
      omega
    have hs1 : s₁.globalPixelCoord = true := fB5 rfl
    have hs2 : s₂.globalPixelCoord = true := fb5 hs1
    have hBout : weighSs coordDeclW zeroW outB = 0 := by
      simp only [Bool.true_eq_false, and_false, if_false] at fB6
      omega
    have hbodyout : weighSs coordDeclW zeroW body₁ = 0 := by
      rw [hs1] at fb6
      simp only [Bool.true_eq_false, and_false, if_false] at fb6
      omega
    obtain ⟨ic1, ic2⟩ := injectImages_weighSs coordDeclW zeroW
      opts.pls.fragmentSynchronizationType (fun e => rfl) (fun f => rfl)
    refine ⟨?_, ?_, ⟨body₁, ?_⟩⟩
    · rw [weighP, ht, hb, if_pos hs2]
      simp only [hAflag, Bool.false_eq_true, if_false, weighSs_append,
        weighSs_cons, weighSs_nil]
      have e1 : weighS coordDeclW zeroW Stmt.coordDecl = 1 := rfl
      have e2 : ∀ ro : Bool,
          weighS coordDeclW zeroW (Stmt.imageDecl b imgFmt ro) = 0 := fun ro => rfl
      have e3 : weighS coordDeclW zeroW coordInitStmt = 0 := rfl
      rw [e1, e2, e3]
      omega
    · refine ⟨outA, outB, imgFmt,
        decide (opts.pls.fragmentSynchronizationType =
          ShFragmentSynchronizationType.RasterizerOrderViews_D3D), ?_, hAout⟩
      rw [ht, hAflag]
      simp
    · rw [hb, if_pos hs2]
      rfl
  · intro hfb
    obtain ⟨s₁, s₂, top', body₁, h1, h2, ht, hb, he⟩ := RewritePLS_fb_eq hfb h
    obtain ⟨a1, a2, a3, a4, a5, a6, a7, a8, a9, a10, a11⟩ :=
      rwStmtsFb_facts resources opts _ _ _ _ h1
    obtain ⟨b1, b2, b3, b4, b5, b6, b7, b8, b9, b10, b11⟩ :=
      rwStmtsFb_facts resources opts _ _ _ _ h2
    obtain ⟨ic1, ic2⟩ := injectFb_weighSs coordDeclW zeroW s₂ (fun l r => rfl)
      (fun b => rfl) (fun b => rfl) (fun b n => rfl)
    rw [weighP, ht, hb, weighSs_append, weighSs_append]
    omega

/-- C4: in both strategies, rewriting a PLS store first allocates a fresh
temporary, re-traverses the store's value expression (so the rewritten
initializer contains no remaining PLS load), emits the temporary's
declaration as the first inserted statement — before the replacement of the
store itself — and hands the strategy's store hook the temporary, not the
original expression: under the image strategy the hook is invoked on the
temporary's index, and under the framebuffer-fetch strategy the replacement
assignment reads the (possibly swizzled) temporary. -/
theorem C4_store_value_hoisting :
    (∀ (opts : ShCompileOptions) (s s' : ImagesState) (b : Nat)
        (fmt : InternalFormat) (value : Expr) (out : List Stmt),
      rwStmtImages opts s (.plsStore b fmt value) = some (s', out) →
      ∃ value' s₂ pre repl post,
        rwExprImages opts { s with nextTemp := s.nextTemp + 1 } value =
          some value' ∧
        weighE loadW value' = 0 ∧
        visitPLSStoreImages opts { s with nextTemp := s.nextTemp + 1 } b fmt
          s.nextTemp = some (s₂, pre, repl, post) ∧
        out = Stmt.tempDecl s.nextTemp value' :: pre ++ [repl] ++ post) ∧
    (∀ (resources : ShBuiltInResources) (opts : ShCompileOptions)
        (s s' : FbState) (b : Nat) (fmt : InternalFormat) (value : Expr)
        (out : List Stmt),
      rwStmtFb resources opts s (.plsStore b fmt value) = some (s', out) →
      ∃ value' a,
        rwExprFb { s with nextTemp := s.nextTemp + 1 } value = some value' ∧
        weighE loadW value' = 0 ∧
        findBS b s.atts = some a ∧
        out = [Stmt.tempDecl s.nextTemp value',
          .assign (.accessSym b) (swizzled (.tempSym s.nextTemp) a.size)]) := by
  constructor
  · intro opts s s' b fmt value out h
    rw [rwStmtImages_plsStore_eq] at h
    obtain ⟨value', s₂, pre, repl, post, hval, hstore, rfl, rfl⟩ := h
    exact ⟨value', s', pre, repl, post, hval,
      (rwExprImages_weights opts _ hval).1, hstore, rfl⟩
  · intro resources opts s s' b fmt value out h
    rw [rwStmtFb_plsStore_eq] at h
    obtain ⟨value', a, hval, hfind, rfl, rfl⟩ := h
    exact ⟨value', a, hval, (rwExprFb_weights _ hval).1, hfind, rfl⟩

/-- Witness for C10: the empty program under the native-formats image
strategy with the NV interlock still receives the begin/end pair. -/
theorem C10_injection_without_pls_witness :
    countPLSDecls ⟨[], []⟩ = 0 ∧ countPLSOps ⟨[], []⟩ = 0 ∧
    RewritePixelLocalStorage ⟨8⟩
      ⟨⟨.ImageStoreNativeFormats, .FragmentShaderInterlock_NV_GL⟩, false⟩
      ⟨[], []⟩ =
      some ⟨⟨[], injectSetupCodeImages .FragmentShaderInterlock_NV_GL ++ [] ++
        injectFinalizeCodeImages .FragmentShaderInterlock_NV_GL⟩, true⟩ :=
  ⟨rfl, rfl, C10_injection_without_pls ⟨8⟩
    ⟨⟨.ImageStoreNativeFormats, .FragmentShaderInterlock_NV_GL⟩, false⟩
    ⟨[], []⟩ (Or.inr rfl) rfl rfl⟩

/-- Witness for C8: the empty program under the native-formats image strategy
with the NV interlock is wrapped in exactly one begin/end NV pair. -/
theorem C8_critical_section_injection_witness :
    RewritePixelLocalStorage ⟨8⟩
      ⟨⟨.ImageStoreNativeFormats, .FragmentShaderInterlock_NV_GL⟩, false⟩
      ⟨[], []⟩ =
      some ⟨⟨[], [.exprStmt (.call0 .beginInvocationInterlockNV),
        .exprStmt (.call0 .endInvocationInterlockNV)]⟩, true⟩ ∧
    (∀ f, f ≠ Builtin.memoryBarrierImage →
      weighP zeroW (callW f) ⟨[], []⟩ = 0) ∧
    ((true : Bool) = true ∧
     (∃ coordPre mid, (coordPre = [] ∨ coordPre = [coordInitStmt]) ∧
       ([Stmt.exprStmt (.call0 .beginInvocationInterlockNV),
         Stmt.exprStmt (.call0 .endInvocationInterlockNV)] : List Stmt) =
         coordPre ++ injectSetupCodeImages .FragmentShaderInterlock_NV_GL ++
           mid ++ injectFinalizeCodeImages .FragmentShaderInterlock_NV_GL) ∧
     weighSs zeroW (callW .beginInvocationInterlockNV)
       [Stmt.exprStmt (.call0 .beginInvocationInterlockNV),
        Stmt.exprStmt (.call0 .endInvocationInterlockNV)] = 1 ∧
     weighSs zeroW (callW .beginFragmentShaderOrderingINTEL)
       [Stmt.exprStmt (.call0 .beginInvocationInterlockNV),
        Stmt.exprStmt (.call0 .endInvocationInterlockNV)] = 0 ∧
     weighSs zeroW (callW .beginInvocationInterlockARB)
       [Stmt.exprStmt (.call0 .beginInvocationInterlockNV),
        Stmt.exprStmt (.call0 .endInvocationInterlockNV)] = 0 ∧
     weighSs zeroW (callW .endInvocationInterlockNV)
       [Stmt.exprStmt (.call0 .beginInvocationInterlockNV),
        Stmt.exprStmt (.call0 .endInvocationInterlockNV)] = 1 ∧
     weighSs zeroW (callW .endInvocationInterlockARB)
       [Stmt.exprStmt (.call0 .beginInvocationInterlockNV),
        Stmt.exprStmt (.call0 .endInvocationInterlockNV)] = 0) :=
  ⟨rfl, fun f hf => rfl,
    C8_critical_section_injection ⟨8⟩
      ⟨⟨.ImageStoreNativeFormats, .FragmentShaderInterlock_NV_GL⟩, false⟩
      ⟨[], []⟩
      ⟨⟨[], [.exprStmt (.call0 .beginInvocationInterlockNV),
        .exprStmt (.call0 .endInvocationInterlockNV)]⟩, true⟩
      (by decide) rfl (fun f hf => rfl)⟩

/-- Witness for C1: one PLS declaration plus one store under the
native-formats image strategy yields one image declaration and no residual
PLS node. -/
theorem C1_backing_store_counts_witness :
    RewritePixelLocalStorage ⟨8⟩
      ⟨⟨.ImageStoreNativeFormats, .FragmentShaderInterlock_NV_GL⟩, false⟩
      ⟨[.plsDecl 0 .RGBA8], [.plsStore 0 .RGBA8 (.plsLoad 0 .RGBA8)]⟩ =
      some ⟨⟨[.coordDecl, .imageDecl 0 .RGBA8 false],
        [coordInitStmt,
         .exprStmt (.call0 .beginInvocationInterlockNV),
         .tempDecl 0 (.call2 .imageLoad (.imageSym 0) .coordSym),
         .exprStmt (.call0 .memoryBarrierImage),
         .exprStmt (.call3 .imageStore (.imageSym 0) .coordSym (.tempSym 0)),
         .exprStmt (.call0 .memoryBarrierImage),
         .exprStmt (.call0 .endInvocationInterlockNV)]⟩, true⟩ ∧
    (plsBindingsP
      ⟨[.plsDecl 0 .RGBA8], [.plsStore 0 .RGBA8 (.plsLoad 0 .RGBA8)]⟩).Nodup ∧
    (countPLSDecls ⟨[.coordDecl, .imageDecl 0 .RGBA8 false],
        [coordInitStmt,
         .exprStmt (.call0 .beginInvocationInterlockNV),
         .tempDecl 0 (.call2 .imageLoad (.imageSym 0) .coordSym),
         .exprStmt (.call0 .memoryBarrierImage),
         .exprStmt (.call3 .imageStore (.imageSym 0) .coordSym (.tempSym 0)),
         .exprStmt (.call0 .memoryBarrierImage),
         .exprStmt (.call0 .endInvocationInterlockNV)]⟩ = 0 ∧
     countPLSOps ⟨[.coordDecl, .imageDecl 0 .RGBA8 false],
        [coordInitStmt,
         .exprStmt (.call0 .beginInvocationInterlockNV),
         .tempDecl 0 (.call2 .imageLoad (.imageSym 0) .coordSym),
         .exprStmt (.call0 .memoryBarrierImage),
         .exprStmt (.call3 .imageStore (.imageSym 0) .coordSym (.tempSym 0)),
         .exprStmt (.call0 .memoryBarrierImage),
         .exprStmt (.call0 .endInvocationInterlockNV)]⟩ = 0 ∧
     (ShPixelLocalStorageType.ImageStoreNativeFormats ≠
        ShPixelLocalStorageType.FramebufferFetch →
      weighP imageDeclW zeroW ⟨[.coordDecl, .imageDecl 0 .RGBA8 false],
        [coordInitStmt,
         .exprStmt (.call0 .beginInvocationInterlockNV),
         .tempDecl 0 (.call2 .imageLoad (.imageSym 0) .coordSym),
         .exprStmt (.call0 .memoryBarrierImage),
         .exprStmt (.call3 .imageStore (.imageSym 0) .coordSym (.tempSym 0)),
         .exprStmt (.call0 .memoryBarrierImage),
         .exprStmt (.call0 .endInvocationInterlockNV)]⟩ =
        countPLSDecls
          ⟨[.plsDecl 0 .RGBA8], [.plsStore 0 .RGBA8 (.plsLoad 0 .RGBA8)]⟩) ∧
     (ShPixelLocalStorageType.ImageStoreNativeFormats =
        ShPixelLocalStorageType.FramebufferFetch →
      weighP fragVarDeclW zeroW ⟨[.coordDecl, .imageDecl 0 .RGBA8 false],
        [coordInitStmt,
         .exprStmt (.call0 .beginInvocationInterlockNV),
         .tempDecl 0 (.call2 .imageLoad (.imageSym 0) .coordSym),
         .exprStmt (.call0 .memoryBarrierImage),
         .exprStmt (.call3 .imageStore (.imageSym 0) .coordSym (.tempSym 0)),
         .exprStmt (.call0 .memoryBarrierImage),
         .exprStmt (.call0 .endInvocationInterlockNV)]⟩ =
        countPLSDecls
          ⟨[.plsDecl 0 .RGBA8], [.plsStore 0 .RGBA8 (.plsLoad 0 .RGBA8)]⟩ ∧
      weighP accessVarDeclW zeroW ⟨[.coordDecl, .imageDecl 0 .RGBA8 false],
        [coordInitStmt,
         .exprStmt (.call0 .beginInvocationInterlockNV),
         .tempDecl 0 (.call2 .imageLoad (.imageSym 0) .coordSym),
         .exprStmt (.call0 .memoryBarrierImage),
         .exprStmt (.call3 .imageStore (.imageSym 0) .coordSym (.tempSym 0)),
         .exprStmt (.call0 .memoryBarrierImage),
         .exprStmt (.call0 .endInvocationInterlockNV)]⟩ =
        countPLSDecls
          ⟨[.plsDecl 0 .RGBA8], [.plsStore 0 .RGBA8 (.plsLoad 0 .RGBA8)]⟩)) :=
  ⟨rfl, by decide,
    C1_backing_store_counts ⟨8⟩
      ⟨⟨.ImageStoreNativeFormats, .FragmentShaderInterlock_NV_GL⟩, false⟩
      ⟨[.plsDecl 0 .RGBA8], [.plsStore 0 .RGBA8 (.plsLoad 0 .RGBA8)]⟩
      ⟨⟨[.coordDecl, .imageDecl 0 .RGBA8 false],
        [coordInitStmt,
         .exprStmt (.call0 .beginInvocationInterlockNV),
         .tempDecl 0 (.call2 .imageLoad (.imageSym 0) .coordSym),
         .exprStmt (.call0 .memoryBarrierImage),
         .exprStmt (.call3 .imageStore (.imageSym 0) .coordSym (.tempSym 0)),
         .exprStmt (.call0 .memoryBarrierImage),
         .exprStmt (.call0 .endInvocationInterlockNV)]⟩, true⟩
      rfl (by decide) rfl rfl rfl⟩

/-- Witness for C4: rewriting a store whose value is itself a PLS load, in
both strategies, at concrete states. -/
theorem C4_store_value_hoisting_witness :
    rwStmtImages
      ⟨⟨.ImageStoreNativeFormats, .FragmentShaderInterlock_NV_GL⟩, false⟩
      ⟨[(0, .RGBA8)], true, 0⟩ (.plsStore 0 .RGBA8 (.plsLoad 0 .RGBA8)) =
      some (⟨[(0, .RGBA8)], true, 1⟩,
        [.tempDecl 0 (.call2 .imageLoad (.imageSym 0) .coordSym),
         .exprStmt (.call0 .memoryBarrierImage),
         .exprStmt (.call3 .imageStore (.imageSym 0) .coordSym (.tempSym 0)),
         .exprStmt (.call0 .memoryBarrierImage)]) ∧
    (∃ value' s₂ pre repl post,
      rwExprImages
        ⟨⟨.ImageStoreNativeFormats, .FragmentShaderInterlock_NV_GL⟩, false⟩
        ⟨[(0, .RGBA8)], true, 1⟩ (.plsLoad 0 .RGBA8) = some value' ∧
      weighE loadW value' = 0 ∧
      visitPLSStoreImages
        ⟨⟨.ImageStoreNativeFormats, .FragmentShaderInterlock_NV_GL⟩, false⟩
        ⟨[(0, .RGBA8)], true, 1⟩ 0 .RGBA8 0 = some (s₂, pre, repl, post) ∧
      ([Stmt.tempDecl 0 (.call2 .imageLoad (.imageSym 0) .coordSym),
        .exprStmt (.call0 .memoryBarrierImage),
        .exprStmt (.call3 .imageStore (.imageSym 0) .coordSym (.tempSym 0)),
        .exprStmt (.call0 .memoryBarrierImage)] : List Stmt) =
        Stmt.tempDecl 0 value' :: pre ++ [repl] ++ post) ∧
    rwStmtFb ⟨8⟩ ⟨⟨.FramebufferFetch, .NotSupported⟩, false⟩
      ⟨[(0, ⟨4, .float, 7, true⟩)], [], 0⟩
      (.plsStore 0 .RGBA8 (.plsLoad 0 .RGBA8)) =
      some (⟨[(0, ⟨4, .float, 7, true⟩)], [], 1⟩,
        [.tempDecl 0 (.accessSym 0), .assign (.accessSym 0) (.tempSym 0)]) ∧
    (∃ value' a,
      rwExprFb ⟨[(0, ⟨4, .float, 7, true⟩)], [], 1⟩ (.plsLoad 0 .RGBA8) =
        some value' ∧
      weighE loadW value' = 0 ∧
      findBS 0 [(0, (⟨4, .float, 7, true⟩ : PLSAttachment))] = some a ∧
      ([Stmt.tempDecl 0 (.accessSym 0),
        .assign (.accessSym 0) (.tempSym 0)] : List Stmt) =
        [Stmt.tempDecl 0 value',
         .assign (.accessSym 0) (swizzled (.tempSym 0) a.size)]) :=
  ⟨rfl,
    C4_store_value_hoisting.1
      ⟨⟨.ImageStoreNativeFormats, .FragmentShaderInterlock_NV_GL⟩, false⟩
      ⟨[(0, .RGBA8)], true, 0⟩ ⟨[(0, .RGBA8)], true, 1⟩ 0 .RGBA8
      (.plsLoad 0 .RGBA8)
      [.tempDecl 0 (.call2 .imageLoad (.imageSym 0) .coordSym),
       .exprStmt (.call0 .memoryBarrierImage),
       .exprStmt (.call3 .imageStore (.imageSym 0) .coordSym (.tempSym 0)),
       .exprStmt (.call0 .memoryBarrierImage)] rfl,
    rfl,
    C4_store_value_hoisting.2 ⟨8⟩ ⟨⟨.FramebufferFetch, .NotSupported⟩, false⟩
      ⟨[(0, ⟨4, .float, 7, true⟩)], [], 0⟩ ⟨[(0, ⟨4, .float, 7, true⟩)], [], 1⟩
      0 .RGBA8 (.plsLoad 0 .RGBA8)
      [.tempDecl 0 (.accessSym 0), .assign (.accessSym 0) (.tempSym 0)] rfl⟩

/-- Witness for C5: two PLS declarations and an empty body under the
framebuffer-fetch strategy still give preload and flush blocks in ascending
binding order. -/
theorem C5_fb_preload_flush_witness :
    RewritePixelLocalStorage ⟨8⟩ ⟨⟨.FramebufferFetch, .NotSupported⟩, false⟩
      ⟨[.plsDecl 0 .RGBA8, .plsDecl 1 .R32UI], []⟩ =
      some ⟨⟨[.fragVarDecl 0 7 true, .accessVarDecl 0 4,
              .fragVarDecl 1 6 true, .accessVarDecl 1 1],
        [.assign (.accessSym 0) (.fragSym 0),
         .assign (.accessSym 1) (.swizzle (.fragSym 1) [0]),
         .assign (.fragSym 0) (.accessSym 0),
         .assign (.swizzle (.fragSym 1) [0]) (.accessSym 1)]⟩, false⟩ ∧
    weighP zeroW fragSymW ⟨[.plsDecl 0 .RGBA8, .plsDecl 1 .R32UI], []⟩ = 0 ∧
    (∃ (atts : List (Nat × PLSAttachment)) (mid : List Stmt),
      ([Stmt.assign (.accessSym 0) (.fragSym 0),
        .assign (.accessSym 1) (.swizzle (.fragSym 1) [0]),
        .assign (.fragSym 0) (.accessSym 0),
        .assign (.swizzle (.fragSym 1) [0]) (.accessSym 1)] : List Stmt) =
        (atts.map fun q => Stmt.assign (.accessSym q.1)
          (swizzleFragmentVar q.1 q.2)) ++ mid ++
        (atts.map fun q => Stmt.assign (swizzleFragmentVar q.1 q.2)
          (.accessSym q.1)) ∧
      List.Pairwise (· < ·) (atts.map Prod.fst) ∧
      List.Perm (atts.map Prod.fst)
        (plsBindingsP ⟨[.plsDecl 0 .RGBA8, .plsDecl 1 .R32UI], []⟩) ∧
      weighSs zeroW fragSymW mid = 0) :=
  ⟨rfl, rfl,
    C5_fb_preload_flush ⟨8⟩ ⟨⟨.FramebufferFetch, .NotSupported⟩, false⟩
      ⟨[.plsDecl 0 .RGBA8, .plsDecl 1 .R32UI], []⟩
      ⟨⟨[.fragVarDecl 0 7 true, .accessVarDecl 0 4,
         .fragVarDecl 1 6 true, .accessVarDecl 1 1],
        [.assign (.accessSym 0) (.fragSym 0),
         .assign (.accessSym 1) (.swizzle (.fragSym 1) [0]),
         .assign (.fragSym 0) (.accessSym 0),
         .assign (.swizzle (.fragSym 1) [0]) (.accessSym 1)]⟩, false⟩
      rfl rfl rfl⟩

/-- Witness for C7: an unlocated output declaration followed by a PLS
declaration, with a body reference, under the framebuffer-fetch strategy. -/
theorem C7_output_relocation_witness :
    RewritePixelLocalStorage ⟨8⟩ ⟨⟨.FramebufferFetch, .NotSupported⟩, false⟩
      ⟨[.outDecl 5 none, .plsDecl 0 .RGBA8],
       [.assign (.outSym 5 none) (.intConst 1)]⟩ =
      some ⟨⟨[.outDecl 5 (some 0), .fragVarDecl 0 7 true, .accessVarDecl 0 4],
        [.assign (.accessSym 0) (.fragSym 0),
         .assign (.outSym 5 (some 0)) (.intConst 1),
         .assign (.fragSym 0) (.accessSym 0)]⟩, false⟩ ∧
    Stmt.outDecl 5 none ∈
      ([Stmt.outDecl 5 none, .plsDecl 0 .RGBA8] : List Stmt) ∧
    (weighP outDeclNoneW zeroW
      ⟨[.outDecl 5 (some 0), .fragVarDecl 0 7 true, .accessVarDecl 0 4],
        [.assign (.accessSym 0) (.fragSym 0),
         .assign (.outSym 5 (some 0)) (.intConst 1),
         .assign (.fragSym 0) (.accessSym 0)]⟩ = 0 ∧
     Stmt.outDecl 5 (some 0) ∈
       ([Stmt.outDecl 5 (some 0), .fragVarDecl 0 7 true,
         .accessVarDecl 0 4] : List Stmt) ∧
     weighSs zeroW (outSymNoneW 5)
       [Stmt.assign (.accessSym 0) (.fragSym 0),
        .assign (.outSym 5 (some 0)) (.intConst 1),
        .assign (.fragSym 0) (.accessSym 0)] = 0) :=
  ⟨rfl, List.mem_cons_self _ _,
    C7_output_relocation ⟨8⟩ ⟨⟨.FramebufferFetch, .NotSupported⟩, false⟩
      ⟨[.outDecl 5 none, .plsDecl 0 .RGBA8],
       [.assign (.outSym 5 none) (.intConst 1)]⟩
      ⟨⟨[.outDecl 5 (some 0), .fragVarDecl 0 7 true, .accessVarDecl 0 4],
        [.assign (.accessSym 0) (.fragSym 0),
         .assign (.outSym 5 (some 0)) (.intConst 1),
         .assign (.fragSym 0) (.accessSym 0)]⟩, false⟩ 5
      rfl rfl (List.mem_cons_self _ _)⟩

/-- Witness for C9: a single PLS declaration under the native-formats image
strategy with the NV interlock declares and initializes the global pixel
coordinate exactly once. -/
theorem C9_global_pixel_coord_witness :
    weighP coordDeclW zeroW ⟨[.plsDecl 0 .RGBA8], []⟩ = 0 ∧
    RewritePixelLocalStorage ⟨8⟩
      ⟨⟨.ImageStoreNativeFormats, .FragmentShaderInterlock_NV_GL⟩, false⟩
      ⟨[.plsDecl 0 .RGBA8], []⟩ =
      some ⟨⟨[.coordDecl, .imageDecl 0 .RGBA8 false],
        [coordInitStmt,
         .exprStmt (.call0 .beginInvocationInterlockNV),
         .exprStmt (.call0 .endInvocationInterlockNV)]⟩, true⟩ ∧
    (weighP coordDeclW zeroW ⟨[.coordDecl, .imageDecl 0 .RGBA8 false],
        [coordInitStmt,
         .exprStmt (.call0 .beginInvocationInterlockNV),
         .exprStmt (.call0 .endInvocationInterlockNV)]⟩ = 1 ∧
     (∃ (A' B' : List Stmt) (imgFmt : InternalFormat) (ro : Bool),
       ([Stmt.coordDecl, .imageDecl 0 .RGBA8 false] : List Stmt) =
         A' ++ Stmt.coordDecl :: Stmt.imageDecl 0 imgFmt ro :: B' ∧
       weighSs coordDeclW zeroW A' = 0) ∧
     (∃ mid : List Stmt,
       ([coordInitStmt,
         Stmt.exprStmt (.call0 .beginInvocationInterlockNV),
         Stmt.exprStmt (.call0 .endInvocationInterlockNV)] : List Stmt) =
         coordInitStmt ::
           (injectSetupCodeImages .FragmentShaderInterlock_NV_GL ++ mid ++
            injectFinalizeCodeImages .FragmentShaderInterlock_NV_GL))) :=
  ⟨rfl, rfl,
    (C9_global_pixel_coord ⟨8⟩
      ⟨⟨.ImageStoreNativeFormats, .FragmentShaderInterlock_NV_GL⟩, false⟩
      ⟨[.plsDecl 0 .RGBA8], []⟩
      ⟨⟨[.coordDecl, .imageDecl 0 .RGBA8 false],
        [coordInitStmt,
         .exprStmt (.call0 .beginInvocationInterlockNV),
         .exprStmt (.call0 .endInvocationInterlockNV)]⟩, true⟩
      rfl rfl).1 [] [] 0 .RGBA8 (by decide) rfl rfl⟩

end PLSRewrite
